import Mathlib

/-!
Nebula overlay VPN: relay manager, inside packet path, connection manager.

A shallow embedding of `relay_manager.go`, `inside.go` and of the connection
manager's traffic check.  Go pointers to `HostInfo` and `ConnectionState` are
keys into two heaps held by the `Interface` state; Go maps with 32-bit keys
are association lists; calls into collaborators that lie outside the embedded
files (firewall, cipher, UDP writer, lighthouse) are answered by an `Env` of
oracles and recorded as `Event`s.
-/

namespace Nebula

/-! ## Go maps -/

/-- Go map with 32-bit integer keys, kept as an association list in which the
first binding of a key is the visible one. -/
structure NatMap (ν : Type) where
  entries : List (Nat × ν)
deriving DecidableEq, Repr

namespace NatMap

variable {ν : Type}

/-- The map literal without entries. -/
def empty : NatMap ν := ⟨[]⟩

/-- Lookup in a list of bindings. -/
def lookupIn : List (Nat × ν) → Nat → Option ν
  | [], _ => none
  | e :: es, k => if e.1 = k then some e.2 else lookupIn es k

/-- Read of `m[k]` in the two-result form: `some v` when the key is present. -/
def get (m : NatMap ν) (k : Nat) : Option ν := lookupIn m.entries k

/-- The builtin `delete(m, k)`. -/
def delete (m : NatMap ν) (k : Nat) : NatMap ν :=
  ⟨m.entries.filter (fun e => !(e.1 == k))⟩

/-- Assignment `m[k] = v`. -/
def set (m : NatMap ν) (k : Nat) (v : ν) : NatMap ν :=
  ⟨(k, v) :: (m.delete k).entries⟩

/-- Membership test `_, ok := m[k]`. -/
def contains (m : NatMap ν) (k : Nat) : Bool := (m.get k).isSome

/-- First binding whose value satisfies `p`. -/
def findVal (m : NatMap ν) (p : ν → Bool) : Option (Nat × ν) :=
  m.entries.find? (fun e => p e.2)

end NatMap

/-! ## Data model -/

/-- Overlay address `iputil.VpnIp`, a 32-bit unsigned integer. -/
abbrev VpnIp := Nat

/-- Identity of a `*HostInfo`. -/
abbrev HostId := Nat

/-- Identity of a `*ConnectionState`. -/
abbrev ConnId := Nat

/-- Modelled from the spec: the underlay address type `udp.Addr`, an IP
address with a port. -/
structure UdpAddr where
  IP : Nat
  Port : Nat
deriving DecidableEq, Repr

/-- An IPv4 network `net.IPNet`, address and mask as 32-bit integers. -/
structure IPNet where
  IP : Nat
  Mask : Nat
deriving DecidableEq, Repr

/-- Membership `n.Contains(ip)`. -/
def IPNet.Contains (n : IPNet) (ip : Nat) : Bool :=
  (ip &&& n.Mask) == (n.IP &&& n.Mask)

/-- Modelled from the spec: the relay kinds `ForwardingType` and
`TerminalType`, constants of the absent `hostmap.go`. -/
inductive RelayType where
  | ForwardingType
  | TerminalType
deriving DecidableEq, Repr

/-- Modelled from the spec: the relay states `Requested` and `Established`,
constants of the absent `hostmap.go`. -/
inductive RelayStatus where
  | Requested
  | Established
deriving DecidableEq, Repr

export RelayType (ForwardingType TerminalType)
export RelayStatus (Requested Established)

/-- Modelled from the spec: the `Relay` record of the absent `hostmap.go`,
with type, state, local index, remote index and peer overlay IP. -/
structure Relay where
  Type_ : RelayType
  State : RelayStatus
  LocalIndex : Nat
  RemoteIndex : Nat
  PeerIp : VpnIp
deriving DecidableEq, Repr

/-- Modelled from the spec: the `RelayState` type of `hostmap.go`, which is
not among the sources.  The spec keeps the relays of a hostinfo in one mapping
from peer overlay IP to `Relay` (`relay_state.relays[peer_ip]`). -/
structure RelayState where
  relays : NatMap Relay
deriving DecidableEq, Repr

/-- Modelled from the spec: `RelayState.QueryRelayForByIp`, the lookup of the
relay stored under a peer overlay IP. -/
def RelayState.QueryRelayForByIp (rs : RelayState) (vpnIp : VpnIp) : Option Relay :=
  rs.relays.get vpnIp

/-- Modelled from the spec: `RelayState.InsertRelay(ip, idx, r)`, which stores
`r` under the peer overlay IP `ip`. -/
def RelayState.InsertRelay (rs : RelayState) (ip : VpnIp) (_idx : Nat) (r : Relay) :
    RelayState :=
  ⟨rs.relays.set ip r⟩

/-- Completion of a relay entry: state `Established`, remote index filled in. -/
def Relay.complete (r : Relay) (remoteIdx : Nat) : Relay :=
  { r with State := Established, RemoteIndex := remoteIdx }

/-- Modelled from the spec: `RelayState.CompleteRelayByIP`, which completes
the relay stored under a peer overlay IP and reports whether there was one. -/
def RelayState.CompleteRelayByIP (rs : RelayState) (vpnIp : VpnIp) (remoteIdx : Nat) :
    RelayState × Bool :=
  match rs.relays.get vpnIp with
  | none => (rs, false)
  | some r => (⟨rs.relays.set vpnIp (r.complete remoteIdx)⟩, true)

/-- Modelled from the spec: `RelayState.CompleteRelayByIdx`, which completes
the relay whose local index is `localIdx` and returns it, or reports that
there is none. -/
def RelayState.CompleteRelayByIdx (rs : RelayState) (localIdx remoteIdx : Nat) :
    RelayState × Option Relay :=
  match rs.relays.findVal (fun r => r.LocalIndex == localIdx) with
  | none => (rs, none)
  | some (ip, r) => (⟨rs.relays.set ip (r.complete remoteIdx)⟩, some (r.complete remoteIdx))

/-- Modelled from the spec: the part of `ConnectionState` the embedded code
reads: encrypt and decrypt keys (absent until the handshake yields them), the
`ready` flag, the outbound message counter (64 bit) and the expiry of the
peer certificate. -/
structure ConnectionState where
  eKey : Option Nat
  dKey : Option Nat
  ready : Bool
  atomicMessageCounter : Nat
  peerCertNotAfter : Option Nat
deriving DecidableEq, Repr

/-- Modelled from the spec: the message types of the datagram header
(package `header`, section 4.A). -/
inductive MessageType where
  | Handshake
  | Message
  | RecvError
  | LightHouse
  | Test
  | CloseTunnel
  | Control
deriving DecidableEq, Repr

/-- The replay callbacks that `cachePacket` is given. -/
inductive PacketCallback where
  | sendMessageNow
  | sendMessageToVpnIp
deriving DecidableEq, Repr

/-- Modelled from the spec: a packet held in the queue of a hostinfo while
the tunnel is not ready, with its type, subtype and replay callback as
`cachePacket` receives them. -/
structure CachedPacket where
  messageType : MessageType
  messageSubType : Nat
  callback : PacketCallback
  packet : List Nat
deriving DecidableEq, Repr

/-- Modelled from the spec: the `HostInfo` record of the absent `hostmap.go`,
one per tunnel attempt, restricted to the attributes the embedded code reads
or writes. -/
structure HostInfo where
  vpnIp : VpnIp
  localIndexId : Nat
  remoteIndexId : Nat
  remote : Option UdpAddr
  ConnectionState : Option ConnId
  HandshakeReady : Bool
  lastRebindCount : Nat
  promoteCounter : Nat
  packetStore : List CachedPacket
  relayState : RelayState
deriving DecidableEq, Repr

/-- Modelled from the spec: the `HostMap` type of `hostmap.go`; its mappings
hold hostinfo identities. -/
structure HostMap where
  Hosts : NatMap HostId
  Indexes : NatMap HostId
  RemoteIndexes : NatMap HostId
  Relays : NatMap HostId
  vpnCIDR : IPNet
  preferredRanges : List IPNet
deriving DecidableEq, Repr

/-- Modelled from the spec: the three sets of the connection manager, keyed
by local index. -/
structure ConnectionManager where
  in_ : NatMap Unit
  out : NatMap Unit
  pendingDeletion : NatMap Unit
deriving DecidableEq, Repr

/-- Modelled from the spec: the kinds of the `NebulaControl` message (the
generated message code is absent); `None` is the zero value. -/
inductive NebulaControl_MessageType where
  | None
  | CreateRelayRequest
  | CreateRelayResponse
deriving DecidableEq, Repr

/-- Modelled from the spec: the `NebulaControl` message exchanged by relay
managers, by fields. -/
structure NebulaControl where
  Type_ : NebulaControl_MessageType
  InitiatorRelayIndex : Nat
  ResponderRelayIndex : Nat
  RelayFromIp : Nat
  RelayToIp : Nat
deriving DecidableEq, Repr

/-- Modelled from the spec: the 16-byte datagram header of section 4.A, by
fields. -/
structure H where
  Version : Nat
  Type_ : MessageType
  Subtype : Nat
  Reserved : Nat
  RemoteIndex : Nat
  MessageCounter : Nat
deriving DecidableEq, Repr

/-- Modelled from the spec: `firewall.Packet`, what `newPacket` extracts from
an inside packet for the firewall. -/
structure FirewallPacket where
  LocalIP : VpnIp
  RemoteIP : VpnIp
  LocalPort : Nat
  RemotePort : Nat
  Protocol : Nat
  Fragment : Bool
deriving DecidableEq, Repr

/-- Modelled from the spec: the node state reachable from `f *Interface`
(declared in the absent `interface.go`): both host maps, the heaps of
hostinfos and connection states, the relay flag of the relay manager, the
connection manager, the lighthouse's static host list and the handshake
trigger channel. -/
structure Interface where
  hostMap : HostMap
  pendingHostMap : HostMap
  hosts : HostId → HostInfo
  conns : ConnId → ConnectionState
  nextHostId : Nat
  nextConnId : Nat
  myVpnIp : VpnIp
  localBroadcast : VpnIp
  dropLocalBroadcast : Bool
  dropMulticast : Bool
  rebindCount : Nat
  amRelay : Bool
  disconnectInvalid : Bool
  connectionManager : ConnectionManager
  staticList : NatMap Unit
  trigger : List VpnIp
  triggerBuffer : Nat
  tryPromoteEvery : Nat
  randPos : Nat

/-- Answers of the collaborators that are outside the embedded files. -/
structure Env where
  /-- Outcome of the n-th read of the random source by `generateIndex`. -/
  rand : Nat → Except String Nat
  /-- The parser `newPacket` of inside packets. -/
  newPacket : List Nat → Except String FirewallPacket
  /-- The verdict of `Firewall.Drop`: `none` lets the packet pass. -/
  firewallDrop : List Nat → FirewallPacket → HostId → Option String
  /-- The cipher `EncryptDanger(out, out, p, c, nb)`. -/
  encryptDanger : Nat → H → List Nat → Nat → Except String (List Nat)
  /-- The UDP writer `writers[q].WriteTo(out, remote)`: `none` is success. -/
  writeTo : Nat → List Nat → Option UdpAddr → Option String
  /-- The route lookup `inside.RouteFor`. -/
  RouteFor : VpnIp → VpnIp
  /-- The bound of the per-hostinfo packet queue. -/
  packetStoreBound : Nat

/-- Calls that leave the embedded code, in the order they are made. -/
inductive Event where
  | sendMessageToVpnIp (t : MessageType) (st : Nat) (hostInfo : HostId) (p : List Nat)
  | getOrHandshake (vpnIp : VpnIp)
  | firewallDrop (packet : List Nat) (hostinfo : HostId)
  | cachePacket (hostinfo : HostId) (t : MessageType) (st : Nat) (packet : List Nat)
      (cb : PacketCallback)
  | queryServer (vpnIp : VpnIp)
  | encryptDanger (hdr : H) (p : List Nat) (c : Nat)
  | writeTo (q : Nat) (out : List Nat) (remote : Option UdpAddr)
  | ixHandshakeStage0 (vpnIp : VpnIp) (hostinfo : HostId)
  | timerAdd (vpnIp : VpnIp)
deriving DecidableEq, Repr

/-- Update of one hostinfo on the heap. -/
def Interface.setHost (f : Interface) (h : HostId) (hi : HostInfo) : Interface :=
  { f with hosts := Function.update f.hosts h hi }

/-- Update of one connection state on the heap. -/
def Interface.setConn (f : Interface) (c : ConnId) (cs : ConnectionState) : Interface :=
  { f with conns := Function.update f.conns c cs }

/-! ## Host map operations -/

/-- Modelled from the spec: `HostMap.QueryVpnIp`, the lookup of the primary
hostinfo of an overlay IP. -/
def HostMap.QueryVpnIp (hm : HostMap) (vpnIp : VpnIp) : Option HostId :=
  hm.Hosts.get vpnIp

/-- Modelled from the spec: `HostMap.unlockedMakePrimary`, which replaces the
`hosts[vpn_ip]` pointer by the given hostinfo. -/
def HostMap.unlockedMakePrimary (hm : HostMap) (vpnIp : VpnIp) (hostinfo : HostId) : HostMap :=
  { hm with Hosts := hm.Hosts.set vpnIp hostinfo }

/-- Modelled from the spec: `generateIndex`, one draw of a random 32-bit
index other than the reserved value 0, or the error of the random source. -/
def generateIndex (env : Env) (f : Interface) : Except String Nat × Interface :=
  ((env.rand f.randPos).map (fun r => r % (2 ^ 32 - 1) + 1),
    { f with randPos := f.randPos + 1 })

/-! ## relay_manager.go -/

/-- Lines 67-80 of `AddRelay`: the relay hostinfo is made primary, the index
is entered into `hm.Relays` and the new relay into the hostinfo's relay state. -/
def AddRelay.install (f : Interface) (relayHostInfo : HostId) (vpnIp : VpnIp)
    (remoteIdx : Option Nat) (relayType : RelayType) (state : RelayStatus) (index : Nat) :
    Interface :=
  let hm1 := f.hostMap.unlockedMakePrimary (f.hosts relayHostInfo).vpnIp relayHostInfo
  let hm2 := { hm1 with Relays := hm1.Relays.set index relayHostInfo }
  let newRelay : Relay :=
    { Type_ := relayType, State := state, LocalIndex := index,
      RemoteIndex := remoteIdx.getD 0, PeerIp := vpnIp }
  let hi := f.hosts relayHostInfo
  { f with
    hostMap := hm2
    hosts := Function.update f.hosts relayHostInfo
      { hi with relayState := hi.relayState.InsertRelay vpnIp index newRelay } }

/-- The loop of `AddRelay`, with `n` iterations left. -/
def AddRelay.loop (env : Env) (relayHostInfo : HostId) (vpnIp : VpnIp)
    (remoteIdx : Option Nat) (relayType : RelayType) (state : RelayStatus) :
    Nat → Interface → Interface × Except String Nat
  | 0, f => (f, .error "failed to generate unique localIndexId")
  | n + 1, f =>
    match generateIndex env f with
    | (.error err, f1) => (f1, .error err)
    | (.ok index, f1) =>
      if f1.hostMap.Relays.contains index then
        AddRelay.loop env relayHostInfo vpnIp remoteIdx relayType state n f1
      else
        (AddRelay.install f1 relayHostInfo vpnIp remoteIdx relayType state index, .ok index)

/-- The function `AddRelay`: finds an available relay index on the host map
and associates the relay info with it. -/
def AddRelay (env : Env) (f : Interface) (relayHostInfo : HostId) (vpnIp : VpnIp)
    (remoteIdx : Option Nat) (relayType : RelayType) (state : RelayStatus) :
    Interface × Except String Nat :=
  AddRelay.loop env relayHostInfo vpnIp remoteIdx relayType state 32 f

/-- The candidate index that the `i`-th iteration of the loop of `AddRelay`
draws when the call starts in state `f`. -/
def AddRelay.candidate (env : Env) (f : Interface) (i : Nat) : Except String Nat :=
  (generateIndex env { f with randPos := f.randPos + i }).1


/-- The wire form of a control message: its five fields in tag order. -/
def NebulaControl.wire (m : NebulaControl) : List Nat :=
  [(match m.Type_ with
    | .None => 0
    | .CreateRelayRequest => 1
    | .CreateRelayResponse => 2),
   m.InitiatorRelayIndex, m.ResponderRelayIndex, m.RelayFromIp, m.RelayToIp]

/-- Modelled from the spec: `NebulaControl.Marshal`, the protobuf-style
encoder of the generated message code; encoding five scalar fields has no
failure case. -/
def NebulaControl.Marshal (m : NebulaControl) : Except String (List Nat) :=
  .ok m.wire

/-- The method `EstablishRelay`: updates a requested relay to an established
one. -/
def EstablishRelay (f : Interface) (relayHostInfo : HostId) (m : NebulaControl) :
    Interface × Except String Relay :=
  let hi := f.hosts relayHostInfo
  match hi.relayState.CompleteRelayByIdx m.InitiatorRelayIndex m.ResponderRelayIndex with
  | (_, none) => (f, .error "unknown relay")
  | (rs, some relay) => (f.setHost relayHostInfo { hi with relayState := rs }, .ok relay)

/-- The method `handleCreateRelayResponse`. -/
def handleCreateRelayResponse (f : Interface) (h : HostId) (m : NebulaControl) :
    Interface × List Event :=
  let target := m.RelayToIp
  match EstablishRelay f h m with
  | (f1, .error _) => (f1, [])
  | (f1, .ok relay) =>
    if relay.Type_ = TerminalType then (f1, [])
    else
      match f1.hostMap.QueryVpnIp relay.PeerIp with
      | none => (f1, [])
      | some peerHostInfo =>
        let phi := f1.hosts peerHostInfo
        match phi.relayState.QueryRelayForByIp target with
        | none => (f1, [])
        | some peerRelay0 =>
          let peerRelay := { peerRelay0 with State := Established }
          let f2 := f1.setHost peerHostInfo
            { phi with relayState := ⟨phi.relayState.relays.set target peerRelay⟩ }
          let resp : NebulaControl :=
            { Type_ := .CreateRelayResponse,
              ResponderRelayIndex := peerRelay.LocalIndex,
              InitiatorRelayIndex := peerRelay.RemoteIndex,
              RelayFromIp := phi.vpnIp,
              RelayToIp := target }
          match resp.Marshal with
          | .error _ => (f2, [])
          | .ok msg => (f2, [Event.sendMessageToVpnIp .Control 0 peerHostInfo msg])

/-- Lines 208-235 of `handleCreateRelayRequest`: the answer of the relay
target once its relay entry is in place. -/
def handleCreateRelayRequest.respond (f : Interface) (h : HostId) (from_ target : VpnIp) :
    Interface × List Event :=
  match (f.hosts h).relayState.QueryRelayForByIp from_ with
  | none => (f, [])
  | some relay =>
    let resp : NebulaControl :=
      { Type_ := .CreateRelayResponse,
        ResponderRelayIndex := relay.LocalIndex,
        InitiatorRelayIndex := relay.RemoteIndex,
        RelayFromIp := from_,
        RelayToIp := target }
    match resp.Marshal with
    | .error _ => (f, [])
    | .ok msg => (f, [Event.sendMessageToVpnIp .Control 0 h msg])

/-- Lines 291-341 of `handleCreateRelayRequest`: the relay node tracks the
half-created relay on the requesting hostinfo. -/
def handleCreateRelayRequest.track (env : Env) (f : Interface) (h : HostId)
    (m : NebulaControl) (target : VpnIp) (targetRelay : Option Relay) :
    Interface × List Event :=
  match (f.hosts h).relayState.QueryRelayForByIp target with
  | none =>
    let state :=
      match targetRelay with
      | some tr => if tr.State = Established then Established else Requested
      | none => Requested
    match AddRelay env f h target (some m.InitiatorRelayIndex) ForwardingType state with
    | (f1, _) => (f1, [])
  | some relay =>
    match relay.State with
    | Established =>
      if relay.RemoteIndex ≠ m.InitiatorRelayIndex then (f, [])
      else
        let resp : NebulaControl :=
          { Type_ := .CreateRelayResponse,
            ResponderRelayIndex := relay.LocalIndex,
            InitiatorRelayIndex := relay.RemoteIndex,
            RelayFromIp := (f.hosts h).vpnIp,
            RelayToIp := target }
        match resp.Marshal with
        | .error _ => (f, [])
        | .ok msg => (f, [Event.sendMessageToVpnIp .Control 0 h msg])
    | Requested => (f, [])

/-- Lines 268-290 of `handleCreateRelayRequest`: the request the relay node
forwards to the target. -/
def handleCreateRelayRequest.forward (f : Interface) (h peer : HostId) (target : VpnIp)
    (index : Nat) (sendCreateRequest : Bool) : List Event :=
  if sendCreateRequest then
    let req : NebulaControl :=
      { Type_ := .CreateRelayRequest,
        InitiatorRelayIndex := index,
        ResponderRelayIndex := 0,
        RelayFromIp := (f.hosts h).vpnIp,
        RelayToIp := target }
    match req.Marshal with
    | .error _ => []
    | .ok msg => [Event.sendMessageToVpnIp .Control 0 peer msg]
  else []

/-- The method `handleCreateRelayRequest`.  Calls of `f.sendMessageToVpnIp`
and `f.getOrHandshake` are recorded as events. -/
def handleCreateRelayRequest (env : Env) (f : Interface) (h : HostId) (m : NebulaControl) :
    Interface × List Event :=
  let from_ := m.RelayFromIp
  let target := m.RelayToIp
  if target = f.myVpnIp then
    match (f.hosts h).relayState.QueryRelayForByIp from_ with
    | some existingRelay =>
      match existingRelay.State with
      | Requested =>
        match (f.hosts h).relayState.CompleteRelayByIP from_ m.InitiatorRelayIndex with
        | (_, false) => (f, [])
        | (rs, true) =>
          handleCreateRelayRequest.respond
            (f.setHost h { f.hosts h with relayState := rs }) h from_ target
      | Established =>
        if existingRelay.RemoteIndex ≠ m.InitiatorRelayIndex then (f, [])
        else handleCreateRelayRequest.respond f h from_ target
    | none =>
      match AddRelay env f h from_ (some m.InitiatorRelayIndex) TerminalType Established with
      | (f1, .error _) => (f1, [])
      | (f1, .ok _) => handleCreateRelayRequest.respond f1 h from_ target
  else
    if !f.amRelay then (f, [])
    else
      match f.hostMap.QueryVpnIp target with
      | none => (f, [Event.getOrHandshake target])
      | some peer =>
        match (f.hosts peer).remote with
        | none => (f, [])
        | some _ =>
          match (f.hosts peer).relayState.QueryRelayForByIp from_ with
          | some targetRelay =>
            let index := targetRelay.LocalIndex
            let sendCreateRequest := decide (targetRelay.State = Requested)
            let evs := handleCreateRelayRequest.forward f h peer target index sendCreateRequest
            let r := handleCreateRelayRequest.track env f h m target (some targetRelay)
            (r.1, evs ++ r.2)
          | none =>
            match AddRelay env f peer from_ none ForwardingType Requested with
            | (f1, .error _) => (f1, [])
            | (f1, .ok index) =>
              let evs := handleCreateRelayRequest.forward f1 h peer target index true
              let r := handleCreateRelayRequest.track env f1 h m target none
              (r.1, evs ++ r.2)

/-- The method `HandleControlMsg`. -/
def HandleControlMsg (env : Env) (f : Interface) (h : HostId) (m : NebulaControl) :
    Interface × List Event :=
  match m.Type_ with
  | .CreateRelayRequest => handleCreateRelayRequest env f h m
  | .CreateRelayResponse => handleCreateRelayResponse f h m
  | .None => (f, [])

/-! ## inside.go -/

/-- The function `isMulticast`: class D addresses. -/
def isMulticast (ip : VpnIp) : Bool :=
  (((ip >>> 24) &&& 0xff) &&& 0xf0) == 0xe0

/-- Modelled from the spec: `HostMap.PromoteBestQueryVpnIp`, which returns
the current primary of an overlay IP and, every `try_promote_every` packets,
makes primary a non-primary hostinfo of that IP whose remote address lies in a
preferred range. -/
def PromoteBestQueryVpnIp (f : Interface) (vpnIp : VpnIp) : Interface × Option HostId :=
  match f.hostMap.Hosts.get vpnIp with
  | none => (f, none)
  | some hi =>
    let c := ((f.hosts hi).promoteCounter + 1) % 2 ^ 32
    let f1 := f.setHost hi { f.hosts hi with promoteCounter := c }
    if c % f.tryPromoteEvery = 0 then
      let better := f1.hostMap.Indexes.findVal (fun x =>
        x != hi && (f1.hosts x).vpnIp == vpnIp &&
          (match (f1.hosts x).remote with
           | some addr => f1.hostMap.preferredRanges.any (fun n => n.Contains addr.IP)
           | none => false))
      match better with
      | some (_, b) => ({ f1 with hostMap := f1.hostMap.unlockedMakePrimary vpnIp b }, some hi)
      | none => (f1, some hi)
    else (f1, some hi)

/-- Modelled from the spec: `newConnectionState` for an initiator, before the
handshake has produced keys. -/
def newConnectionState : ConnectionState :=
  { eKey := none, dKey := none, ready := false, atomicMessageCounter := 0,
    peerCertNotAfter := none }

/-- The method `initHostInfo`: the init function given to `AddVpnIp`, which
creates the initial connection state of the hostinfo. -/
def initHostInfo (f : Interface) (hostinfo : HostId) : Interface :=
  let c := f.nextConnId
  let f1 := { f with nextConnId := c + 1, conns := Function.update f.conns c newConnectionState }
  f1.setHost hostinfo { f1.hosts hostinfo with ConnectionState := some c }

/-- Modelled from the spec: the creation step of `HandshakeManager.AddVpnIp`,
which allocates a new hostinfo for the overlay IP and enters it into the
pending host map. -/
def AddVpnIp.register (f : Interface) (vpnIp : VpnIp) : Interface :=
  let hi : HostInfo :=
    { vpnIp := vpnIp, localIndexId := 0, remoteIndexId := 0, remote := none,
      ConnectionState := none, HandshakeReady := false, lastRebindCount := 0,
      promoteCounter := 0, packetStore := [], relayState := ⟨NatMap.empty⟩ }
  { f with
    nextHostId := f.nextHostId + 1
    hosts := Function.update f.hosts f.nextHostId hi
    pendingHostMap :=
      { f.pendingHostMap with Hosts := f.pendingHostMap.Hosts.set vpnIp f.nextHostId } }

/-- Modelled from the spec: `HandshakeManager.AddVpnIp`, which ensures that a
pending hostinfo exists for the overlay IP; a new one is entered into the
pending host map, given to the init function and scheduled on the timer. -/
def AddVpnIp (f : Interface) (vpnIp : VpnIp) (init : Option (Interface → HostId → Interface)) :
    Interface × HostId × List Event :=
  match f.pendingHostMap.Hosts.get vpnIp with
  | some hi => (f, hi, [])
  | none =>
    let id := f.nextHostId
    let f1 := AddVpnIp.register f vpnIp
    let f2 := match init with
      | some g => g f1 id
      | none => f1
    (f2, id, [Event.timerAdd vpnIp])

/-- Modelled from the spec: `ixHandshakeStage0`, which computes the stage-0
bytes of the handshake and marks the hostinfo as handshake-ready. -/
def ixHandshakeStage0 (f : Interface) (vpnIp : VpnIp) (hostinfo : HostId) :
    Interface × List Event :=
  (f.setHost hostinfo { f.hosts hostinfo with HandshakeReady := true },
    [Event.ixHandshakeStage0 vpnIp hostinfo])

/-- The test `ci != nil && ci.eKey != nil && ci.ready` of `getOrHandshake`. -/
def tunnelUsable (f : Interface) (hostinfo : HostId) : Bool :=
  match (f.hosts hostinfo).ConnectionState with
  | none => false
  | some ci => (f.conns ci).eKey.isSome && (f.conns ci).ready

/-- The non-blocking send `select { case trigger <- vpnIp: default: }` on the
buffered trigger channel. -/
def offerTrigger (f : Interface) (vpnIp : VpnIp) : Interface :=
  if f.trigger.length < f.triggerBuffer then { f with trigger := f.trigger ++ [vpnIp] } else f

/-- Lines 74-79 of `getOrHandshake`: an overlay IP outside the overlay network
is replaced by its gateway, and is not routable when there is none. -/
def getOrHandshake.route (env : Env) (f : Interface) (vpnIp : VpnIp) : Option VpnIp :=
  if f.hostMap.vpnCIDR.Contains vpnIp = false then
    (if env.RouteFor vpnIp = 0 then none else some (env.RouteFor vpnIp))
  else some vpnIp

/-- Lines 80-88 of `getOrHandshake`: the hostinfo of the main host map, else
of the pending host map, else a new pending one. -/
def getOrHandshake.find (f : Interface) (vpnIp : VpnIp) : Interface × HostId × List Event :=
  match PromoteBestQueryVpnIp f vpnIp with
  | (f1, some hi) => (f1, hi, [])
  | (f1, none) =>
    match f1.pendingHostMap.QueryVpnIp vpnIp with
    | some hi => (f1, hi, [])
    | none => AddVpnIp f1 vpnIp (some initHostInfo)

/-- The method `getOrHandshake`: returns no hostinfo if the overlay IP is not
routable. -/
def getOrHandshake (env : Env) (f : Interface) (vpnIp0 : VpnIp) :
    Interface × Option HostId × List Event :=
  match getOrHandshake.route env f vpnIp0 with
  | none => (f, none, [])
  | some vpnIp =>
    let found := getOrHandshake.find f vpnIp
    let f2 := found.1
    let hostinfo := found.2.1
    if tunnelUsable f2 hostinfo then (f2, some hostinfo, found.2.2)
    else if !(f2.hosts hostinfo).HandshakeReady then
      let s0 := ixHandshakeStage0 f2 vpnIp hostinfo
      let f4 := if s0.1.staticList.contains vpnIp then offerTrigger s0.1 vpnIp else s0.1
      (f4, some hostinfo, found.2.2 ++ s0.2)
    else (f2, some hostinfo, found.2.2)

/-- Modelled from the spec: `HostInfo.cachePacket`, the push into the bounded
queue of packets held while the tunnel is not ready; on overflow the oldest
packet is dropped. -/
def cachePacket (env : Env) (f : Interface) (hostinfo : HostId) (t : MessageType) (st : Nat)
    (packet : List Nat) (cb : PacketCallback) : Interface × List Event :=
  let hi := f.hosts hostinfo
  let cp : CachedPacket := ⟨t, st, cb, packet⟩
  let store :=
    if hi.packetStore.length < env.packetStoreBound then hi.packetStore ++ [cp]
    else hi.packetStore.drop 1 ++ [cp]
  (f.setHost hostinfo { hi with packetStore := store },
    [Event.cachePacket hostinfo t st packet cb])

/-- Modelled from the spec: `connectionManager.Out`, which marks outbound
traffic under the given key. -/
def ConnectionManager.Out (n : ConnectionManager) (key : Nat) : ConnectionManager :=
  { n with out := n.out.set key () }

/-- Modelled from the spec: `connectionManager.In`, which marks inbound
traffic under the given key. -/
def ConnectionManager.In (n : ConnectionManager) (key : Nat) : ConnectionManager :=
  { n with in_ := n.in_.set key () }

/-- Modelled from the spec: `header.Encode`, the 16-byte header with the given
fields and a zero reserved byte. -/
def headerEncode (v : Nat) (t : MessageType) (st : Nat) (remoteIndex : Nat) (c : Nat) : H :=
  { Version := v, Type_ := t, Subtype := st, Reserved := 0, RemoteIndex := remoteIndex,
    MessageCounter := c }

/-- Modelled from the spec: the constant `header.Version`. -/
def headerVersion : Nat := 1

/-- Lines 197-213 of `sendNoMetrics`: the new counter value `c` is stored, the
outbound traffic mark is set, and the lighthouse is queried when the socket
has been rebound since the hostinfo last noticed. -/
def sendNoMetrics.mark (f : Interface) (t : MessageType) (ci : ConnId) (hostinfo : HostId)
    (c : Nat) : Interface × List Event :=
  let f1 := f.setConn ci { f.conns ci with atomicMessageCounter := c }
  let f2 := { f1 with connectionManager := f1.connectionManager.Out (f1.hosts hostinfo).vpnIp }
  if t ≠ MessageType.CloseTunnel ∧ (f2.hosts hostinfo).lastRebindCount ≠ f2.rebindCount then
    (f2.setHost hostinfo { f2.hosts hostinfo with lastRebindCount := f2.rebindCount },
      [Event.queryServer (f2.hosts hostinfo).vpnIp])
  else (f2, [])

/-- The method `sendNoMetrics`.  The scratch buffers `nb` and `out` are left
out; the result `none` stands for the nil dereference of `ci`. -/
def sendNoMetrics (env : Env) (f : Interface) (t : MessageType) (st : Nat) (ci : Option ConnId)
    (hostinfo : HostId) (remote : Option UdpAddr) (p : List Nat) (q : Nat) :
    Option (Interface × List Event) :=
  match ci with
  | none => none
  | some ci =>
    match (f.conns ci).eKey with
    | none => some (f, [])
    | some eKey =>
      let c := ((f.conns ci).atomicMessageCounter + 1) % 2 ^ 64
      let out := headerEncode headerVersion t st (f.hosts hostinfo).remoteIndexId c
      let m := sendNoMetrics.mark f t ci hostinfo c
      match env.encryptDanger eKey out p c with
      | .error _ => some (m.1, m.2 ++ [Event.encryptDanger out p c])
      | .ok ct => some (m.1, m.2 ++ [Event.encryptDanger out p c, Event.writeTo q ct remote])

/-- The method `sendMessageNow`, the replay of a queued packet. -/
def sendMessageNow (env : Env) (f : Interface) (_t : MessageType) (st : Nat) (hostInfo : HostId)
    (p : List Nat) : Option (Interface × List Event) :=
  match env.newPacket p with
  | .error _ => some (f, [])
  | .ok fp =>
    match env.firewallDrop p fp hostInfo with
    | some _ => some (f, [Event.firewallDrop p hostInfo])
    | none =>
      (sendNoMetrics env f .Message st (f.hosts hostInfo).ConnectionState hostInfo
        (f.hosts hostInfo).remote p 0).map
        (fun r => (r.1, Event.firewallDrop p hostInfo :: r.2))

/-- The method `consumeInsidePacket`.  The result `none` stands for the nil
dereference of the hostinfo's connection state. -/
def consumeInsidePacket (env : Env) (f : Interface) (packet : List Nat) (q : Nat) :
    Option (Interface × List Event) :=
  match env.newPacket packet with
  | .error _ => some (f, [])
  | .ok fwPacket =>
    if f.dropLocalBroadcast && fwPacket.RemoteIP == f.localBroadcast then some (f, [])
    else if fwPacket.RemoteIP == f.myVpnIp then some (f, [])
    else if f.dropMulticast && isMulticast fwPacket.RemoteIP then some (f, [])
    else
      match getOrHandshake env f fwPacket.RemoteIP with
      | (f1, none, evs) => some (f1, evs)
      | (f1, some hostinfo, evs) =>
        match (f1.hosts hostinfo).ConnectionState with
        | none => none
        | some ci =>
          if (f1.conns ci).ready = false then
            let r := cachePacket env f1 hostinfo .Message 0 packet .sendMessageNow
            some (r.1, evs ++ r.2)
          else
            match env.firewallDrop packet fwPacket hostinfo with
            | none =>
              (sendNoMetrics env f1 .Message 0 (some ci) hostinfo (f1.hosts hostinfo).remote
                packet q).map
                (fun r => (r.1, evs ++ Event.firewallDrop packet hostinfo :: r.2))
            | some _ => some (f1, evs ++ [Event.firewallDrop packet hostinfo])

/-- Events of the cipher and of the UDP writer. -/
def Event.isSend : Event → Bool
  | .encryptDanger _ _ _ => true
  | .writeTo _ _ _ => true
  | _ => false

/-- Consultations of the firewall. -/
def Event.isFirewallDrop : Event → Bool
  | .firewallDrop _ _ => true
  | _ => false

/-- Pushes into a packet queue. -/
def Event.isCachePacket : Event → Bool
  | .cachePacket _ _ _ _ _ => true
  | _ => false

/-- Events of the handshake machinery: timer entries and stage-0 computations. -/
def Event.isHandshake : Event → Bool
  | .timerAdd _ => true
  | .ixHandshakeStage0 _ _ => true
  | _ => false


/-- The arguments of one call of `sendNoMetrics` besides the connection
state. -/
structure SendArgs where
  t : MessageType
  st : Nat
  hostinfo : HostId
  remote : Option UdpAddr
  p : List Nat
  q : Nat
deriving DecidableEq, Repr

/-- A sequence of calls of `sendNoMetrics` on one connection state, in order. -/
def sendAll (env : Env) (ci : ConnId) : List SendArgs → Interface → Option (Interface × List Event)
  | [], f => some (f, [])
  | a :: rest, f =>
    match sendNoMetrics env f a.t a.st (some ci) a.hostinfo a.remote a.p a.q with
    | none => none
    | some r => (sendAll env ci rest r.1).map (fun r2 => (r2.1, r.2 ++ r2.2))

/-- The nonce counters handed to the cipher, in call order. -/
def nonceCounters : List Event → List Nat
  | [] => []
  | .encryptDanger _ _ c :: es => c :: nonceCounters es
  | _ :: es => nonceCounters es

/-- The message counters of the headers handed to the cipher, in call order. -/
def headerCounters : List Event → List Nat
  | [] => []
  | .encryptDanger hdr _ _ :: es => hdr.MessageCounter :: headerCounters es
  | _ :: es => headerCounters es


/-! ## Connection manager -/

/-- Modelled from the spec: `HostMap.DeleteHostInfo`, which removes the
hostinfo from the three mappings of the host map (by overlay IP, by local
index, by remote index) and removes the relay entries associated with it. -/
def DeleteHostInfo (f : Interface) (hostinfo : HostId) : Interface :=
  let hi := f.hosts hostinfo
  let hm := f.hostMap
  let dropIf (m : NatMap HostId) (k : Nat) : NatMap HostId :=
    if m.get k = some hostinfo then m.delete k else m
  { f with hostMap :=
    { hm with
      Hosts := dropIf hm.Hosts hi.vpnIp
      Indexes := dropIf hm.Indexes hi.localIndexId
      RemoteIndexes := dropIf hm.RemoteIndexes hi.remoteIndexId
      Relays := hi.relayState.relays.entries.foldl (fun m e => m.delete e.2.LocalIndex)
        hm.Relays } }

/-- Modelled from the spec: `connectionManager.isInvalidCertificate`, true
when `disconnect_invalid` is set and the peer certificate of the tunnel has
expired at the given time; a tunnel without a peer certificate is not invalid. -/
def isInvalidCertificate (f : Interface) (now : Nat) (hostinfo : HostId) : Bool :=
  f.disconnectInvalid &&
    (match (f.hosts hostinfo).ConnectionState with
     | none => false
     | some ci =>
       match (f.conns ci).peerCertNotAfter with
       | none => false
       | some notAfter => decide (notAfter < now))

/-- Modelled from the spec: `connectionManager.doTrafficCheck`, the tick for
one local index (section 4.G), as a change of the node state; probes, the
CloseTunnel message and the re-scheduling are left out.  An expired peer
certificate under `disconnect_invalid` deletes the tunnel.  Otherwise both
traffic marks are cleared; a tunnel with activity leaves pending deletion; a
tunnel without activity that is pending deletion is deleted; any other tunnel
without activity becomes pending deletion.  The spec words the activity test
as `out[i]` being set, but `Test_NewConnectionManagerTest` marks `Out`, runs
the check and finds the index pending deletion, and its sibling test is
rescued by `In` alone: activity is the inbound mark. -/
def doTrafficCheck (f : Interface) (localIndex : Nat) (now : Nat) : Interface :=
  match f.hostMap.Indexes.get localIndex with
  | none => f
  | some hostinfo =>
    if isInvalidCertificate f now hostinfo then DeleteHostInfo f hostinfo
    else
      let cm := f.connectionManager
      let inTraffic := cm.in_.contains localIndex
      let cleared : ConnectionManager :=
        { cm with in_ := cm.in_.delete localIndex, out := cm.out.delete localIndex }
      if inTraffic then
        { f with connectionManager :=
          { cleared with pendingDeletion := cm.pendingDeletion.delete localIndex } }
      else if cm.pendingDeletion.contains localIndex then
        DeleteHostInfo
          { f with connectionManager :=
            { cleared with pendingDeletion := cm.pendingDeletion.delete localIndex } }
          hostinfo
      else
        { f with connectionManager :=
          { cleared with pendingDeletion := cm.pendingDeletion.set localIndex () } }

/-- The call `nc.In(k)` on the connection manager of the node. -/
def Interface.In (f : Interface) (k : Nat) : Interface :=
  { f with connectionManager := f.connectionManager.In k }

/-- The call `nc.Out(k)` on the connection manager of the node. -/
def Interface.Out (f : Interface) (k : Nat) : Interface :=
  { f with connectionManager := f.connectionManager.Out k }

/-- The method `RouteFor` of the tun device (`overlay/tun_linux.go`): the
gateway of the most specific unsafe route that contains the address, 0 if
there is none.  The argument `routeTree` stands for the lookup
`t.routeTree.Load().MostSpecificContains`. -/
def tun.RouteFor (routeTree : VpnIp → Option VpnIp) (ip : VpnIp) : VpnIp :=
  match routeTree ip with
  | some r => r
  | none => 0


/-! ## main.go -/

/-- The byte orders `binary.BigEndian` and `binary.LittleEndian`. -/
inductive ByteOrder where
  | BigEndian
  | LittleEndian
deriving DecidableEq, Repr

/-- Lines 276 and 298-305 of `Main`: the cipher of the interface
configuration, `c.GetString("cipher").UnwrapOr("aes")`, and the switch that
sets the package variable `noiseEndianness` from it.  The argument `cipher`
is the value of `c.GetString("cipher")`, `none` when the configuration does
not set the key.  The result is the value of `noiseEndianness` after the
switch, together with the error with which `Main` returns a nil `Control`
there, if it does. -/
def Main.selectCipher (cipher : Option String) (noiseEndianness : ByteOrder) :
    ByteOrder × Option String :=
  let Cipher := cipher.getD "aes"
  if Cipher = "aes" then (.BigEndian, none)
  else if Cipher = "chachapoly" then (.LittleEndian, none)
  else (noiseEndianness, some ("unknown cipher: " ++ Cipher))

/-! ## Lighthouse -/

/-- Modelled from the spec: the wire element `{ip:u32, port:u32}` of the
lighthouse messages, `Ip4AndPort` in the tests. -/
structure Ip4AndPort where
  Ip : Nat
  Port : Nat
deriving DecidableEq, Repr

/-- Modelled from the spec: the size cap of a remote list, 10 IPv4
addresses. -/
def MaxRemotes : Nat := 10

/-- Modelled from the spec: the IPv4 part of a `RemoteList`, the addresses
reported for the peer, kept per reporting host (`from_vpn_ip`). -/
structure RemoteList where
  cache : NatMap (List Ip4AndPort)
deriving DecidableEq, Repr

/-- Modelled from the spec: `NewRemoteList`, a remote list without
addresses. -/
def NewRemoteList : RemoteList := ⟨NatMap.empty⟩

/-- Modelled from the spec: `set_v4(from_vpn_ip, for_vpn_ip, candidates,
filter_fn)`, which replaces the IPv4 addresses reported by `from_vpn_ip` by
those of the candidates, cut at the size cap, that the filter admits; order
and duplicates are kept.  The argument order is that of the call in
`BenchmarkLighthouseHandleRequest`. -/
def RemoteList.unlockedSetV4 (r : RemoteList) (ownerVpnIp vpnIp : VpnIp)
    (to_ : List Ip4AndPort) (check : VpnIp → Ip4AndPort → Bool) : RemoteList :=
  ⟨r.cache.set ownerVpnIp ((to_.take (min to_.length MaxRemotes)).filter (check vpnIp))⟩

/-- Modelled from the spec: the part of the `LightHouse` that serves queries:
whether the node is a lighthouse, the overlay network, the decision of the
`remote_allow_list` for an address learned for a host (constantly true when
no list is configured) and the remote lists by overlay IP. -/
structure LightHouse where
  amLighthouse : Bool
  myVpnNet : IPNet
  remoteAllowList : VpnIp → Nat → Bool
  addrMap : NatMap RemoteList

/-- Modelled from the spec: the filter given to `set_v4` by the lighthouse,
which admits an address when the `remote_allow_list` admits it and it does not
lie inside the overlay network. -/
def LightHouse.unlockedShouldAddV4 (lh : LightHouse) (vpnIp : VpnIp) (to_ : Ip4AndPort) :
    Bool :=
  lh.remoteAllowList vpnIp to_.Ip && !lh.myVpnNet.Contains to_.Ip

/-- Modelled from the spec: the message types of `NebulaMeta`. -/
inductive NebulaMeta_MessageType where
  | None
  | HostQuery
  | HostQueryReply
  | HostUpdateNotification
  | HostPunchNotification
deriving DecidableEq, Repr

/-- Modelled from the spec: the details of a lighthouse message, restricted
to the overlay IP and the IPv4 addresses. -/
structure NebulaMetaDetails where
  VpnIp : Nat
  Ip4AndPorts : List Ip4AndPort
deriving DecidableEq, Repr

/-- Modelled from the spec: the lighthouse message `NebulaMeta`. -/
structure NebulaMeta where
  Type_ : NebulaMeta_MessageType
  Details : NebulaMetaDetails
deriving DecidableEq, Repr

/-- Modelled from the spec: the handling of a HostUpdateNotification received
from the host `vpnIp`: a lighthouse replaces the IPv4 addresses that this host
reported for itself. -/
def handleHostUpdateNotification (lh : LightHouse) (n : NebulaMeta) (vpnIp : VpnIp) :
    LightHouse :=
  if !lh.amLighthouse then lh
  else
    let am := (lh.addrMap.get vpnIp).getD NewRemoteList
    let am1 := am.unlockedSetV4 vpnIp vpnIp n.Details.Ip4AndPorts lh.unlockedShouldAddV4
    { lh with addrMap := lh.addrMap.set vpnIp am1 }

/-- Modelled from the spec: the handling of a HostQuery: a lighthouse that
knows addresses the queried host reported for itself answers with a
HostQueryReply that lists them; the punch notification to the queried host is
left out. -/
def handleHostQuery (lh : LightHouse) (n : NebulaMeta) : Option NebulaMeta :=
  if !lh.amLighthouse then none
  else
    match lh.addrMap.get n.Details.VpnIp with
    | none => none
    | some v =>
      match v.cache.get n.Details.VpnIp with
      | none => none
      | some c =>
        some { Type_ := .HostQueryReply,
               Details := { VpnIp := n.Details.VpnIp, Ip4AndPorts := c } }

/-- Modelled from the spec: `LightHouseHandler.HandleRequest` for a message
received from the host `vpnIp` at the UDP address `rAddr`; the result is the
lighthouse afterwards and the HostQueryReply sent back, if any. -/
def HandleRequest (lh : LightHouse) (_rAddr : UdpAddr) (vpnIp : VpnIp) (n : NebulaMeta) :
    LightHouse × Option NebulaMeta :=
  match n.Type_ with
  | .HostQuery => (lh, handleHostQuery lh n)
  | .HostUpdateNotification => (handleHostUpdateNotification lh n vpnIp, none)
  | _ => (lh, none)

/-- The test helper `newLHHostUpdate`: a HostUpdateNotification of the host
`vpnIp` with the given addresses is handled. -/
def newLHHostUpdate (fromAddr : UdpAddr) (vpnIp : VpnIp) (addrs : List UdpAddr)
    (lhh : LightHouse) : LightHouse :=
  let req : NebulaMeta :=
    { Type_ := .HostUpdateNotification,
      Details := { VpnIp := vpnIp, Ip4AndPorts := addrs.map (fun v => ⟨v.IP, v.Port⟩) } }
  (HandleRequest lhh fromAddr vpnIp req).1

/-- The test helper `newLHHostRequest`: a HostQuery for `queryVpnIp` sent by
the host `myVpnIp` is handled; the result is the HostQueryReply, if any. -/
def newLHHostRequest (fromAddr : UdpAddr) (myVpnIp queryVpnIp : VpnIp) (lhh : LightHouse) :
    Option NebulaMeta :=
  let req : NebulaMeta :=
    { Type_ := .HostQuery, Details := { VpnIp := queryVpnIp, Ip4AndPorts := [] } }
  (HandleRequest lhh fromAddr myVpnIp req).2


/-! ## main.go: worker count -/

/-- Lines 91-113 of `Main`: the worker count `routines`.  The arguments are
the values of `c.GetInt("routines")`, `c.GetInt("tun.routines")` and
`c.GetInt("listen.routines")`, `none` when the configuration does not set the
key. -/
def Main.routines (routines tunRoutines listenRoutines : Option Int) : Int :=
  let r := routines.getD 0
  if r ≠ 0 then
    if r < 1 then 1 else r
  else
    let tunQueues := tunRoutines.getD 1
    let udpQueues := listenRoutines.getD 1
    if tunQueues > udpQueues then tunQueues else udpQueues

/-- Lines 147 and 233 of `Main`: `udpConns := make([]udp.Conn, routines)` and
the later read `udpConns[0]`, as the position read; `none` stands for the
run-time panic of `make` with a negative length or of the index out of
range. -/
def Main.udpConns0 (routines : Int) : Option Nat :=
  if routines < 0 then none
  else if 0 < (List.replicate routines.toNat ()).length then some 0
  else none

/-! ## overlay/tun.go and overlay/tun_linux.go -/

/-- Modelled from the spec: the type `Route` of the absent `route.go`, with
the fields the embedded code reads. -/
structure Route where
  MTU : Int
  Metric : Int
  Cidr : Option IPNet
  Via : Option VpnIp
  Install : Bool
deriving DecidableEq, Repr

/-- The loop `has` of `findRemovedRoutes`: whether some entry of `newRoutes`
is `Equal` to the entry.  The method `Equal` of the absent `route.go` is the
parameter `Equal`, and `Equal check entry` stands for `check.Equal(entry)`. -/
def findRemovedRoutes.has (Equal : Route → Route → Bool) :
    List Route → Route → Bool
  | [], _ => false
  | check :: rest, entry =>
    if Equal check entry then true else findRemovedRoutes.has Equal rest entry

/-- The function `findRemovedRoutes`: the loop over `oldRoutes` that appends
to `removed` every entry that `has` does not find. -/
def findRemovedRoutes (Equal : Route → Route → Bool) (newRoutes oldRoutes : List Route) :
    List Route :=
  oldRoutes.foldl
    (fun removed oldEntry =>
      if !findRemovedRoutes.has Equal newRoutes oldEntry then removed ++ [oldEntry]
      else removed)
    []

/-- The fields of the Linux `tun` that the MTU computations read. -/
structure tun where
  MaxMTU : Int
  DefaultMTU : Int
  Routes : List Route
deriving DecidableEq, Repr

/-- Lines 106-115 of `newTun`: the loop that raises `maxMTU` to the MTU of
each route, a route without MTU counting with the default MTU. -/
def newTun.maxMTU (defaultMTU : Int) (routes : List Route) : Int :=
  routes.foldl
    (fun maxMTU r =>
      let mtu := if r.MTU = 0 then defaultMTU else r.MTU
      if mtu > maxMTU then mtu else maxMTU)
    defaultMTU

/-- The function `newTun` once the device is open: the MTU fields and the
routes of the `tun` it returns. -/
def newTun (defaultMTU : Int) (routes : List Route) : tun :=
  { MaxMTU := newTun.maxMTU defaultMTU routes, DefaultMTU := defaultMTU, Routes := routes }

/-- The value of a Go `int` expression whose exact result is `x`: Go's `int`
has 64 bits here and its arithmetic wraps around in two's complement. -/
def wrap64 (x : Int) : Int :=
  (x + 9223372036854775808) % 18446744073709551616 - 9223372036854775808

/-- The values of a Go `int` of 64 bits. -/
abbrev isGoInt (x : Int) : Prop :=
  -9223372036854775808 ≤ x ∧ x ≤ 9223372036854775807

/-- The method `advMSS`.  The subtraction is that of Go's `int`, which wraps
around. -/
def tun.advMSS (t : tun) (r : Route) : Int :=
  let mtu := if r.MTU = 0 then t.DefaultMTU else r.MTU
  if mtu ≠ t.MaxMTU then wrap64 (mtu - 40) else 0

/-- The zero value `Route{}`, the argument of `advMSS` for the default route
in `Activate`. -/
def Route.zero : Route :=
  { MTU := 0, Metric := 0, Cidr := none, Via := none, Install := false }

/-- The effective MTU of a route under the default MTU `D`: its own MTU, or
`D` when it has none. -/
def Route.effectiveMTU (r : Route) (D : Int) : Int :=
  if r.MTU = 0 then D else r.MTU

/-- The error `io.ErrUnexpectedEOF`. -/
def ErrUnexpectedEOF : String := "unexpected EOF"

/-- What a call `unix.Write(fd, p)` returns (the function is outside the
repository): without an error the number of bytes written, which is not
negative; with an error the error and the count reported with it, -1 by the
convention of the system call. -/
inductive WriteReturn where
  | wrote (n : Nat)
  | failed (n : Int) (err : String)
deriving DecidableEq, Repr

/-- The count `n` of the pair `(n, err)` that `unix.Write` returns. -/
def WriteReturn.n : WriteReturn → Int
  | .wrote n => (n : Int)
  | .failed n _ => n

/-- The error `err` of the pair `(n, err)` that `unix.Write` returns. -/
def WriteReturn.err : WriteReturn → Option String
  | .wrote _ => none
  | .failed _ e => some e

/-- An outcome of `tun.Write`: the pair it returns, or the run-time panic of
the slice expression `b[nn:max]` when `nn` is negative or exceeds `max`. -/
inductive WriteOutcome where
  | ret (nn : Int) (err : Option String)
  | sliceOutOfRange
deriving DecidableEq, Repr

/-- The loop of `tun.Write` with `fuel` iterations allowed, before its
`k`-th underlying write and with the counter at `nn`.  `write k p` is what the
`k`-th call `unix.Write(t.fd, p)` returns.  The result holds the outcome and
the number of underlying writes made; `none` means the fuel ran out.  The
addition `nn += n` is that of Go's `int`, which wraps around. -/
def tun.Write.loop (write : Nat → List Nat → WriteReturn) (b : List Nat) :
    Nat → Nat → Int → Option (WriteOutcome × Nat)
  | 0, _, _ => none
  | fuel + 1, k, nn =>
    if nn < 0 ∨ (b.length : Int) < nn then some (.sliceOutOfRange, k)
    else
      let r := write k (b.drop nn.toNat)
      let nn1 := if r.n > 0 then wrap64 (nn + r.n) else nn
      if nn1 = (b.length : Int) then some (.ret nn1 r.err, k + 1)
      else if r.err.isSome then some (.ret nn1 r.err, k + 1)
      else if r.n = 0 then some (.ret nn1 (some ErrUnexpectedEOF), k + 1)
      else tun.Write.loop write b fuel (k + 1) nn1

/-- The method `Write` of the Linux tun, with `fuel` iterations allowed. -/
def tun.Write (write : Nat → List Nat → WriteReturn) (b : List Nat) (fuel : Nat) :
    Option (WriteOutcome × Nat) :=
  tun.Write.loop write b fuel 0 0

/-- The sum of the positive counts of the first `k` underlying writes of
`tun.Write`, each write being offered the buffer without that many bytes as
were counted before it. -/
def tun.Write.written (write : Nat → List Nat → WriteReturn) (b : List Nat) :
    Nat → Nat
  | 0 => 0
  | k + 1 =>
    let nn := tun.Write.written write b k
    let n := (write k (b.drop nn)).n
    if n > 0 then nn + n.toNat else nn


/-! ## Concrete states used to instantiate the theorems -/

/-- A hostinfo without relays, tunnel state or queue. -/
def Fixture.host (ip : VpnIp) (localIndex : Nat) : HostInfo :=
  { vpnIp := ip, localIndexId := localIndex, remoteIndexId := 0, remote := none,
    ConnectionState := none, HandshakeReady := false, lastRebindCount := 0,
    promoteCounter := 0, packetStore := [], relayState := ⟨NatMap.empty⟩ }

/-- A host map without entries for the network 0.0.0.0/24, whose overlay
IPs are the numbers 0 to 255. -/
def Fixture.hostMap : HostMap :=
  { Hosts := NatMap.empty, Indexes := NatMap.empty, RemoteIndexes := NatMap.empty,
    Relays := NatMap.empty, vpnCIDR := ⟨0, 0xffffff00⟩, preferredRanges := [] }

/-- A connection state before the handshake has produced keys. -/
def Fixture.conn : ConnectionState :=
  { eKey := none, dKey := none, ready := false, atomicMessageCounter := 0,
    peerCertNotAfter := none }

/-- A node with overlay IP 1 whose hostinfo number `i` belongs to the peer
with overlay IP `100 + i`. -/
def Fixture.iface : Interface :=
  { hostMap := Fixture.hostMap, pendingHostMap := Fixture.hostMap,
    hosts := fun i => Fixture.host (100 + i) (2000 + i),
    conns := fun _ => Fixture.conn,
    nextHostId := 10, nextConnId := 10, myVpnIp := 1, localBroadcast := 255,
    dropLocalBroadcast := false, dropMulticast := false, rebindCount := 0,
    amRelay := false, disconnectInvalid := false,
    connectionManager := ⟨NatMap.empty, NatMap.empty, NatMap.empty⟩,
    staticList := NatMap.empty, trigger := [], triggerBuffer := 1, tryPromoteEvery := 1000,
    randPos := 0 }

/-- Collaborators that always succeed: the n-th random index is `1000 + n`,
every packet parses to destination 101 and passes the firewall. -/
def Fixture.env : Env :=
  { rand := fun n => .ok (999 + n),
    newPacket := fun _ => .ok ⟨1, 101, 0, 0, 17, false⟩,
    firewallDrop := fun _ _ _ => none,
    encryptDanger := fun _ _ p _ => .ok p,
    writeTo := fun _ _ _ => none,
    RouteFor := fun _ => 0,
    packetStoreBound := 100 }


/-- The relay node of the setup flow: hostinfo 0 is the tunnel to B (overlay
IP 100), hostinfo 1 the tunnel to A (overlay IP 101).  B's hostinfo holds the
Forwarding relay for A with local index 500, still Requested; A's hostinfo
holds the Forwarding relay for B with local index 501 and A's index 77. -/
def Fixture.relayNode : Interface :=
  { Fixture.iface with
    amRelay := true
    hostMap := { Fixture.hostMap with
      Hosts := ⟨[(100, 0), (101, 1)]⟩
      Relays := ⟨[(500, 0), (501, 1)]⟩ }
    hosts := fun i =>
      if i = 0 then
        { Fixture.host 100 2000 with
          remote := some ⟨0xc0a80002, 4242⟩
          relayState := ⟨⟨[(101, ⟨ForwardingType, Requested, 500, 0, 101⟩)]⟩⟩ }
      else if i = 1 then
        { Fixture.host 101 2001 with
          remote := some ⟨0xc0a80003, 4242⟩
          relayState := ⟨⟨[(100, ⟨ForwardingType, Requested, 501, 77, 100⟩)]⟩⟩ }
      else Fixture.host (100 + i) (2000 + i) }

/-- Every relay entry that is Established in `f` is present and Established
in `g`, under the same hostinfo and peer overlay IP. -/
def EstablishedKept (f g : Interface) : Prop :=
  ∀ (x : HostId) (ip : VpnIp) (r : Relay),
    (f.hosts x).relayState.QueryRelayForByIp ip = some r → r.State = Established →
    ∃ r2, (g.hosts x).relayState.QueryRelayForByIp ip = some r2 ∧ r2.State = Established


/-- A relay target: hostinfo 0 holds an Established Terminal relay for the
peer 105 with local index 1000 and remote index 7. -/
def Fixture.terminalNode : Interface :=
  { Fixture.iface with
    randPos := 1
    hostMap := { Fixture.hostMap with
      Hosts := ⟨[(100, 0)]⟩
      Relays := ⟨[(1000, 0)]⟩ }
    hosts := fun i =>
      if i = 0 then
        { Fixture.host 100 2000 with
          relayState := ⟨⟨[(105, ⟨TerminalType, Established, 1000, 7, 105⟩)]⟩⟩ }
      else Fixture.host (100 + i) (2000 + i) }


/-- A node with an established tunnel: hostinfo 1 is the primary of overlay IP
101, with local index 1099, remote index 9901 and the ready connection state
0, whose counter stands at 41. -/
def Fixture.readyNode : Interface :=
  { Fixture.iface with
    hostMap := { Fixture.hostMap with
      Hosts := ⟨[(101, 1)]⟩
      Indexes := ⟨[(1099, 1)]⟩ }
    hosts := fun i =>
      if i = 1 then
        { Fixture.host 101 1099 with
          remoteIndexId := 9901
          remote := some ⟨0xc0a80003, 4242⟩
          ConnectionState := some 0 }
      else Fixture.host (100 + i) (2000 + i)
    conns := fun _ =>
      { eKey := some 5, dKey := some 6, ready := true, atomicMessageCounter := 41,
        peerCertNotAfter := none } }

/-- Collaborators whose firewall drops every packet. -/
def Fixture.envDrop : Env :=
  { Fixture.env with firewallDrop := fun _ _ _ => some "no matching rule" }


/-- The node of `Test_NewConnectionManagerTest`: overlay network
172.1.1.0/24 and one tunnel to 172.1.1.2 with local index 1099 and remote
index 9901, whose connection state has neither keys nor a peer certificate. -/
def Fixture.testNode : Interface :=
  { Fixture.iface with
    hostMap := { Fixture.hostMap with
      vpnCIDR := ⟨0xac010100, 0xffffff00⟩
      Hosts := ⟨[(0xac010102, 0)]⟩
      Indexes := ⟨[(1099, 0)]⟩ }
    hosts := fun _ =>
      { Fixture.host 0xac010102 1099 with remoteIndexId := 9901, ConnectionState := some 0 } }

/-- A node that disconnects invalid peers, with one tunnel (hostinfo 1,
overlay IP 101, local index 1099) whose peer certificate expires at time 60. -/
def Fixture.expiredNode : Interface :=
  { Fixture.readyNode with
    disconnectInvalid := true
    conns := fun _ =>
      { eKey := some 5, dKey := some 6, ready := true, atomicMessageCounter := 41,
        peerCertNotAfter := some 60 } }


/-- Collaborators whose random source always yields the index 1000. -/
def Fixture.envStuck : Env :=
  { Fixture.env with rand := fun _ => .ok 999 }

/-- Collaborators whose random source always fails. -/
def Fixture.envNoEntropy : Env :=
  { Fixture.env with rand := fun _ => .error "read of random source failed" }


/-- A relay initiator: hostinfo 0 (the relay node, overlay IP 100) holds a
Terminal relay for the peer 105 with local index 1000, still Requested, and a
second, Established Terminal relay for the peer 106 with local index 1001. -/
def Fixture.initiatorNode : Interface :=
  { Fixture.terminalNode with
    hostMap := { Fixture.hostMap with
      Hosts := ⟨[(100, 0)]⟩
      Relays := ⟨[(1000, 0), (1001, 0)]⟩ }
    hosts := fun i =>
      if i = 0 then
        { Fixture.host 100 2000 with
          relayState := ⟨⟨[(105, ⟨TerminalType, Requested, 1000, 0, 105⟩),
                           (106, ⟨TerminalType, Established, 1001, 8, 106⟩)]⟩⟩ }
      else Fixture.host (100 + i) (2000 + i) }


/-- The relay node of the setup flow with a third hostinfo, 2, primary of the
overlay IP 102, that has no remote UDP address. -/
def Fixture.relayNodeIndirect : Interface :=
  { Fixture.relayNode with
    hostMap := { Fixture.relayNode.hostMap with
      Hosts := ⟨[(100, 0), (101, 1), (102, 2)]⟩ } }


/-- Collaborators with one unsafe route: the network 10.0.0.0/24 is reached
through the overlay IP 100. -/
def Fixture.envRouted : Env :=
  { Fixture.env with
    RouteFor := tun.RouteFor (fun ip =>
      if (⟨0x0a000000, 0xffffff00⟩ : IPNet).Contains ip then some 100 else none) }


/-- The handshake manager of `Test_NewHandshakeManagerVpnIp`: overlay network
172.1.1.0/24, preferred range 10.1.1.0/24, both host maps without entries. -/
def Fixture.handshakeNode : Interface :=
  { Fixture.iface with
    hostMap := { Fixture.hostMap with
      vpnCIDR := ⟨0xac010100, 0xffffff00⟩, preferredRanges := [⟨0x0a010100, 0xffffff00⟩] }
    pendingHostMap := { Fixture.hostMap with
      vpnCIDR := ⟨0xac010100, 0xffffff00⟩, preferredRanges := [⟨0x0a010100, 0xffffff00⟩] } }


/-- The lighthouse of `TestLighthouse_Memory`: overlay network 10.128.0.1/24,
no remote allow list, no addresses known. -/
def Fixture.lighthouse : LightHouse :=
  { amLighthouse := true, myVpnNet := ⟨0x0a800001, 0xffffff00⟩,
    remoteAllowList := fun _ _ => true, addrMap := NatMap.empty }

/-- The same lighthouse with a remote allow list that denies the network
192.168.0.0/16. -/
def Fixture.lighthouseDeny : LightHouse :=
  { Fixture.lighthouse with
    remoteAllowList := fun _ ip => !(⟨0xc0a80000, 0xffff0000⟩ : IPNet).Contains ip }


/-- An installed route with the given MTU to the network 10.0.0.0/24. -/
def Fixture.route (mtu : Int) : Route :=
  { MTU := mtu, Metric := 0, Cidr := some ⟨0x0a000000, 0xffffff00⟩, Via := some 100,
    Install := true }

/-- A comparison of routes for the place of `Route.Equal`: equality of all
fields. -/
def Fixture.routeEqual (a b : Route) : Bool := decide (a = b)


/-- An underlying write that takes at most two bytes at a time and never
fails. -/
def Fixture.writeTwo : Nat → List Nat → WriteReturn :=
  fun _ p => .wrote (min 2 p.length)

/-- An underlying write that takes one byte and then fails. -/
def Fixture.writeThenFail : Nat → List Nat → WriteReturn :=
  fun k _ => if k = 0 then .wrote 1 else .failed (-1) "EIO"


/-- A relay node before any relay exists: hostinfo 0 is the tunnel to B
(overlay IP 100), hostinfo 1 the tunnel to A (overlay IP 101), both with a
remote address and without relays. -/
def Fixture.relayNodeFresh : Interface :=
  { Fixture.iface with
    amRelay := true
    hostMap := { Fixture.hostMap with Hosts := ⟨[(100, 0), (101, 1)]⟩ }
    hosts := fun i =>
      if i = 0 then { Fixture.host 100 2000 with remote := some ⟨0xc0a80002, 4242⟩ }
      else if i = 1 then { Fixture.host 101 2001 with remote := some ⟨0xc0a80003, 4242⟩ }
      else Fixture.host (100 + i) (2000 + i) }

/-- A node for which the overlay IP 101 is a static host, with room for one
entry in the trigger channel. -/
def Fixture.staticNode : Interface :=
  { Fixture.iface with staticList := ⟨[(101, ())]⟩ }

/-- Collaborators for which every inside packet goes to the multicast
address 224.0.0.1. -/
def Fixture.envMulticast : Env :=
  { Fixture.env with newPacket := fun _ => .ok ⟨1, 0xE0000001, 0, 0, 17, false⟩ }

/-- A node with an established tunnel that drops multicast packets. -/
def Fixture.dropMulticastNode : Interface :=
  { Fixture.readyNode with dropMulticast := true }


/-! ## Facts about maps -/

namespace NatMap

variable {ν : Type}

theorem lookupIn_filter_ne (es : List (Nat × ν)) (k a : Nat) :
    lookupIn (es.filter (fun e => !(e.1 == k))) a = if k = a then none else lookupIn es a := by
  induction es with
  | nil => simp [lookupIn]
  | cons e es ih =>
    rw [List.filter_cons]
    by_cases hk : e.1 = k
    · have h1 : (!(e.1 == k)) = false := by simp [hk]
      rw [h1, if_neg (by simp), ih]
      by_cases ha : k = a
      · rw [if_pos ha, if_pos ha]
      · have hea : ¬ e.1 = a := fun h => ha (hk ▸ h)
        rw [if_neg ha, if_neg ha, lookupIn, if_neg hea]
    · have h1 : (!(e.1 == k)) = true := by simp [hk]
      rw [h1, if_pos rfl, lookupIn, lookupIn, ih]
      by_cases hea : e.1 = a
      · have ha : ¬ k = a := fun h => hk (hea.trans h.symm)
        rw [if_pos hea, if_neg ha, if_pos hea]
      · rw [if_neg hea, if_neg hea]

theorem get_delete (m : NatMap ν) (k a : Nat) :
    (m.delete k).get a = if k = a then none else m.get a := by
  simp [get, delete, lookupIn_filter_ne]

theorem get_set (m : NatMap ν) (k a : Nat) (v : ν) :
    (m.set k v).get a = if k = a then some v else m.get a := by
  by_cases h : k = a
  · simp [get, set, lookupIn, h]
  · simp [get, set, lookupIn, h, delete, lookupIn_filter_ne]

theorem get_set_self (m : NatMap ν) (k : Nat) (v : ν) : (m.set k v).get k = some v := by
  simp [get_set]

theorem get_set_of_ne (m : NatMap ν) {k a : Nat} (v : ν) (h : k ≠ a) :
    (m.set k v).get a = m.get a := by
  simp [get_set, h]

theorem contains_set (m : NatMap ν) (k a : Nat) (v : ν) :
    (m.set k v).contains a = (decide (k = a) || m.contains a) := by
  by_cases h : k = a <;> simp [contains, get_set, h]

theorem contains_delete (m : NatMap ν) (k a : Nat) :
    (m.delete k).contains a = (!decide (k = a) && m.contains a) := by
  by_cases h : k = a <;> simp [contains, get_delete, h]

end NatMap

/-! ## Facts about `AddRelay` -/

theorem AddRelay.loop_spec (env : Env) (h : HostId) (vpnIp : VpnIp) (remoteIdx : Option Nat)
    (ty : RelayType) (st : RelayStatus) (n : Nat) (f : Interface) :
    (∃ e p, AddRelay.loop env h vpnIp remoteIdx ty st n f
        = ({ f with randPos := p }, .error e)) ∨
    (∃ idx p, f.hostMap.Relays.contains idx = false ∧
      AddRelay.loop env h vpnIp remoteIdx ty st n f
        = (AddRelay.install { f with randPos := p } h vpnIp remoteIdx ty st idx, .ok idx)) := by
  induction n generalizing f with
  | zero => exact Or.inl ⟨_, f.randPos, rfl⟩
  | succ n ih =>
    unfold AddRelay.loop
    simp only [generateIndex]
    cases hr : env.rand f.randPos with
    | error e => exact Or.inl ⟨e, f.randPos + 1, rfl⟩
    | ok r =>
      simp only [Except.map]
      by_cases hc : f.hostMap.Relays.contains (r % (2 ^ 32 - 1) + 1) = true
      · rw [if_pos hc]
        rcases ih { f with randPos := f.randPos + 1 } with ⟨e, p, hp⟩ | ⟨idx, p, hidx, hp⟩
        · exact Or.inl ⟨e, p, hp⟩
        · exact Or.inr ⟨idx, p, hidx, hp⟩
      · rw [if_neg hc]
        exact Or.inr ⟨r % (2 ^ 32 - 1) + 1, f.randPos + 1, by simpa using hc, rfl⟩

theorem AddRelay_spec (env : Env) (f : Interface) (h : HostId) (vpnIp : VpnIp)
    (remoteIdx : Option Nat) (ty : RelayType) (st : RelayStatus) :
    (∃ e p, AddRelay env f h vpnIp remoteIdx ty st = ({ f with randPos := p }, .error e)) ∨
    (∃ idx p, f.hostMap.Relays.contains idx = false ∧
      AddRelay env f h vpnIp remoteIdx ty st
        = (AddRelay.install { f with randPos := p } h vpnIp remoteIdx ty st idx, .ok idx)) :=
  AddRelay.loop_spec env h vpnIp remoteIdx ty st 32 f


/-! ## Relay manager -/

theorem respond_fst (f : Interface) (h : HostId) (a b : VpnIp) :
    (handleCreateRelayRequest.respond f h a b).1 = f := by
  unfold handleCreateRelayRequest.respond
  cases (f.hosts h).relayState.QueryRelayForByIp a <;> simp [NebulaControl.Marshal]

theorem respond_of_some (f : Interface) (h : HostId) (a b : VpnIp) (relay : Relay)
    (hq : (f.hosts h).relayState.QueryRelayForByIp a = some relay) :
    handleCreateRelayRequest.respond f h a b
      = (f, [Event.sendMessageToVpnIp .Control 0 h (NebulaControl.wire
          { Type_ := .CreateRelayResponse, ResponderRelayIndex := relay.LocalIndex,
            InitiatorRelayIndex := relay.RemoteIndex, RelayFromIp := a, RelayToIp := b })]) := by
  unfold handleCreateRelayRequest.respond
  rw [hq]
  rfl

theorem install_query_self (f : Interface) (h : HostId) (vpnIp : VpnIp) (remoteIdx : Option Nat)
    (ty : RelayType) (st : RelayStatus) (idx : Nat) :
    ((AddRelay.install f h vpnIp remoteIdx ty st idx).hosts h).relayState.QueryRelayForByIp vpnIp
      = some { Type_ := ty, State := st, LocalIndex := idx, RemoteIndex := remoteIdx.getD 0,
               PeerIp := vpnIp } := by
  simp [AddRelay.install, RelayState.QueryRelayForByIp, RelayState.InsertRelay,
    NatMap.get_set_self]

/-- C1: a CreateRelayRequest addressed to this node, received over a hostinfo
that holds no relay for the requester, with a successful index allocation,
records on that hostinfo a Terminal relay in state Established (peer = the
requester, remote index = the initiator's index, local index = the allocated
one, which `hm.Relays` now maps to the hostinfo) and sends over the same
hostinfo exactly one CreateRelayResponse that echoes the pair and the
initiator's index and carries the allocated index as responder index. -/
theorem handleCreateRelayRequest_new_terminal (env : Env) (f : Interface) (h : HostId)
    (m : NebulaControl) (idx : Nat)
    (hto : m.RelayToIp = f.myVpnIp)
    (hno : (f.hosts h).relayState.QueryRelayForByIp m.RelayFromIp = none)
    (halloc : (AddRelay env f h m.RelayFromIp (some m.InitiatorRelayIndex) TerminalType
      Established).2 = .ok idx) :
    ((handleCreateRelayRequest env f h m).1.hosts h).relayState.QueryRelayForByIp m.RelayFromIp
      = some { Type_ := TerminalType, State := Established, LocalIndex := idx,
               RemoteIndex := m.InitiatorRelayIndex, PeerIp := m.RelayFromIp } ∧
    f.hostMap.Relays.get idx = none ∧
    (handleCreateRelayRequest env f h m).1.hostMap.Relays.get idx = some h ∧
    (handleCreateRelayRequest env f h m).2
      = [Event.sendMessageToVpnIp .Control 0 h (NebulaControl.wire
          { Type_ := .CreateRelayResponse, ResponderRelayIndex := idx,
            InitiatorRelayIndex := m.InitiatorRelayIndex, RelayFromIp := m.RelayFromIp,
            RelayToIp := m.RelayToIp })] := by
  rcases AddRelay_spec env f h m.RelayFromIp (some m.InitiatorRelayIndex)
    TerminalType Established with ⟨e, p, hp⟩ | ⟨i, p, hi, hp⟩
  · rw [hp] at halloc; cases halloc
  · rw [hp] at halloc
    have hidx2 : i = idx := by simpa using halloc
    subst hidx2
    have hq := install_query_self { f with randPos := p } h m.RelayFromIp
      (some m.InitiatorRelayIndex) TerminalType Established i
    have hres : handleCreateRelayRequest env f h m
        = handleCreateRelayRequest.respond
            (AddRelay.install { f with randPos := p } h m.RelayFromIp
              (some m.InitiatorRelayIndex) TerminalType Established i)
            h m.RelayFromIp m.RelayToIp := by
      unfold handleCreateRelayRequest
      simp only [hto, if_true, hno, hp]
    rw [hres, respond_of_some _ h _ _ _ hq]
    refine ⟨hq, ?_, ?_, rfl⟩
    · simpa [NatMap.contains] using hi
    · simp [AddRelay.install, HostMap.unlockedMakePrimary, NatMap.get_set_self]

theorem handleCreateRelayRequest_new_terminal_witness :
    ((handleCreateRelayRequest Fixture.env Fixture.iface 0 ⟨.CreateRelayRequest, 7, 0, 105, 1⟩).1.hosts
        0).relayState.QueryRelayForByIp 105
      = some { Type_ := TerminalType, State := Established, LocalIndex := 1000,
               RemoteIndex := 7, PeerIp := 105 } ∧
    Fixture.iface.hostMap.Relays.get 1000 = none ∧
    (handleCreateRelayRequest Fixture.env Fixture.iface 0
        ⟨.CreateRelayRequest, 7, 0, 105, 1⟩).1.hostMap.Relays.get 1000 = some 0 ∧
    (handleCreateRelayRequest Fixture.env Fixture.iface 0 ⟨.CreateRelayRequest, 7, 0, 105, 1⟩).2
      = [Event.sendMessageToVpnIp .Control 0 0 (NebulaControl.wire
          { Type_ := .CreateRelayResponse, ResponderRelayIndex := 1000,
            InitiatorRelayIndex := 7, RelayFromIp := 105, RelayToIp := 1 })] :=
  handleCreateRelayRequest_new_terminal Fixture.env Fixture.iface 0
    ⟨.CreateRelayRequest, 7, 0, 105, 1⟩ 1000 rfl rfl rfl

theorem Relay.complete_established (r : Relay) (i : Nat) :
    ({ r.complete i with State := Established } : Relay) = r.complete i := rfl

theorem handleCreateRelayResponse_of_find (f : Interface) (h : HostId) (m : NebulaControl)
    (ip : VpnIp) (r : Relay)
    (hfind : (f.hosts h).relayState.relays.findVal
      (fun x => x.LocalIndex == m.InitiatorRelayIndex) = some (ip, r))
    (hty : r.Type_ = ForwardingType) :
    handleCreateRelayResponse f h m =
      (let f1 := f.setHost h { f.hosts h with
          relayState := ⟨(f.hosts h).relayState.relays.set ip (r.complete m.ResponderRelayIndex)⟩ }
       match f.hostMap.QueryVpnIp r.PeerIp with
       | none => (f1, [])
       | some P =>
         match (f1.hosts P).relayState.QueryRelayForByIp m.RelayToIp with
         | none => (f1, [])
         | some pr0 =>
           (f1.setHost P { f1.hosts P with
              relayState := ⟨(f1.hosts P).relayState.relays.set m.RelayToIp
                { pr0 with State := Established }⟩ },
            [Event.sendMessageToVpnIp .Control 0 P (NebulaControl.wire
              { Type_ := .CreateRelayResponse, ResponderRelayIndex := pr0.LocalIndex,
                InitiatorRelayIndex := pr0.RemoteIndex, RelayFromIp := (f1.hosts P).vpnIp,
                RelayToIp := m.RelayToIp })])) := by
  have hne : ¬ (r.complete m.ResponderRelayIndex).Type_ = TerminalType := by
    simp [Relay.complete, hty]
  unfold handleCreateRelayResponse EstablishRelay RelayState.CompleteRelayByIdx
  simp only [hfind, hne, if_false]
  rfl


/-- C2: a CreateRelayResponse whose initiator index matches a Forwarding relay
`r` of the receiving hostinfo `h` completes that relay (Established, remote
index = the responder index of the message); and when the main host map has a
hostinfo `P` for the relay's peer that holds a relay for `m.RelayToIp`, that
second relay becomes Established and exactly one CreateRelayResponse goes out
over `P`, carrying P's overlay IP, `m.RelayToIp`, the second relay's remote
index as initiator index and its local index as responder index.  (Should the
second relay be the very entry just completed, its completed form is meant.) -/
theorem handleCreateRelayResponse_forwarding (f : Interface) (h : HostId) (m : NebulaControl)
    (ip : VpnIp) (r : Relay)
    (hfind : (f.hosts h).relayState.relays.findVal
      (fun x => x.LocalIndex == m.InitiatorRelayIndex) = some (ip, r))
    (hty : r.Type_ = ForwardingType) :
    ((handleCreateRelayResponse f h m).1.hosts h).relayState.QueryRelayForByIp ip
      = some (r.complete m.ResponderRelayIndex) ∧
    ∀ (P : HostId) (r2 : Relay), f.hostMap.QueryVpnIp r.PeerIp = some P →
      (f.hosts P).relayState.QueryRelayForByIp m.RelayToIp = some r2 →
      ((handleCreateRelayResponse f h m).1.hosts P).relayState.QueryRelayForByIp m.RelayToIp
        = some { (if P = h ∧ m.RelayToIp = ip then r.complete m.ResponderRelayIndex else r2)
                 with State := Established } ∧
      (handleCreateRelayResponse f h m).2
        = [Event.sendMessageToVpnIp .Control 0 P (NebulaControl.wire
            { Type_ := .CreateRelayResponse,
              ResponderRelayIndex :=
                (if P = h ∧ m.RelayToIp = ip then r.complete m.ResponderRelayIndex
                  else r2).LocalIndex,
              InitiatorRelayIndex :=
                (if P = h ∧ m.RelayToIp = ip then r.complete m.ResponderRelayIndex
                  else r2).RemoteIndex,
              RelayFromIp := (f.hosts P).vpnIp,
              RelayToIp := m.RelayToIp })] := by
  rw [handleCreateRelayResponse_of_find f h m ip r hfind hty]
  constructor
  · cases hP : f.hostMap.QueryVpnIp r.PeerIp with
    | none => simp [Interface.setHost, RelayState.QueryRelayForByIp, NatMap.get_set_self]
    | some P =>
      simp only
      by_cases hPh : P = h
      · subst hPh
        by_cases hk : m.RelayToIp = ip
        · subst hk
          simp [Interface.setHost, RelayState.QueryRelayForByIp, NatMap.get_set_self,
            Relay.complete]
        · have hk2 : ¬ ip = m.RelayToIp := fun e => hk e.symm
          cases hq : (f.hosts P).relayState.relays.get m.RelayToIp <;>
            simp [Interface.setHost, RelayState.QueryRelayForByIp, NatMap.get_set, hk, hk2, hq]
      · have hPh2 : ¬ h = P := fun e => hPh e.symm
        cases hq : (f.hosts P).relayState.relays.get m.RelayToIp <;>
          simp [Interface.setHost, RelayState.QueryRelayForByIp, NatMap.get_set_self, hPh, hPh2,
            hq, Function.update_noteq]
  · intro P r2 hP hr2
    rw [hP]
    simp only
    by_cases hPh : P = h
    · subst hPh
      by_cases hk : m.RelayToIp = ip
      · subst hk
        simp [Interface.setHost, RelayState.QueryRelayForByIp, NatMap.get_set_self,
          Relay.complete]
      · have hk2 : ¬ ip = m.RelayToIp := fun e => hk e.symm
        have hr2b : (f.hosts P).relayState.relays.get m.RelayToIp = some r2 := hr2
        simp [Interface.setHost, RelayState.QueryRelayForByIp, NatMap.get_set, hk, hk2, hr2b]
    · have hr2b : (f.hosts P).relayState.relays.get m.RelayToIp = some r2 := hr2
      have hPh2 : ¬ h = P := fun e => hPh e.symm
      simp [Interface.setHost, RelayState.QueryRelayForByIp, NatMap.get_set_self, hPh, hPh2,
        hr2b, Function.update_noteq]


theorem handleCreateRelayResponse_forwarding_witness :
    ((handleCreateRelayResponse Fixture.relayNode 0 ⟨.CreateRelayResponse, 500, 900, 101, 100⟩).1.hosts
        0).relayState.QueryRelayForByIp 101
      = some ⟨ForwardingType, Established, 500, 900, 101⟩ ∧
    ((handleCreateRelayResponse Fixture.relayNode 0 ⟨.CreateRelayResponse, 500, 900, 101, 100⟩).1.hosts
        1).relayState.QueryRelayForByIp 100
      = some ⟨ForwardingType, Established, 501, 77, 100⟩ ∧
    (handleCreateRelayResponse Fixture.relayNode 0 ⟨.CreateRelayResponse, 500, 900, 101, 100⟩).2
      = [Event.sendMessageToVpnIp .Control 0 1
          (NebulaControl.wire ⟨.CreateRelayResponse, 77, 501, 101, 100⟩)] :=
  ⟨(handleCreateRelayResponse_forwarding Fixture.relayNode 0
      ⟨.CreateRelayResponse, 500, 900, 101, 100⟩ 101
      ⟨ForwardingType, Requested, 500, 0, 101⟩ rfl rfl).1,
   ((handleCreateRelayResponse_forwarding Fixture.relayNode 0
      ⟨.CreateRelayResponse, 500, 900, 101, 100⟩ 101
      ⟨ForwardingType, Requested, 500, 0, 101⟩ rfl rfl).2 1
      ⟨ForwardingType, Requested, 501, 77, 100⟩ rfl rfl).1,
   ((handleCreateRelayResponse_forwarding Fixture.relayNode 0
      ⟨.CreateRelayResponse, 500, 900, 101, 100⟩ 101
      ⟨ForwardingType, Requested, 500, 0, 101⟩ rfl rfl).2 1
      ⟨ForwardingType, Requested, 501, 77, 100⟩ rfl rfl).2⟩

theorem EstablishedKept.refl (f : Interface) : EstablishedKept f f :=
  fun _ _ r hr he => ⟨r, hr, he⟩

theorem EstablishedKept.trans {f g k : Interface} (h1 : EstablishedKept f g)
    (h2 : EstablishedKept g k) : EstablishedKept f k := by
  intro x ip r hr he
  obtain ⟨r2, hr2, he2⟩ := h1 x ip r hr he
  exact h2 x ip r2 hr2 he2

theorem EstablishedKept.of_hosts_eq {f g : Interface} (h : g.hosts = f.hosts) :
    EstablishedKept f g := by
  intro x ip r hr he
  exact ⟨r, by rw [h]; exact hr, he⟩

theorem EstablishedKept.set_relay (f g : Interface) (h : HostId) (k : VpnIp) (v : Relay)
    (hg : g.hosts = Function.update f.hosts h
      { f.hosts h with relayState := ⟨(f.hosts h).relayState.relays.set k v⟩ })
    (hv : v.State = Established ∨ (f.hosts h).relayState.QueryRelayForByIp k = none) :
    EstablishedKept f g := by
  intro x ip r hr he
  rw [hg]
  by_cases hx : x = h
  · subst hx
    by_cases hk : k = ip
    · subst hk
      rcases hv with hv | hv
      · exact ⟨v, by simp [RelayState.QueryRelayForByIp, NatMap.get_set_self], hv⟩
      · rw [hv] at hr; cases hr
    · refine ⟨r, ?_, he⟩
      simpa [RelayState.QueryRelayForByIp, NatMap.get_set, hk] using hr
  · exact ⟨r, by simpa [Function.update_noteq hx] using hr, he⟩

theorem EstablishedKept.install (f : Interface) (p : Nat) (h : HostId) (vpnIp : VpnIp)
    (remoteIdx : Option Nat) (ty : RelayType) (st : RelayStatus) (idx : Nat)
    (hv : st = Established ∨ (f.hosts h).relayState.QueryRelayForByIp vpnIp = none) :
    EstablishedKept f (AddRelay.install { f with randPos := p } h vpnIp remoteIdx ty st idx) :=
  EstablishedKept.set_relay f _ h vpnIp
    { Type_ := ty, State := st, LocalIndex := idx, RemoteIndex := remoteIdx.getD 0,
      PeerIp := vpnIp } rfl hv

theorem EstablishedKept.addRelay (env : Env) (f : Interface) (h : HostId) (vpnIp : VpnIp)
    (remoteIdx : Option Nat) (ty : RelayType) (st : RelayStatus)
    (hv : st = Established ∨ (f.hosts h).relayState.QueryRelayForByIp vpnIp = none) :
    EstablishedKept f (AddRelay env f h vpnIp remoteIdx ty st).1 := by
  rcases AddRelay_spec env f h vpnIp remoteIdx ty st with ⟨e, p, hp⟩ | ⟨idx, p, _, hp⟩
  · rw [hp]; exact EstablishedKept.of_hosts_eq rfl
  · rw [hp]; exact EstablishedKept.install f p h vpnIp remoteIdx ty st idx hv


theorem EstablishedKept.track (env : Env) (f : Interface) (h : HostId) (m : NebulaControl)
    (target : VpnIp) (targetRelay : Option Relay) :
    EstablishedKept f (handleCreateRelayRequest.track env f h m target targetRelay).1 := by
  unfold handleCreateRelayRequest.track
  cases hq : (f.hosts h).relayState.QueryRelayForByIp target with
  | none =>
    simp only
    exact EstablishedKept.addRelay env f h target _ _ _ (Or.inr hq)
  | some relay =>
    simp only
    cases relay.State with
    | Requested => exact EstablishedKept.refl f
    | Established =>
      simp only [NebulaControl.Marshal]
      split <;> exact EstablishedKept.refl f

theorem EstablishedKept.handleCreateRelayRequest (env : Env) (f : Interface) (h : HostId)
    (m : NebulaControl) : EstablishedKept f (handleCreateRelayRequest env f h m).1 := by
  unfold Nebula.handleCreateRelayRequest
  simp only
  split
  · -- the target is this node
    cases hq : (f.hosts h).relayState.QueryRelayForByIp m.RelayFromIp with
    | some existingRelay =>
      simp only
      cases existingRelay.State with
      | Requested =>
        have hq2 : (f.hosts h).relayState.relays.get m.RelayFromIp = some existingRelay := hq
        simp only [RelayState.CompleteRelayByIP, hq2, respond_fst]
        exact EstablishedKept.set_relay f _ h m.RelayFromIp _ rfl (Or.inl rfl)
      | Established =>
        simp only
        split
        · exact EstablishedKept.refl f
        · rw [respond_fst]; exact EstablishedKept.refl f
    | none =>
      simp only
      have hk := EstablishedKept.addRelay env f h m.RelayFromIp (some m.InitiatorRelayIndex)
        TerminalType Established (Or.inl rfl)
      rcases hr : AddRelay env f h m.RelayFromIp (some m.InitiatorRelayIndex) TerminalType
        Established with ⟨f1, res⟩
      rw [hr] at hk
      cases res with
      | error e => exact hk
      | ok i => simp only [respond_fst]; exact hk
  · -- the target is another node
    split
    · exact EstablishedKept.refl f
    · cases f.hostMap.QueryVpnIp m.RelayToIp with
      | none => exact EstablishedKept.refl f
      | some peer =>
        simp only
        cases (f.hosts peer).remote with
        | none => exact EstablishedKept.refl f
        | some addr =>
          simp only
          cases hq : (f.hosts peer).relayState.QueryRelayForByIp m.RelayFromIp with
          | some targetRelay =>
            simp only
            exact EstablishedKept.track env f h m m.RelayToIp (some targetRelay)
          | none =>
            simp only
            have hk := EstablishedKept.addRelay env f peer m.RelayFromIp none ForwardingType
              Requested (Or.inr hq)
            rcases hr : AddRelay env f peer m.RelayFromIp none ForwardingType Requested
              with ⟨f1, res⟩
            rw [hr] at hk
            cases res with
            | error e => exact hk
            | ok i =>
              simp only
              exact hk.trans (EstablishedKept.track env f1 h m m.RelayToIp none)

theorem EstablishedKept.handleCreateRelayResponse (f : Interface) (h : HostId)
    (m : NebulaControl) : EstablishedKept f (handleCreateRelayResponse f h m).1 := by
  unfold Nebula.handleCreateRelayResponse EstablishRelay RelayState.CompleteRelayByIdx
  simp only
  cases (f.hosts h).relayState.relays.findVal
      (fun r => r.LocalIndex == m.InitiatorRelayIndex) with
  | none => exact EstablishedKept.refl f
  | some e =>
    obtain ⟨ip, r⟩ := e
    have h1 : EstablishedKept f (f.setHost h { f.hosts h with
        relayState := ⟨(f.hosts h).relayState.relays.set ip
          (r.complete m.ResponderRelayIndex)⟩ }) :=
      EstablishedKept.set_relay f _ h ip _ rfl (Or.inl rfl)
    simp only
    split
    · exact h1
    · split
      · exact h1
      · split
        · exact h1
        · simp only [NebulaControl.Marshal]
          exact h1.trans (EstablishedKept.set_relay _ _ _ m.RelayToIp _ rfl (Or.inl rfl))

/-- C3: relay state is one-way.  For every control message given to
`HandleControlMsg` over any hostinfo, every relay entry of every hostinfo that
was Established before the call is still present, under the same hostinfo and
peer overlay IP, and Established after the call. -/
theorem HandleControlMsg_keeps_established (env : Env) (f : Interface) (h : HostId)
    (m : NebulaControl) (x : HostId) (ip : VpnIp) (r : Relay)
    (hr : (f.hosts x).relayState.QueryRelayForByIp ip = some r)
    (he : r.State = Established) :
    ∃ r2, ((HandleControlMsg env f h m).1.hosts x).relayState.QueryRelayForByIp ip = some r2 ∧
      r2.State = Established := by
  have hk : EstablishedKept f (HandleControlMsg env f h m).1 := by
    unfold HandleControlMsg
    cases m.Type_ with
    | None => exact EstablishedKept.refl f
    | CreateRelayRequest => exact EstablishedKept.handleCreateRelayRequest env f h m
    | CreateRelayResponse => exact EstablishedKept.handleCreateRelayResponse f h m
  exact hk x ip r hr he


theorem HandleControlMsg_keeps_established_witness :
    ∃ r2, ((HandleControlMsg Fixture.env Fixture.terminalNode 0
        ⟨.CreateRelayRequest, 8, 0, 105, 1⟩).1.hosts 0).relayState.QueryRelayForByIp 105
          = some r2 ∧ r2.State = Established :=
  HandleControlMsg_keeps_established Fixture.env Fixture.terminalNode 0
    ⟨.CreateRelayRequest, 8, 0, 105, 1⟩ 0 105 ⟨TerminalType, Established, 1000, 7, 105⟩ rfl rfl

theorem respond_eq_nil_of_none (f : Interface) (h : HostId) (a b : VpnIp)
    (hq : (f.hosts h).relayState.QueryRelayForByIp a = none) :
    handleCreateRelayRequest.respond f h a b = (f, []) := by
  unfold handleCreateRelayRequest.respond
  rw [hq]

/-- When the relay target answers a request, the state it leaves holds an
Established relay for the requester with the requested remote index, and the
answer is the response built from that relay. -/
theorem handleCreateRelayRequest_sent (env : Env) (f : Interface) (h : HostId)
    (m : NebulaControl) (hto : m.RelayToIp = f.myVpnIp)
    (hsent : (handleCreateRelayRequest env f h m).2 ≠ []) :
    ∃ relay, ((handleCreateRelayRequest env f h m).1.hosts h).relayState.QueryRelayForByIp
        m.RelayFromIp = some relay ∧
      relay.State = Established ∧ relay.RemoteIndex = m.InitiatorRelayIndex ∧
      (handleCreateRelayRequest env f h m).1.myVpnIp = f.myVpnIp ∧
      (handleCreateRelayRequest env f h m).2
        = [Event.sendMessageToVpnIp .Control 0 h (NebulaControl.wire
            { Type_ := .CreateRelayResponse, ResponderRelayIndex := relay.LocalIndex,
              InitiatorRelayIndex := m.InitiatorRelayIndex, RelayFromIp := m.RelayFromIp,
              RelayToIp := m.RelayToIp })] := by
  revert hsent
  unfold handleCreateRelayRequest
  dsimp only
  rw [if_pos hto]
  cases hq : (f.hosts h).relayState.QueryRelayForByIp m.RelayFromIp with
  | some existingRelay =>
    simp only
    cases hs : existingRelay.State with
    | Requested =>
      have hq2 : (f.hosts h).relayState.relays.get m.RelayFromIp = some existingRelay := hq
      simp only [RelayState.CompleteRelayByIP, hq2]
      intro _
      have hl : ((f.setHost h { f.hosts h with relayState :=
          ⟨(f.hosts h).relayState.relays.set m.RelayFromIp
            (existingRelay.complete m.InitiatorRelayIndex)⟩ }).hosts h).relayState.QueryRelayForByIp
            m.RelayFromIp = some (existingRelay.complete m.InitiatorRelayIndex) := by
        simp [Interface.setHost, RelayState.QueryRelayForByIp, NatMap.get_set_self]
      rw [respond_of_some _ h _ _ _ hl]
      exact ⟨_, hl, rfl, rfl, rfl, rfl⟩
    | Established =>
      simp only
      by_cases hne : existingRelay.RemoteIndex = m.InitiatorRelayIndex
      · simp only [hne, ne_eq, not_true_eq_false, if_false]
        intro _
        rw [respond_of_some f h _ _ _ hq]
        exact ⟨existingRelay, hq, hs, hne, rfl, by rw [hne]⟩
      · simp only [ne_eq, hne, not_false_eq_true, if_true]
        intro hc; simp at hc
  | none =>
    simp only
    rcases AddRelay_spec env f h m.RelayFromIp (some m.InitiatorRelayIndex) TerminalType
      Established with ⟨e, p, hp⟩ | ⟨idx, p, _, hp⟩
    · rw [hp]; intro hc; simp at hc
    · rw [hp]
      simp only
      have hl := install_query_self { f with randPos := p } h m.RelayFromIp
        (some m.InitiatorRelayIndex) TerminalType Established idx
      rw [respond_of_some _ h _ _ _ hl]
      intro _
      exact ⟨_, hl, rfl, rfl, rfl, rfl⟩

/-- C4: handling a CreateRelayRequest addressed to this node is idempotent.
After a first handling that answered, a second handling of the same request
over the same hostinfo leaves the whole node state (the hostinfo's relay
state, `hm.Relays` and the position in the random source, so no new index is
drawn) exactly as the first handling left it and sends the same single
CreateRelayResponse, equal in all four fields. -/
theorem handleCreateRelayRequest_idempotent (env : Env) (f : Interface) (h : HostId)
    (m : NebulaControl) (hto : m.RelayToIp = f.myVpnIp)
    (hsent : (handleCreateRelayRequest env f h m).2 ≠ []) :
    handleCreateRelayRequest env (handleCreateRelayRequest env f h m).1 h m
      = handleCreateRelayRequest env f h m ∧
    ((handleCreateRelayRequest env (handleCreateRelayRequest env f h m).1 h m).1.hosts
        h).relayState
      = ((handleCreateRelayRequest env f h m).1.hosts h).relayState ∧
    (handleCreateRelayRequest env (handleCreateRelayRequest env f h m).1 h m).1.hostMap.Relays
      = (handleCreateRelayRequest env f h m).1.hostMap.Relays ∧
    (handleCreateRelayRequest env (handleCreateRelayRequest env f h m).1 h m).1.randPos
      = (handleCreateRelayRequest env f h m).1.randPos ∧
    ∃ idx, (handleCreateRelayRequest env (handleCreateRelayRequest env f h m).1 h m).2
        = [Event.sendMessageToVpnIp .Control 0 h (NebulaControl.wire
            { Type_ := .CreateRelayResponse, ResponderRelayIndex := idx,
              InitiatorRelayIndex := m.InitiatorRelayIndex, RelayFromIp := m.RelayFromIp,
              RelayToIp := m.RelayToIp })] ∧
      (handleCreateRelayRequest env f h m).2
        = [Event.sendMessageToVpnIp .Control 0 h (NebulaControl.wire
            { Type_ := .CreateRelayResponse, ResponderRelayIndex := idx,
              InitiatorRelayIndex := m.InitiatorRelayIndex, RelayFromIp := m.RelayFromIp,
              RelayToIp := m.RelayToIp })] := by
  obtain ⟨relay, hq, hs, hri, hmy, hev⟩ := handleCreateRelayRequest_sent env f h m hto hsent
  have h2 : handleCreateRelayRequest env (handleCreateRelayRequest env f h m).1 h m
      = handleCreateRelayRequest env f h m := by
    generalize hg : handleCreateRelayRequest env f h m = r1 at hq hmy hev
    obtain ⟨g, evs⟩ := r1
    simp only at hq hmy hev
    have hto2 : m.RelayToIp = g.myVpnIp := by rw [hmy]; exact hto
    have hne : ¬ relay.RemoteIndex ≠ m.InitiatorRelayIndex := by simp [hri]
    unfold handleCreateRelayRequest
    simp only [hto2, if_true, hq, hs, hne, if_false]
    rw [respond_of_some g h _ _ _ hq, hev, hri, ← hto2]
  refine ⟨h2, by rw [h2], by rw [h2], by rw [h2], relay.LocalIndex, ?_, hev⟩
  rw [h2]; exact hev

theorem handleCreateRelayRequest_idempotent_witness :
    handleCreateRelayRequest Fixture.env
        (handleCreateRelayRequest Fixture.env Fixture.iface 0
          ⟨.CreateRelayRequest, 7, 0, 105, 1⟩).1 0 ⟨.CreateRelayRequest, 7, 0, 105, 1⟩
      = handleCreateRelayRequest Fixture.env Fixture.iface 0
          ⟨.CreateRelayRequest, 7, 0, 105, 1⟩ :=
  (handleCreateRelayRequest_idempotent Fixture.env Fixture.iface 0
    ⟨.CreateRelayRequest, 7, 0, 105, 1⟩ rfl (by decide)).1


/-- C5: a node that is not configured as a relay never forwards.  For a
CreateRelayRequest whose target is another node, handled with `am_relay`
false, the handler returns the node state as it was (no relay on any hostinfo,
`hm.Relays` and `hm.Hosts` untouched) and makes no call at all: neither
`getOrHandshake` nor `sendMessageToVpnIp`. -/
theorem handleCreateRelayRequest_not_relay (env : Env) (f : Interface) (h : HostId)
    (m : NebulaControl) (hto : m.RelayToIp ≠ f.myVpnIp) (ham : f.amRelay = false) :
    handleCreateRelayRequest env f h m = (f, []) ∧
    (∀ x, ((handleCreateRelayRequest env f h m).1.hosts x).relayState
      = (f.hosts x).relayState) ∧
    (handleCreateRelayRequest env f h m).1.hostMap.Relays = f.hostMap.Relays ∧
    (handleCreateRelayRequest env f h m).1.hostMap.Hosts = f.hostMap.Hosts ∧
    (handleCreateRelayRequest env f h m).2 = [] := by
  have h1 : handleCreateRelayRequest env f h m = (f, []) := by
    unfold handleCreateRelayRequest
    dsimp only
    rw [if_neg hto, ham]
    rfl
  rw [h1]
  exact ⟨rfl, fun _ => rfl, rfl, rfl, rfl⟩

theorem handleCreateRelayRequest_not_relay_witness :
    handleCreateRelayRequest Fixture.env Fixture.iface 0 ⟨.CreateRelayRequest, 7, 0, 105, 100⟩
      = (Fixture.iface, []) :=
  (handleCreateRelayRequest_not_relay Fixture.env Fixture.iface 0
    ⟨.CreateRelayRequest, 7, 0, 105, 100⟩ (by decide) rfl).1


/-! ## Inside packet path -/

theorem PromoteBestQueryVpnIp_conns (f : Interface) (vpnIp : VpnIp) :
    (PromoteBestQueryVpnIp f vpnIp).1.conns = f.conns ∧
    (PromoteBestQueryVpnIp f vpnIp).1.nextConnId = f.nextConnId := by
  unfold PromoteBestQueryVpnIp
  cases f.hostMap.Hosts.get vpnIp with
  | none => exact ⟨rfl, rfl⟩
  | some hi =>
    simp only
    split
    · split <;> exact ⟨rfl, rfl⟩
    · exact ⟨rfl, rfl⟩

theorem getOrHandshake.find_conns (f : Interface) (vpnIp : VpnIp) :
    ((getOrHandshake.find f vpnIp).1.conns = f.conns ∨
      (getOrHandshake.find f vpnIp).1.conns
        = Function.update f.conns f.nextConnId newConnectionState) ∧
    ((getOrHandshake.find f vpnIp).2.2 = [] ∨
      (getOrHandshake.find f vpnIp).2.2 = [Event.timerAdd vpnIp]) := by
  unfold getOrHandshake.find
  have hp := PromoteBestQueryVpnIp_conns f vpnIp
  rcases hr : PromoteBestQueryVpnIp f vpnIp with ⟨f1, res⟩
  rw [hr] at hp
  simp only at hp
  cases res with
  | some hi => exact ⟨Or.inl hp.1, Or.inl rfl⟩
  | none =>
    simp only
    cases hq : f1.pendingHostMap.QueryVpnIp vpnIp with
    | some hi => exact ⟨Or.inl hp.1, Or.inl rfl⟩
    | none =>
      have hq2 : f1.pendingHostMap.Hosts.get vpnIp = none := hq
      simp only [AddVpnIp, AddVpnIp.register, hq2, initHostInfo, Interface.setHost]
      refine ⟨Or.inr ?_, Or.inr trivial⟩
      rw [hp.1, hp.2]

theorem getOrHandshake_conns (env : Env) (f : Interface) (vpnIp : VpnIp) :
    (getOrHandshake env f vpnIp).1.conns = f.conns ∨
    (getOrHandshake env f vpnIp).1.conns
      = Function.update f.conns f.nextConnId newConnectionState := by
  unfold getOrHandshake
  cases getOrHandshake.route env f vpnIp with
  | none => exact Or.inl rfl
  | some v =>
    have hf := (getOrHandshake.find_conns f v).1
    simp only
    split
    · exact hf
    · split
      · simp only [ixHandshakeStage0, offerTrigger, Interface.setHost]
        split
        · split <;> exact hf
        · exact hf
      · exact hf

theorem getOrHandshake_events (env : Env) (f : Interface) (vpnIp : VpnIp) :
    ∀ e ∈ (getOrHandshake env f vpnIp).2.2, e.isHandshake = true := by
  unfold getOrHandshake
  cases getOrHandshake.route env f vpnIp with
  | none => intro e he; cases he
  | some v =>
    have hf := (getOrHandshake.find_conns f v).2
    simp only
    split
    · intro e he
      rcases hf with hf | hf <;> rw [hf] at he <;> simp at he
      subst he; rfl
    · split
      · intro e he
        simp only [ixHandshakeStage0, List.mem_append, List.mem_singleton] at he
        rcases he with he | he
        · rcases hf with hf | hf <;> rw [hf] at he <;> simp at he
          subst he; rfl
        · subst he; rfl
      · intro e he
        rcases hf with hf | hf <;> rw [hf] at he <;> simp at he
        subst he; rfl

theorem Event.not_isSend_of_isHandshake {e : Event} (h : e.isHandshake = true) :
    e.isSend = false := by
  cases e <;> simp [Event.isHandshake] at h <;> rfl

theorem Event.not_isFirewallDrop_of_isHandshake {e : Event} (h : e.isHandshake = true) :
    e.isFirewallDrop = false := by
  cases e <;> simp [Event.isHandshake] at h <;> rfl

theorem Event.not_isCachePacket_of_isHandshake {e : Event} (h : e.isHandshake = true) :
    e.isCachePacket = false := by
  cases e <;> simp [Event.isHandshake] at h <;> rfl

/-- A connection state that is ready after `getOrHandshake` existed before it,
unchanged. -/
theorem getOrHandshake_conn_of_ready (env : Env) (f : Interface) (vpnIp : VpnIp) (ci : ConnId)
    (hready : ((getOrHandshake env f vpnIp).1.conns ci).ready = true) :
    (getOrHandshake env f vpnIp).1.conns ci = f.conns ci := by
  rcases getOrHandshake_conns env f vpnIp with h | h
  · rw [h]
  · rw [h] at hready ⊢
    by_cases hc : ci = f.nextConnId
    · subst hc
      simp [newConnectionState] at hready
    · rw [Function.update_noteq hc]

theorem getOrHandshake_conn_of_lt (env : Env) (f : Interface) (vpnIp : VpnIp) (c : ConnId)
    (hc : c < f.nextConnId) :
    (getOrHandshake env f vpnIp).1.conns c = f.conns c := by
  rcases getOrHandshake_conns env f vpnIp with h | h
  · rw [h]
  · rw [h, Function.update_noteq (Nat.ne_of_lt hc)]


theorem consumeInsidePacket_of_lookup (env : Env) (f f1 : Interface) (packet : List Nat)
    (q : Nat) (fp : FirewallPacket) (hi : HostId) (evs : List Event) (ci : ConnId)
    (hnp : env.newPacket packet = .ok fp)
    (hb : (f.dropLocalBroadcast && fp.RemoteIP == f.localBroadcast) = false)
    (hs : (fp.RemoteIP == f.myVpnIp) = false)
    (hm : (f.dropMulticast && isMulticast fp.RemoteIP) = false)
    (hg : getOrHandshake env f fp.RemoteIP = (f1, some hi, evs))
    (hci : (f1.hosts hi).ConnectionState = some ci) :
    consumeInsidePacket env f packet q =
      if (f1.conns ci).ready = false then
        some ((cachePacket env f1 hi .Message 0 packet .sendMessageNow).1,
          evs ++ (cachePacket env f1 hi .Message 0 packet .sendMessageNow).2)
      else
        match env.firewallDrop packet fp hi with
        | none =>
          (sendNoMetrics env f1 .Message 0 (some ci) hi (f1.hosts hi).remote packet q).map
            (fun r => (r.1, evs ++ Event.firewallDrop packet hi :: r.2))
        | some _ => some (f1, evs ++ [Event.firewallDrop packet hi]) := by
  unfold consumeInsidePacket
  simp only [hnp, hb, hs, hm, hg, hci, Bool.false_eq_true, if_false]

/-- C6: the outbound firewall gates the send.  When `firewall.Drop` answers
with a reason for a packet and hostinfo, the replay `sendMessageNow` returns
the node state untouched after the consultation, and `consumeInsidePacket`,
having resolved the packet to that hostinfo with a ready tunnel, returns the
state that `getOrHandshake` left: the message counter of the tunnel is as it
was before the call and neither the cipher nor the UDP writer is called.
Conversely, whenever either function calls the cipher or the UDP writer, the
firewall's verdict for the packet and the hostinfo was nil. -/
theorem firewall_drop_gates_send (env : Env) (f : Interface) (packet : List Nat)
    (fp : FirewallPacket) (hnp : env.newPacket packet = .ok fp) :
    (∀ (hi : HostId) (reason : String) (t : MessageType) (st : Nat),
      env.firewallDrop packet fp hi = some reason →
      sendMessageNow env f t st hi packet = some (f, [Event.firewallDrop packet hi])) ∧
    (∀ (hi : HostId) (reason : String) (q : Nat) (f1 : Interface) (evs : List Event)
      (ci : ConnId),
      env.firewallDrop packet fp hi = some reason →
      (f.dropLocalBroadcast && fp.RemoteIP == f.localBroadcast) = false →
      (fp.RemoteIP == f.myVpnIp) = false →
      (f.dropMulticast && isMulticast fp.RemoteIP) = false →
      getOrHandshake env f fp.RemoteIP = (f1, some hi, evs) →
      (f1.hosts hi).ConnectionState = some ci →
      (f1.conns ci).ready = true →
      consumeInsidePacket env f packet q = some (f1, evs ++ [Event.firewallDrop packet hi]) ∧
      (f1.conns ci).atomicMessageCounter = (f.conns ci).atomicMessageCounter ∧
      ∀ e ∈ evs ++ [Event.firewallDrop packet hi], e.isSend = false) ∧
    (∀ (hi : HostId) (t : MessageType) (st : Nat) (r : Interface × List Event),
      sendMessageNow env f t st hi packet = some r →
      (∃ e ∈ r.2, e.isSend = true) → env.firewallDrop packet fp hi = none) ∧
    (∀ (q : Nat) (r : Interface × List Event),
      consumeInsidePacket env f packet q = some r →
      (∃ e ∈ r.2, e.isSend = true) →
      ∃ hi, (getOrHandshake env f fp.RemoteIP).2.1 = some hi ∧
        env.firewallDrop packet fp hi = none) := by
  refine ⟨?_, ?_, ?_, ?_⟩
  · intro hi reason t st hdrop
    unfold sendMessageNow
    simp only [hnp, hdrop]
  · intro hi reason q f1 evs ci hdrop hb hs hm hg hci hready
    have hgc := getOrHandshake_conn_of_ready env f fp.RemoteIP ci
      (by rw [hg]; exact hready)
    have hev := getOrHandshake_events env f fp.RemoteIP
    rw [hg] at hgc hev
    simp only at hgc hev
    refine ⟨?_, by rw [hgc], ?_⟩
    · rw [consumeInsidePacket_of_lookup env f f1 packet q fp hi evs ci hnp hb hs hm hg hci]
      simp only [hready, hdrop, Bool.true_eq_false, if_false]
    · intro e he
      rcases List.mem_append.mp he with he | he
      · exact Event.not_isSend_of_isHandshake (hev e he)
      · rw [List.mem_singleton.mp he]; rfl
  · intro hi t st r hr hsend
    unfold sendMessageNow at hr
    simp only [hnp] at hr
    cases hd : env.firewallDrop packet fp hi with
    | none => rfl
    | some reason =>
      rw [hd] at hr
      simp only [Option.some.injEq] at hr
      obtain ⟨e, he, hes⟩ := hsend
      rw [← hr] at he
      simp only [List.mem_singleton] at he
      rw [he] at hes
      simp [Event.isSend] at hes
  · intro q r hr hsend
    obtain ⟨e, he, hes⟩ := hsend
    unfold consumeInsidePacket at hr
    simp only [hnp] at hr
    split at hr
    · simp only [Option.some.injEq] at hr
      rw [← hr] at he; cases he
    · split at hr
      · simp only [Option.some.injEq] at hr
        rw [← hr] at he; cases he
      · split at hr
        · simp only [Option.some.injEq] at hr
          rw [← hr] at he; cases he
        · have hev := getOrHandshake_events env f fp.RemoteIP
          rcases hg : getOrHandshake env f fp.RemoteIP with ⟨f1, res, evs⟩
          rw [hg] at hr hev
          simp only at hev
          cases res with
          | none =>
            simp only [Option.some.injEq] at hr
            rw [← hr] at he
            have := Event.not_isSend_of_isHandshake (hev e he)
            rw [this] at hes; cases hes
          | some hi =>
            simp only at hr
            cases hci : (f1.hosts hi).ConnectionState with
            | none => rw [hci] at hr; cases hr
            | some ci =>
              rw [hci] at hr
              simp only at hr
              cases hd : env.firewallDrop packet fp hi with
              | none => exact ⟨hi, rfl, hd⟩
              | some reason =>
                exfalso
                rw [hd] at hr
                split at hr
                · simp only [Option.some.injEq, cachePacket] at hr
                  rw [← hr] at he
                  rcases List.mem_append.mp he with he | he
                  · have := Event.not_isSend_of_isHandshake (hev e he)
                    rw [this] at hes; cases hes
                  · rw [List.mem_singleton.mp he] at hes
                    simp [Event.isSend] at hes
                · simp only [Option.some.injEq] at hr
                  rw [← hr] at he
                  rcases List.mem_append.mp he with he | he
                  · have := Event.not_isSend_of_isHandshake (hev e he)
                    rw [this] at hes; cases hes
                  · rw [List.mem_singleton.mp he] at hes
                    simp [Event.isSend] at hes


theorem firewall_drop_gates_send_witness :
    sendMessageNow Fixture.envDrop Fixture.readyNode .Message 0 1 [1, 2, 3]
      = some (Fixture.readyNode, [Event.firewallDrop [1, 2, 3] 1]) ∧
    consumeInsidePacket Fixture.envDrop Fixture.readyNode [1, 2, 3] 0
      = some ((getOrHandshake Fixture.envDrop Fixture.readyNode 101).1,
          (getOrHandshake Fixture.envDrop Fixture.readyNode 101).2.2
            ++ [Event.firewallDrop [1, 2, 3] 1]) ∧
    Fixture.env.firewallDrop [1, 2, 3] ⟨1, 101, 0, 0, 17, false⟩ 1 = none ∧
    ∃ hi, (getOrHandshake Fixture.env Fixture.readyNode 101).2.1 = some hi ∧
      Fixture.env.firewallDrop [1, 2, 3] ⟨1, 101, 0, 0, 17, false⟩ hi = none :=
  ⟨(firewall_drop_gates_send Fixture.envDrop Fixture.readyNode [1, 2, 3]
      ⟨1, 101, 0, 0, 17, false⟩ rfl).1 1 "no matching rule" .Message 0 rfl,
   ((firewall_drop_gates_send Fixture.envDrop Fixture.readyNode [1, 2, 3]
      ⟨1, 101, 0, 0, 17, false⟩ rfl).2.1 1 "no matching rule" 0
      (getOrHandshake Fixture.envDrop Fixture.readyNode 101).1
      (getOrHandshake Fixture.envDrop Fixture.readyNode 101).2.2 0
      rfl rfl rfl rfl rfl rfl rfl).1,
   (firewall_drop_gates_send Fixture.env Fixture.readyNode [1, 2, 3]
      ⟨1, 101, 0, 0, 17, false⟩ rfl).2.2.1 1 .Message 0
      ((sendMessageNow Fixture.env Fixture.readyNode .Message 0 1 [1, 2, 3]).getD
        (Fixture.readyNode, []))
      rfl ⟨Event.writeTo 0 [1, 2, 3] (some ⟨0xc0a80003, 4242⟩), by decide, rfl⟩,
   (firewall_drop_gates_send Fixture.env Fixture.readyNode [1, 2, 3]
      ⟨1, 101, 0, 0, 17, false⟩ rfl).2.2.2 0
      ((consumeInsidePacket Fixture.env Fixture.readyNode [1, 2, 3] 0).getD
        (Fixture.readyNode, []))
      rfl ⟨Event.writeTo 0 [1, 2, 3] (some ⟨0xc0a80003, 4242⟩), by decide, rfl⟩⟩

/-- C7: an inside packet whose destination resolves to a hostinfo with a
connection state that is not ready is handed to that hostinfo's packet queue
exactly once, as type Message, subtype 0, with replay callback
`sendMessageNow`, and `consumeInsidePacket` returns: the firewall is not
consulted, neither the cipher nor the UDP writer is called, and no connection
state (hence no message counter) is changed after the lookup; no connection
state that existed before the call is changed at all. -/
theorem consumeInsidePacket_queues_when_not_ready (env : Env) (f f1 : Interface)
    (packet : List Nat) (q : Nat) (fp : FirewallPacket) (hi : HostId) (evs : List Event)
    (ci : ConnId)
    (hnp : env.newPacket packet = .ok fp)
    (hb : (f.dropLocalBroadcast && fp.RemoteIP == f.localBroadcast) = false)
    (hs : (fp.RemoteIP == f.myVpnIp) = false)
    (hm : (f.dropMulticast && isMulticast fp.RemoteIP) = false)
    (hg : getOrHandshake env f fp.RemoteIP = (f1, some hi, evs))
    (hci : (f1.hosts hi).ConnectionState = some ci)
    (hready : (f1.conns ci).ready = false) :
    ∃ f2, consumeInsidePacket env f packet q
        = some (f2, evs ++ [Event.cachePacket hi .Message 0 packet .sendMessageNow]) ∧
      (∃ kept, (f2.hosts hi).packetStore
        = kept ++ [⟨.Message, 0, .sendMessageNow, packet⟩]) ∧
      ((evs ++ [Event.cachePacket hi .Message 0 packet .sendMessageNow]).filter
        Event.isCachePacket).length = 1 ∧
      (∀ e ∈ evs ++ [Event.cachePacket hi .Message 0 packet .sendMessageNow],
        e.isFirewallDrop = false ∧ e.isSend = false) ∧
      f2.conns = f1.conns ∧
      (∀ c, c < f.nextConnId → f2.conns c = f.conns c) := by
  have hev := getOrHandshake_events env f fp.RemoteIP
  rw [hg] at hev
  simp only at hev
  refine ⟨(cachePacket env f1 hi .Message 0 packet .sendMessageNow).1, ?_, ?_, ?_, ?_, rfl, ?_⟩
  · rw [consumeInsidePacket_of_lookup env f f1 packet q fp hi evs ci hnp hb hs hm hg hci]
    simp only [hready, if_true]
    rfl
  · simp only [cachePacket, Interface.setHost, Function.update_same]
    split
    · exact ⟨_, rfl⟩
    · exact ⟨_, rfl⟩
  · have hnone : evs.filter Event.isCachePacket = [] := by
      rw [List.filter_eq_nil_iff]
      intro e he
      rw [Event.not_isCachePacket_of_isHandshake (hev e he)]
      simp
    rw [List.filter_append, hnone]
    rfl
  · intro e he
    rcases List.mem_append.mp he with he | he
    · exact ⟨Event.not_isFirewallDrop_of_isHandshake (hev e he),
        Event.not_isSend_of_isHandshake (hev e he)⟩
    · rw [List.mem_singleton.mp he]; exact ⟨rfl, rfl⟩
  · intro c hc
    have h1 := getOrHandshake_conn_of_lt env f fp.RemoteIP c hc
    rw [hg] at h1
    exact h1

theorem consumeInsidePacket_queues_when_not_ready_witness :
    ∃ f2, consumeInsidePacket Fixture.env Fixture.iface [1, 2, 3] 0
        = some (f2, (getOrHandshake Fixture.env Fixture.iface 101).2.2
            ++ [Event.cachePacket 10 .Message 0 [1, 2, 3] .sendMessageNow]) ∧
      (∃ kept, (f2.hosts 10).packetStore
        = kept ++ [⟨.Message, 0, .sendMessageNow, [1, 2, 3]⟩]) ∧
      (((getOrHandshake Fixture.env Fixture.iface 101).2.2
          ++ [Event.cachePacket 10 .Message 0 [1, 2, 3] .sendMessageNow]).filter
        Event.isCachePacket).length = 1 ∧
      (∀ e ∈ (getOrHandshake Fixture.env Fixture.iface 101).2.2
          ++ [Event.cachePacket 10 .Message 0 [1, 2, 3] .sendMessageNow],
        e.isFirewallDrop = false ∧ e.isSend = false) ∧
      f2.conns = (getOrHandshake Fixture.env Fixture.iface 101).1.conns ∧
      (∀ c, c < Fixture.iface.nextConnId → f2.conns c = Fixture.iface.conns c) :=
  consumeInsidePacket_queues_when_not_ready Fixture.env Fixture.iface
    (getOrHandshake Fixture.env Fixture.iface 101).1 [1, 2, 3] 0 ⟨1, 101, 0, 0, 17, false⟩ 10
    (getOrHandshake Fixture.env Fixture.iface 101).2.2 10 rfl rfl rfl rfl rfl rfl rfl


theorem nonceCounters_append (a b : List Event) :
    nonceCounters (a ++ b) = nonceCounters a ++ nonceCounters b := by
  induction a with
  | nil => rfl
  | cons e es ih => cases e <;> simp [nonceCounters, ih]

theorem headerCounters_append (a b : List Event) :
    headerCounters (a ++ b) = headerCounters a ++ headerCounters b := by
  induction a with
  | nil => rfl
  | cons e es ih => cases e <;> simp [headerCounters, ih]

theorem sendNoMetrics.mark_conns (f : Interface) (t : MessageType) (ci : ConnId)
    (hostinfo : HostId) (c : Nat) :
    (sendNoMetrics.mark f t ci hostinfo c).1.conns
      = Function.update f.conns ci { f.conns ci with atomicMessageCounter := c } := by
  unfold sendNoMetrics.mark
  simp only
  split <;> rfl

theorem sendNoMetrics.mark_out (f : Interface) (t : MessageType) (ci : ConnId)
    (hostinfo : HostId) (c : Nat) :
    (sendNoMetrics.mark f t ci hostinfo c).1.connectionManager
      = f.connectionManager.Out (f.hosts hostinfo).vpnIp := by
  unfold sendNoMetrics.mark
  simp only
  split <;> rfl

theorem sendNoMetrics.mark_events (f : Interface) (t : MessageType) (ci : ConnId)
    (hostinfo : HostId) (c : Nat) :
    nonceCounters (sendNoMetrics.mark f t ci hostinfo c).2 = [] ∧
    headerCounters (sendNoMetrics.mark f t ci hostinfo c).2 = [] ∧
    ∀ e ∈ (sendNoMetrics.mark f t ci hostinfo c).2, e.isSend = false := by
  unfold sendNoMetrics.mark
  simp only
  split
  · refine ⟨rfl, rfl, ?_⟩
    intro e he
    rw [List.mem_singleton.mp he]; rfl
  · exact ⟨rfl, rfl, fun e he => by cases he⟩

/-- One call of `sendNoMetrics` with an encrypt key: the counter becomes
`(c + 1) mod 2^64`, that value is the header counter and the nonce counter of
the one cipher call, and the key stays. -/
theorem sendNoMetrics_step (env : Env) (f : Interface) (t : MessageType) (st : Nat)
    (ci : ConnId) (hostinfo : HostId) (remote : Option UdpAddr) (p : List Nat) (q : Nat)
    (key : Nat) (hkey : (f.conns ci).eKey = some key) :
    ∃ f2 evs, sendNoMetrics env f t st (some ci) hostinfo remote p q = some (f2, evs) ∧
      (f2.conns ci).atomicMessageCounter = ((f.conns ci).atomicMessageCounter + 1) % 2 ^ 64 ∧
      (f2.conns ci).eKey = some key ∧
      nonceCounters evs = [((f.conns ci).atomicMessageCounter + 1) % 2 ^ 64] ∧
      headerCounters evs = [((f.conns ci).atomicMessageCounter + 1) % 2 ^ 64] := by
  have hm := sendNoMetrics.mark_events f t ci hostinfo
    (((f.conns ci).atomicMessageCounter + 1) % 2 ^ 64)
  have hc := sendNoMetrics.mark_conns f t ci hostinfo
    (((f.conns ci).atomicMessageCounter + 1) % 2 ^ 64)
  unfold sendNoMetrics
  simp only [hkey]
  split
  · refine ⟨_, _, rfl, ?_, ?_, ?_, ?_⟩
    · rw [hc]; simp
    · rw [hc]; simp [hkey]
    · rw [nonceCounters_append, hm.1]; rfl
    · rw [headerCounters_append, hm.2.1]; rfl
  · refine ⟨_, _, rfl, ?_, ?_, ?_, ?_⟩
    · rw [hc]; simp
    · rw [hc]; simp [hkey]
    · rw [nonceCounters_append, hm.1]; rfl
    · rw [headerCounters_append, hm.2.1]; rfl

theorem counters_pairwise_lt (c n : Nat) :
    (List.map (fun i => c + 1 + i) (List.range n)).Pairwise (· < ·) := by
  rw [List.pairwise_map]
  exact List.Pairwise.imp (fun h => Nat.add_lt_add_left h _) (List.pairwise_lt_range n)

theorem counters_succ (c n : Nat) :
    (c + 1) :: List.map (fun i => c + 1 + 1 + i) (List.range n)
      = List.map (fun i => c + 1 + i) (List.range (n + 1)) := by
  rw [List.range_succ_eq_map, List.map_cons, List.map_map]
  congr 1
  apply List.map_congr_left
  intro i _
  simp only [Function.comp, Nat.succ_eq_add_one]
  omega

theorem sendAll_counters (env : Env) (ci : ConnId) (key : Nat) (sends : List SendArgs) :
    ∀ f : Interface, (f.conns ci).eKey = some key →
      (f.conns ci).atomicMessageCounter + sends.length < 2 ^ 64 →
      ∃ f2 evs, sendAll env ci sends f = some (f2, evs) ∧
        nonceCounters evs
          = List.map (fun i => (f.conns ci).atomicMessageCounter + 1 + i)
              (List.range sends.length) ∧
        headerCounters evs
          = List.map (fun i => (f.conns ci).atomicMessageCounter + 1 + i)
              (List.range sends.length) ∧
        (f2.conns ci).atomicMessageCounter = (f.conns ci).atomicMessageCounter + sends.length ∧
        (f2.conns ci).eKey = some key := by
  induction sends with
  | nil =>
    intro f hkey _
    exact ⟨f, [], rfl, rfl, rfl, rfl, hkey⟩
  | cons a rest ih =>
    intro f hkey hlen
    simp only [List.length_cons] at hlen
    obtain ⟨f1, evs1, h1, hc1, hk1, hn1, hh1⟩ :=
      sendNoMetrics_step env f a.t a.st ci a.hostinfo a.remote a.p a.q key hkey
    have hmod : ((f.conns ci).atomicMessageCounter + 1) % 2 ^ 64
        = (f.conns ci).atomicMessageCounter + 1 := Nat.mod_eq_of_lt (by omega)
    rw [hmod] at hc1 hn1 hh1
    obtain ⟨f2, evs2, h2, hn2, hh2, hc2, hk2⟩ := ih f1 hk1 (by rw [hc1]; omega)
    refine ⟨f2, evs1 ++ evs2, ?_, ?_, ?_, ?_, hk2⟩
    · simp only [sendAll, h1, h2, Option.map_some']
    · rw [nonceCounters_append, hn1, hn2, hc1, List.length_cons]
      exact counters_succ _ _
    · rw [headerCounters_append, hh1, hh2, hc1, List.length_cons]
      exact counters_succ _ _
    · rw [hc2, hc1, List.length_cons]; omega

/-- C8: outbound counters are strictly increasing per tunnel.  A call of
`sendNoMetrics` on a connection state with an encrypt key adds 1 to
`atomicMessageCounter` (a 64-bit add, so the new value is c + 1 whenever that
fits 64 bits) and hands the new value to the cipher both inside the header and
as nonce counter, whether or not encryption or the UDP write succeeds.  Hence
n sends on a connection state whose counter is c, with c + n < 2^64, use the
counters c+1, ..., c+n, strictly increasing and pairwise distinct, and leave
the counter at c + n.  With a nil encrypt key the state is returned unchanged
and no call is made. -/
theorem sendNoMetrics_counters (env : Env) (f : Interface) (ci : ConnId) :
    (∀ (t : MessageType) (st : Nat) (hostinfo : HostId) (remote : Option UdpAddr)
      (p : List Nat) (q : Nat) (key : Nat), (f.conns ci).eKey = some key →
      ∃ f2 evs, sendNoMetrics env f t st (some ci) hostinfo remote p q = some (f2, evs) ∧
        (f2.conns ci).atomicMessageCounter
          = ((f.conns ci).atomicMessageCounter + 1) % 2 ^ 64 ∧
        ((f.conns ci).atomicMessageCounter + 1 < 2 ^ 64 →
          (f2.conns ci).atomicMessageCounter = (f.conns ci).atomicMessageCounter + 1) ∧
        nonceCounters evs = [(f2.conns ci).atomicMessageCounter] ∧
        headerCounters evs = [(f2.conns ci).atomicMessageCounter]) ∧
    (∀ (sends : List SendArgs) (key : Nat), (f.conns ci).eKey = some key →
      (f.conns ci).atomicMessageCounter + sends.length < 2 ^ 64 →
      ∃ f2 evs, sendAll env ci sends f = some (f2, evs) ∧
        nonceCounters evs
          = List.map (fun i => (f.conns ci).atomicMessageCounter + 1 + i)
              (List.range sends.length) ∧
        headerCounters evs = nonceCounters evs ∧
        (nonceCounters evs).Pairwise (· < ·) ∧
        (nonceCounters evs).Nodup ∧
        (f2.conns ci).atomicMessageCounter
          = (f.conns ci).atomicMessageCounter + sends.length) ∧
    (∀ (t : MessageType) (st : Nat) (hostinfo : HostId) (remote : Option UdpAddr)
      (p : List Nat) (q : Nat), (f.conns ci).eKey = none →
      sendNoMetrics env f t st (some ci) hostinfo remote p q = some (f, [])) := by
  refine ⟨?_, ?_, ?_⟩
  · intro t st hostinfo remote p q key hkey
    obtain ⟨f2, evs, h1, hc, _, hn, hh⟩ :=
      sendNoMetrics_step env f t st ci hostinfo remote p q key hkey
    refine ⟨f2, evs, h1, hc, ?_, by rw [hn, hc], by rw [hh, hc]⟩
    intro hlt
    rw [hc, Nat.mod_eq_of_lt hlt]
  · intro sends key hkey hlen
    obtain ⟨f2, evs, h1, hn, hh, hc, _⟩ := sendAll_counters env ci key sends f hkey hlen
    have hp := counters_pairwise_lt (f.conns ci).atomicMessageCounter sends.length
    refine ⟨f2, evs, h1, hn, by rw [hh, hn], by rw [hn]; exact hp, ?_, hc⟩
    rw [hn]
    exact hp.imp (fun h => Nat.ne_of_lt h)
  · intro t st hostinfo remote p q hkey
    unfold sendNoMetrics
    simp only [hkey]

theorem sendNoMetrics_counters_witness :
    (∃ f2 evs, sendNoMetrics Fixture.env Fixture.readyNode .Message 0 (some 0) 1 none [1] 0
          = some (f2, evs) ∧
      (f2.conns 0).atomicMessageCounter = (41 + 1) % 2 ^ 64 ∧
      (41 + 1 < 2 ^ 64 → (f2.conns 0).atomicMessageCounter = 41 + 1) ∧
      nonceCounters evs = [(f2.conns 0).atomicMessageCounter] ∧
      headerCounters evs = [(f2.conns 0).atomicMessageCounter]) ∧
    (∃ f2 evs, sendAll Fixture.env 0
        [⟨.Message, 0, 1, none, [1], 0⟩, ⟨.Test, 0, 1, none, [2], 0⟩] Fixture.readyNode
          = some (f2, evs) ∧
      nonceCounters evs = [42, 43] ∧
      headerCounters evs = nonceCounters evs ∧
      (nonceCounters evs).Pairwise (· < ·) ∧
      (nonceCounters evs).Nodup ∧
      (f2.conns 0).atomicMessageCounter = 43) ∧
    sendNoMetrics Fixture.env Fixture.iface .Message 0 (some 0) 1 none [1] 0
      = some (Fixture.iface, []) :=
  ⟨(sendNoMetrics_counters Fixture.env Fixture.readyNode 0).1 .Message 0 1 none [1] 0 5 rfl,
   (sendNoMetrics_counters Fixture.env Fixture.readyNode 0).2.1
    [⟨.Message, 0, 1, none, [1], 0⟩, ⟨.Test, 0, 1, none, [2], 0⟩] 5 rfl (by decide),
   (sendNoMetrics_counters Fixture.env Fixture.iface 0).2.2 .Message 0 1 none [1] 0 rfl⟩

/-- The outbound mark of `sendNoMetrics` is set under the overlay IP of the
hostinfo. -/
theorem sendNoMetrics_out_key (env : Env) (f f2 : Interface) (t : MessageType) (st : Nat)
    (ci : ConnId) (hostinfo : HostId) (remote : Option UdpAddr) (p : List Nat) (q : Nat)
    (key : Nat) (evs : List Event) (hkey : (f.conns ci).eKey = some key)
    (hr : sendNoMetrics env f t st (some ci) hostinfo remote p q = some (f2, evs)) :
    f2.connectionManager = f.connectionManager.Out (f.hosts hostinfo).vpnIp := by
  have hm := sendNoMetrics.mark_out f t ci hostinfo
    (((f.conns ci).atomicMessageCounter + 1) % 2 ^ 64)
  unfold sendNoMetrics at hr
  simp only [hkey] at hr
  split at hr
  · simp only [Option.some.injEq, Prod.mk.injEq] at hr
    rw [← hr.1]; exact hm
  · simp only [Option.some.injEq, Prod.mk.injEq] at hr
    rw [← hr.1]; exact hm

/-- C9, evaluated: the tunnel of hostinfo 1 has local index 1099 and overlay
IP 101; after a send over it the connection manager holds an outbound mark
under 101 and none under 1099. -/
theorem sendNoMetrics_marks_out_under_vpnIp :
    (Fixture.readyNode.hosts 1).localIndexId = 1099 ∧
    (Fixture.readyNode.hosts 1).vpnIp = 101 ∧
    ∃ f2 evs, sendNoMetrics Fixture.env Fixture.readyNode .Message 0 (some 0) 1
        (Fixture.readyNode.hosts 1).remote [1, 2, 3] 0 = some (f2, evs) ∧
      f2.connectionManager.out.contains 1099 = false ∧
      f2.connectionManager.out.contains 101 = true :=
  ⟨rfl, rfl, _, _, rfl, rfl, rfl⟩


/-! ## Connection manager -/

/-- The first test of `connection_manager_test.go`, replayed on the model:
after `Out` and `In` the check clears the marks and leaves the tunnel alone;
after `Out` alone the next check makes it pending deletion and keeps it in the
host map; the check after that removes it. -/
theorem Test_NewConnectionManagerTest_replay :
    let s1 := (Fixture.testNode.Out 1099).In 1099
    let s2 := doTrafficCheck s1 1099 0
    let s4 := doTrafficCheck (s2.Out 1099) 1099 0
    let s5 := doTrafficCheck s4 1099 0
    (s1.connectionManager.pendingDeletion.contains 1099 = false ∧
      s1.hostMap.Hosts.contains 0xac010102 = true ∧
      s1.hostMap.Indexes.contains 1099 = true ∧
      s1.connectionManager.out.contains 1099 = true) ∧
    (s2.connectionManager.pendingDeletion.contains 1099 = false ∧
      s2.connectionManager.out.contains 1099 = false ∧
      s2.connectionManager.in_.contains 1099 = false) ∧
    (s4.connectionManager.pendingDeletion.contains 1099 = true ∧
      s4.connectionManager.out.contains 1099 = false ∧
      s4.connectionManager.in_.contains 1099 = false ∧
      s4.hostMap.Indexes.contains 1099 = true ∧
      s4.hostMap.Hosts.contains 0xac010102 = true) ∧
    (s5.connectionManager.pendingDeletion.contains 1099 = false ∧
      s5.hostMap.Hosts.contains 0xac010102 = false ∧
      s5.hostMap.Indexes.contains 1099 = false) := by
  decide

/-- The second test of `connection_manager_test.go`, replayed on the model:
a tunnel pending deletion that sees inbound traffic before the next check is
no longer pending deletion and stays in the host map. -/
theorem Test_NewConnectionManagerTest2_replay :
    let s1 := (Fixture.testNode.Out 1099).In 1099
    let s2 := doTrafficCheck s1 1099 0
    let s4 := doTrafficCheck (s2.Out 1099) 1099 0
    let s5 := doTrafficCheck (s4.In 1099) 1099 0
    (s4.connectionManager.pendingDeletion.contains 1099 = true ∧
      s4.hostMap.Indexes.contains 1099 = true ∧
      s4.hostMap.Hosts.contains 0xac010102 = true) ∧
    (s5.connectionManager.pendingDeletion.contains 1099 = false ∧
      s5.connectionManager.out.contains 1099 = false ∧
      s5.connectionManager.in_.contains 1099 = false ∧
      s5.hostMap.Indexes.contains 1099 = true ∧
      s5.hostMap.Hosts.contains 0xac010102 = true) := by
  decide

theorem AddRelay.loop_collide (env : Env) (h : HostId) (vpnIp : VpnIp) (remoteIdx : Option Nat)
    (ty : RelayType) (st : RelayStatus) (n : Nat) (f : Interface)
    (hall : ∀ i, i < n → ∃ idx, AddRelay.candidate env f i = .ok idx ∧
      f.hostMap.Relays.contains idx = true) :
    AddRelay.loop env h vpnIp remoteIdx ty st n f
      = ({ f with randPos := f.randPos + n },
          .error "failed to generate unique localIndexId") := by
  induction n generalizing f with
  | zero => rfl
  | succ n ih =>
    obtain ⟨idx, hc, hin⟩ := hall 0 (Nat.succ_pos n)
    have hc0 : (generateIndex env f).1 = .ok idx := hc
    unfold AddRelay.loop
    rcases hg : generateIndex env f with ⟨res, f1⟩
    have hf1 : f1 = { f with randPos := f.randPos + 1 } := by
      have := congrArg Prod.snd hg
      simpa [generateIndex] using this.symm
    rw [hg] at hc0
    simp only at hc0
    subst hc0
    subst hf1
    simp only
    rw [if_pos hin]
    have hrest : ∀ i, i < n → ∃ idx, AddRelay.candidate env
        { f with randPos := f.randPos + 1 } i = .ok idx ∧
        f.hostMap.Relays.contains idx = true := by
      intro i hi
      obtain ⟨idx2, hc2, hin2⟩ := hall (i + 1) (Nat.succ_lt_succ hi)
      refine ⟨idx2, ?_, hin2⟩
      have he : f.randPos + 1 + i = f.randPos + (i + 1) := by omega
      simpa [AddRelay.candidate, he] using hc2
    rw [ih { f with randPos := f.randPos + 1 } hrest]
    have he : f.randPos + 1 + n = f.randPos + (n + 1) := by omega
    simp only [he]

theorem AddRelay.loop_generator_fails (env : Env) (h : HostId) (vpnIp : VpnIp)
    (remoteIdx : Option Nat) (ty : RelayType) (st : RelayStatus) (n : Nat) (f : Interface)
    (j : Nat) (e : String) (hj : j < n)
    (hall : ∀ i, i < j → ∃ idx, AddRelay.candidate env f i = .ok idx ∧
      f.hostMap.Relays.contains idx = true)
    (hfail : AddRelay.candidate env f j = .error e) :
    AddRelay.loop env h vpnIp remoteIdx ty st n f
      = ({ f with randPos := f.randPos + j + 1 }, .error e) := by
  induction n generalizing f j with
  | zero => exact absurd hj (Nat.not_lt_zero j)
  | succ n ih =>
    unfold AddRelay.loop
    rcases hg : generateIndex env f with ⟨res, f1⟩
    have hf1 : f1 = { f with randPos := f.randPos + 1 } := by
      have := congrArg Prod.snd hg
      simpa [generateIndex] using this.symm
    subst hf1
    have hres : (generateIndex env f).1 = res := by rw [hg]
    cases j with
    | zero =>
      have hc0 : (generateIndex env f).1 = .error e := hfail
      rw [hres] at hc0
      subst hc0
      rfl
    | succ j =>
      obtain ⟨idx, hc, hin⟩ := hall 0 (Nat.succ_pos j)
      have hc0 : (generateIndex env f).1 = .ok idx := hc
      rw [hres] at hc0
      subst hc0
      simp only
      rw [if_pos hin]
      have hrest : ∀ i, i < j → ∃ idx, AddRelay.candidate env
          { f with randPos := f.randPos + 1 } i = .ok idx ∧
          f.hostMap.Relays.contains idx = true := by
        intro i hi
        obtain ⟨idx2, hc2, hin2⟩ := hall (i + 1) (Nat.succ_lt_succ hi)
        refine ⟨idx2, ?_, hin2⟩
        have he : f.randPos + 1 + i = f.randPos + (i + 1) := by omega
        simpa [AddRelay.candidate, he] using hc2
      have hfail2 : AddRelay.candidate env { f with randPos := f.randPos + 1 } j = .error e := by
        have he : f.randPos + 1 + j = f.randPos + (j + 1) := by omega
        simpa [AddRelay.candidate, he] using hfail
      rw [ih { f with randPos := f.randPos + 1 } j (Nat.lt_of_succ_lt_succ hj) hrest hfail2]
      have he : f.randPos + 1 + j + 1 = f.randPos + (j + 1) + 1 := by omega
      simp only [he]

theorem AddRelay.loop_draws (env : Env) (h : HostId) (vpnIp : VpnIp) (remoteIdx : Option Nat)
    (ty : RelayType) (st : RelayStatus) (n : Nat) (f : Interface) :
    f.randPos ≤ (AddRelay.loop env h vpnIp remoteIdx ty st n f).1.randPos ∧
    (AddRelay.loop env h vpnIp remoteIdx ty st n f).1.randPos ≤ f.randPos + n := by
  induction n generalizing f with
  | zero => exact ⟨Nat.le_refl _, Nat.le_refl _⟩
  | succ n ih =>
    unfold AddRelay.loop
    simp only [generateIndex]
    cases env.rand f.randPos with
    | error e =>
      simp only [Except.map]
      constructor <;> omega
    | ok r =>
      simp only [Except.map]
      split
      · have := ih { f with randPos := f.randPos + 1 }
        simp only at this
        constructor <;> omega
      · simp only [AddRelay.install]
        constructor <;> omega


/-- C12: the postcondition of `AddRelay`.  Whenever it returns an index, that
index was not a key of `hm.Relays` before the call; after the call
`hm.Relays[index]` is the relay hostinfo, the relay hostinfo is the primary of
its overlay IP in `hm.Hosts`, its relay state holds for `vpnIp` a relay with
that local index, peer `vpnIp`, the given type and state, and the remote index
`*remoteIdx` (0 when `remoteIdx` is nil); every other entry of `hm.Relays` is
as before. -/
theorem AddRelay_postcondition (env : Env) (f : Interface) (h : HostId) (vpnIp : VpnIp)
    (remoteIdx : Option Nat) (ty : RelayType) (st : RelayStatus) (idx : Nat)
    (hok : (AddRelay env f h vpnIp remoteIdx ty st).2 = .ok idx) :
    f.hostMap.Relays.get idx = none ∧
    (AddRelay env f h vpnIp remoteIdx ty st).1.hostMap.Relays.get idx = some h ∧
    ((AddRelay env f h vpnIp remoteIdx ty st).1.hosts h).vpnIp = (f.hosts h).vpnIp ∧
    (AddRelay env f h vpnIp remoteIdx ty st).1.hostMap.Hosts.get (f.hosts h).vpnIp = some h ∧
    ((AddRelay env f h vpnIp remoteIdx ty st).1.hosts h).relayState.QueryRelayForByIp vpnIp
      = some { Type_ := ty, State := st, LocalIndex := idx,
               RemoteIndex := (match remoteIdx with
                 | some v => v
                 | none => 0),
               PeerIp := vpnIp } ∧
    ∀ k, k ≠ idx →
      (AddRelay env f h vpnIp remoteIdx ty st).1.hostMap.Relays.get k
        = f.hostMap.Relays.get k := by
  rcases AddRelay_spec env f h vpnIp remoteIdx ty st with ⟨e, p, hp⟩ | ⟨i, p, hi, hp⟩
  · rw [hp] at hok; cases hok
  · rw [hp] at hok
    have hidx : i = idx := by simpa using hok
    subst hidx
    rw [hp]
    refine ⟨?_, ?_, ?_, ?_, ?_, ?_⟩
    · simpa [NatMap.contains] using hi
    · simp [AddRelay.install, HostMap.unlockedMakePrimary, NatMap.get_set_self]
    · simp [AddRelay.install]
    · simp [AddRelay.install, HostMap.unlockedMakePrimary, NatMap.get_set_self]
    · rw [install_query_self]
      cases remoteIdx <;> rfl
    · intro k hk
      have hk2 : ¬ i = k := fun e => hk e.symm
      simp [AddRelay.install, HostMap.unlockedMakePrimary, NatMap.get_set, hk2]

theorem AddRelay_postcondition_witness :
    Fixture.relayNode.hostMap.Relays.get 1000 = none ∧
    (AddRelay Fixture.env Fixture.relayNode 1 100 (some 77) ForwardingType
      Requested).1.hostMap.Relays.get 1000 = some 1 ∧
    ((AddRelay Fixture.env Fixture.relayNode 1 100 (some 77) ForwardingType
      Requested).1.hosts 1).vpnIp = (Fixture.relayNode.hosts 1).vpnIp ∧
    (AddRelay Fixture.env Fixture.relayNode 1 100 (some 77) ForwardingType
      Requested).1.hostMap.Hosts.get (Fixture.relayNode.hosts 1).vpnIp = some 1 ∧
    ((AddRelay Fixture.env Fixture.relayNode 1 100 (some 77) ForwardingType
      Requested).1.hosts 1).relayState.QueryRelayForByIp 100
      = some { Type_ := ForwardingType, State := Requested, LocalIndex := 1000,
               RemoteIndex := 77, PeerIp := 100 } ∧
    ∀ k, k ≠ 1000 →
      (AddRelay Fixture.env Fixture.relayNode 1 100 (some 77) ForwardingType
        Requested).1.hostMap.Relays.get k = Fixture.relayNode.hostMap.Relays.get k :=
  AddRelay_postcondition Fixture.env Fixture.relayNode 1 100 (some 77) ForwardingType
    Requested 1000 rfl

/-- C13: index exhaustion in `AddRelay` is atomic.  A call draws at most 32
candidate indices.  If each of the 32 candidates is already a key of
`hm.Relays` the call fails with "failed to generate unique localIndexId"; if
the index generator fails at some draw (the earlier candidates being taken)
the call fails with the generator's error; and whenever the call fails, the
host map (`hm.Relays` and `hm.Hosts` included) and every hostinfo, hence the
relay state of the relay hostinfo, are exactly as before the call. -/
theorem AddRelay_exhaustion_atomic (env : Env) (f : Interface) (h : HostId) (vpnIp : VpnIp)
    (remoteIdx : Option Nat) (ty : RelayType) (st : RelayStatus) :
    (f.randPos ≤ (AddRelay env f h vpnIp remoteIdx ty st).1.randPos ∧
      (AddRelay env f h vpnIp remoteIdx ty st).1.randPos ≤ f.randPos + 32) ∧
    ((∀ i, i < 32 → ∃ idx, AddRelay.candidate env f i = .ok idx ∧
        f.hostMap.Relays.contains idx = true) →
      (AddRelay env f h vpnIp remoteIdx ty st).2
        = .error "failed to generate unique localIndexId") ∧
    (∀ (j : Nat) (e : String), j < 32 →
      (∀ i, i < j → ∃ idx, AddRelay.candidate env f i = .ok idx ∧
        f.hostMap.Relays.contains idx = true) →
      AddRelay.candidate env f j = .error e →
      (AddRelay env f h vpnIp remoteIdx ty st).2 = .error e) ∧
    (∀ e : String, (AddRelay env f h vpnIp remoteIdx ty st).2 = .error e →
      (AddRelay env f h vpnIp remoteIdx ty st).1.hostMap = f.hostMap ∧
      (AddRelay env f h vpnIp remoteIdx ty st).1.hosts = f.hosts ∧
      (AddRelay env f h vpnIp remoteIdx ty st).1.hostMap.Relays = f.hostMap.Relays ∧
      (AddRelay env f h vpnIp remoteIdx ty st).1.hostMap.Hosts = f.hostMap.Hosts ∧
      ((AddRelay env f h vpnIp remoteIdx ty st).1.hosts h).relayState
        = (f.hosts h).relayState) := by
  refine ⟨AddRelay.loop_draws env h vpnIp remoteIdx ty st 32 f, ?_, ?_, ?_⟩
  · intro hall
    unfold AddRelay
    rw [AddRelay.loop_collide env h vpnIp remoteIdx ty st 32 f hall]
  · intro j e hj hall hfail
    unfold AddRelay
    rw [AddRelay.loop_generator_fails env h vpnIp remoteIdx ty st 32 f j e hj hall hfail]
  · intro e he
    rcases AddRelay_spec env f h vpnIp remoteIdx ty st with ⟨e2, p, hp⟩ | ⟨i, p, _, hp⟩
    · rw [hp]
      exact ⟨rfl, rfl, rfl, rfl, rfl⟩
    · rw [hp] at he; cases he

theorem AddRelay_exhaustion_atomic_witness :
    (AddRelay Fixture.envStuck Fixture.terminalNode 0 105 none ForwardingType Requested).2
      = .error "failed to generate unique localIndexId" ∧
    (AddRelay Fixture.envNoEntropy Fixture.terminalNode 0 105 none ForwardingType Requested).2
      = .error "read of random source failed" ∧
    ((AddRelay Fixture.envStuck Fixture.terminalNode 0 105 none ForwardingType
        Requested).1.hostMap = Fixture.terminalNode.hostMap ∧
      (AddRelay Fixture.envStuck Fixture.terminalNode 0 105 none ForwardingType
        Requested).1.hosts = Fixture.terminalNode.hosts ∧
      (AddRelay Fixture.envStuck Fixture.terminalNode 0 105 none ForwardingType
        Requested).1.hostMap.Relays = Fixture.terminalNode.hostMap.Relays ∧
      (AddRelay Fixture.envStuck Fixture.terminalNode 0 105 none ForwardingType
        Requested).1.hostMap.Hosts = Fixture.terminalNode.hostMap.Hosts ∧
      ((AddRelay Fixture.envStuck Fixture.terminalNode 0 105 none ForwardingType
        Requested).1.hosts 0).relayState = (Fixture.terminalNode.hosts 0).relayState) :=
  ⟨(AddRelay_exhaustion_atomic Fixture.envStuck Fixture.terminalNode 0 105 none ForwardingType
      Requested).2.1 (fun _ _ => ⟨1000, rfl, rfl⟩),
   (AddRelay_exhaustion_atomic Fixture.envNoEntropy Fixture.terminalNode 0 105 none
      ForwardingType Requested).2.2.1 0 "read of random source failed" (by decide)
      (fun i hi => absurd hi (Nat.not_lt_zero i)) rfl,
   (AddRelay_exhaustion_atomic Fixture.envStuck Fixture.terminalNode 0 105 none ForwardingType
      Requested).2.2.2 "failed to generate unique localIndexId" rfl⟩


/-! ## Relay manager: frame conditions -/

/-- C19: a CreateRelayResponse whose initiator index matches a relay `r` of
Terminal type on the receiving hostinfo `h` completes that entry (state
Established, remote index = the responder index of the message) and does
nothing else: no event at all is produced, hence no control message is sent;
every other relay entry of `h`, every other field of `h`, every other hostinfo
and the host maps are as before. -/
theorem handleCreateRelayResponse_terminal (f : Interface) (h : HostId) (m : NebulaControl)
    (ip : VpnIp) (r : Relay)
    (hfind : (f.hosts h).relayState.relays.findVal
      (fun x => x.LocalIndex == m.InitiatorRelayIndex) = some (ip, r))
    (hty : r.Type_ = TerminalType) :
    (handleCreateRelayResponse f h m).2 = [] ∧
    ((handleCreateRelayResponse f h m).1.hosts h).relayState.QueryRelayForByIp ip
      = some { r with State := Established, RemoteIndex := m.ResponderRelayIndex } ∧
    (∀ k, k ≠ ip →
      ((handleCreateRelayResponse f h m).1.hosts h).relayState.QueryRelayForByIp k
        = (f.hosts h).relayState.QueryRelayForByIp k) ∧
    { (handleCreateRelayResponse f h m).1.hosts h with relayState := (f.hosts h).relayState }
      = f.hosts h ∧
    (∀ x, x ≠ h → (handleCreateRelayResponse f h m).1.hosts x = f.hosts x) ∧
    (handleCreateRelayResponse f h m).1.hostMap = f.hostMap ∧
    (handleCreateRelayResponse f h m).1.pendingHostMap = f.pendingHostMap := by
  have hT : (r.complete m.ResponderRelayIndex).Type_ = TerminalType := by
    simp [Relay.complete, hty]
  have hres : handleCreateRelayResponse f h m =
      (f.setHost h { f.hosts h with
        relayState := ⟨(f.hosts h).relayState.relays.set ip
          (r.complete m.ResponderRelayIndex)⟩ }, []) := by
    unfold handleCreateRelayResponse EstablishRelay RelayState.CompleteRelayByIdx
    simp only [hfind, hT, if_true]
  rw [hres]
  refine ⟨rfl, ?_, ?_, ?_, ?_, rfl, rfl⟩
  · simp [Interface.setHost, RelayState.QueryRelayForByIp, NatMap.get_set_self, Relay.complete]
  · intro k hk
    have hk2 : ¬ ip = k := fun e => hk e.symm
    simp [Interface.setHost, RelayState.QueryRelayForByIp, NatMap.get_set, hk2]
  · simp [Interface.setHost]
  · intro x hx
    simp [Interface.setHost, Function.update_noteq hx]

theorem handleCreateRelayResponse_terminal_witness :
    (handleCreateRelayResponse Fixture.initiatorNode 0
      ⟨.CreateRelayResponse, 1000, 4040, 100, 105⟩).2 = [] ∧
    ((handleCreateRelayResponse Fixture.initiatorNode 0
      ⟨.CreateRelayResponse, 1000, 4040, 100, 105⟩).1.hosts 0).relayState.QueryRelayForByIp 105
      = some ⟨TerminalType, Established, 1000, 4040, 105⟩ ∧
    ((handleCreateRelayResponse Fixture.initiatorNode 0
      ⟨.CreateRelayResponse, 1000, 4040, 100, 105⟩).1.hosts 0).relayState.QueryRelayForByIp 106
      = some ⟨TerminalType, Established, 1001, 8, 106⟩ :=
  have w := handleCreateRelayResponse_terminal Fixture.initiatorNode 0
    ⟨.CreateRelayResponse, 1000, 4040, 100, 105⟩ 105
    ⟨TerminalType, Requested, 1000, 0, 105⟩ rfl rfl
  ⟨w.1, w.2.1, (w.2.2.1 106 (by decide)).trans rfl⟩


theorem PromoteBestQueryVpnIp_relays (f : Interface) (vpnIp : VpnIp) :
    (PromoteBestQueryVpnIp f vpnIp).1.hostMap.Relays = f.hostMap.Relays ∧
    (PromoteBestQueryVpnIp f vpnIp).1.pendingHostMap = f.pendingHostMap ∧
    (PromoteBestQueryVpnIp f vpnIp).1.nextHostId = f.nextHostId ∧
    ∀ x, ((PromoteBestQueryVpnIp f vpnIp).1.hosts x).relayState = (f.hosts x).relayState := by
  unfold PromoteBestQueryVpnIp
  cases f.hostMap.Hosts.get vpnIp with
  | none => exact ⟨rfl, rfl, rfl, fun _ => rfl⟩
  | some hi =>
    have hx : ∀ x, (Function.update f.hosts hi
        { f.hosts hi with promoteCounter := ((f.hosts hi).promoteCounter + 1) % 2 ^ 32 }
        x).relayState = (f.hosts x).relayState := by
      intro x
      by_cases hxi : x = hi
      · subst hxi; simp
      · simp [Function.update_noteq hxi]
    simp only
    split
    · split
      · exact ⟨rfl, rfl, rfl, hx⟩
      · exact ⟨rfl, rfl, rfl, hx⟩
    · exact ⟨rfl, rfl, rfl, hx⟩

theorem getOrHandshake.find_relays (f : Interface) (vpnIp : VpnIp) :
    (getOrHandshake.find f vpnIp).1.hostMap.Relays = f.hostMap.Relays ∧
    ∀ x, ((getOrHandshake.find f vpnIp).1.hosts x).relayState = (f.hosts x).relayState ∨
      ((getOrHandshake.find f vpnIp).1.hosts x).relayState = ⟨NatMap.empty⟩ := by
  unfold getOrHandshake.find
  have hp := PromoteBestQueryVpnIp_relays f vpnIp
  rcases hr : PromoteBestQueryVpnIp f vpnIp with ⟨f1, res⟩
  rw [hr] at hp
  simp only at hp
  cases res with
  | some hi => exact ⟨hp.1, fun x => Or.inl (hp.2.2.2 x)⟩
  | none =>
    simp only
    cases hq : f1.pendingHostMap.QueryVpnIp vpnIp with
    | some hi => exact ⟨hp.1, fun x => Or.inl (hp.2.2.2 x)⟩
    | none =>
      have hq2 : f1.pendingHostMap.Hosts.get vpnIp = none := hq
      simp only [AddVpnIp, AddVpnIp.register, hq2, initHostInfo, Interface.setHost]
      refine ⟨hp.1, fun x => ?_⟩
      by_cases hx : x = f1.nextHostId
      · subst hx; right; simp
      · left; simp [Function.update_noteq hx, hp.2.2.2 x]

theorem getOrHandshake_relays (env : Env) (f : Interface) (vpnIp : VpnIp) :
    (getOrHandshake env f vpnIp).1.hostMap.Relays = f.hostMap.Relays ∧
    ∀ x, ((getOrHandshake env f vpnIp).1.hosts x).relayState = (f.hosts x).relayState ∨
      ((getOrHandshake env f vpnIp).1.hosts x).relayState = ⟨NatMap.empty⟩ := by
  unfold getOrHandshake
  cases getOrHandshake.route env f vpnIp with
  | none => exact ⟨rfl, fun _ => Or.inl rfl⟩
  | some v =>
    have hf := getOrHandshake.find_relays f v
    have hset : ∀ x, (Function.update (getOrHandshake.find f v).1.hosts
        (getOrHandshake.find f v).2.1
        { (getOrHandshake.find f v).1.hosts (getOrHandshake.find f v).2.1 with
          HandshakeReady := true } x).relayState
          = ((getOrHandshake.find f v).1.hosts x).relayState := by
      intro x
      by_cases hxi : x = (getOrHandshake.find f v).2.1
      · subst hxi; simp
      · simp [Function.update_noteq hxi]
    simp only
    split
    · exact hf
    · split
      · simp only [ixHandshakeStage0, offerTrigger, Interface.setHost]
        split
        · split
          · exact ⟨hf.1, fun x => by rw [hset x]; exact hf.2 x⟩
          · exact ⟨hf.1, fun x => by rw [hset x]; exact hf.2 x⟩
        · exact ⟨hf.1, fun x => by rw [hset x]; exact hf.2 x⟩
      · exact hf

/-- C20: a relay node only relays to directly connected peers.  For a
CreateRelayRequest whose target is not this node, handled with `am_relay`
true: if the main host map has no hostinfo for the target, the handler leaves
the whole state as it is and its only effect is the call
`getOrHandshake(target)`, which itself leaves `hm.Relays` as it is and adds no
relay to any hostinfo; if the target's hostinfo has no remote UDP address, the
handler leaves the whole state as it is and does nothing at all.  In both
cases no control message is sent. -/
theorem handleCreateRelayRequest_no_direct_peer (env : Env) (f : Interface) (h : HostId)
    (m : NebulaControl)
    (hto : m.RelayToIp ≠ f.myVpnIp) (ham : f.amRelay = true)
    (hpeer : f.hostMap.QueryVpnIp m.RelayToIp = none ∨
      ∃ P, f.hostMap.QueryVpnIp m.RelayToIp = some P ∧ (f.hosts P).remote = none) :
    (handleCreateRelayRequest env f h m).1 = f ∧
    (∀ e ∈ (handleCreateRelayRequest env f h m).2, e.isSend = false) ∧
    (f.hostMap.QueryVpnIp m.RelayToIp = none →
      (handleCreateRelayRequest env f h m).2 = [Event.getOrHandshake m.RelayToIp] ∧
      (getOrHandshake env f m.RelayToIp).1.hostMap.Relays = f.hostMap.Relays ∧
      ∀ (x : HostId) (ip : VpnIp) (r : Relay),
        ((getOrHandshake env f m.RelayToIp).1.hosts x).relayState.QueryRelayForByIp ip = some r →
        (f.hosts x).relayState.QueryRelayForByIp ip = some r) ∧
    ((∃ P, f.hostMap.QueryVpnIp m.RelayToIp = some P ∧ (f.hosts P).remote = none) →
      (handleCreateRelayRequest env f h m).2 = []) := by
  have hnone : f.hostMap.QueryVpnIp m.RelayToIp = none →
      handleCreateRelayRequest env f h m = (f, [Event.getOrHandshake m.RelayToIp]) := by
    intro hq
    unfold handleCreateRelayRequest
    dsimp only
    rw [if_neg hto]
    simp [ham, hq]
  have hsome : (∃ P, f.hostMap.QueryVpnIp m.RelayToIp = some P ∧ (f.hosts P).remote = none) →
      handleCreateRelayRequest env f h m = (f, []) := by
    rintro ⟨P, hq, hr⟩
    unfold handleCreateRelayRequest
    dsimp only
    rw [if_neg hto]
    simp [ham, hq, hr]
  refine ⟨?_, ?_, ?_, ?_⟩
  · rcases hpeer with hq | hq
    · rw [hnone hq]
    · rw [hsome hq]
  · rcases hpeer with hq | hq
    · rw [hnone hq]
      intro e he
      simp only [List.mem_singleton] at he
      subst he
      rfl
    · rw [hsome hq]
      intro e he
      cases he
  · intro hq
    refine ⟨by rw [hnone hq], (getOrHandshake_relays env f m.RelayToIp).1, ?_⟩
    intro x ip r hx
    rcases (getOrHandshake_relays env f m.RelayToIp).2 x with he | he
    · rw [he] at hx; exact hx
    · rw [he] at hx
      simp [RelayState.QueryRelayForByIp, NatMap.get, NatMap.empty, NatMap.lookupIn] at hx
  · intro hq
    rw [hsome hq]


theorem handleCreateRelayRequest_no_direct_peer_witness :
    (handleCreateRelayRequest Fixture.env Fixture.relayNode 1
      ⟨.CreateRelayRequest, 77, 0, 101, 105⟩).1 = Fixture.relayNode ∧
    (handleCreateRelayRequest Fixture.env Fixture.relayNode 1
      ⟨.CreateRelayRequest, 77, 0, 101, 105⟩).2 = [Event.getOrHandshake 105] ∧
    (handleCreateRelayRequest Fixture.env Fixture.relayNodeIndirect 1
      ⟨.CreateRelayRequest, 77, 0, 101, 102⟩).1 = Fixture.relayNodeIndirect ∧
    (handleCreateRelayRequest Fixture.env Fixture.relayNodeIndirect 1
      ⟨.CreateRelayRequest, 77, 0, 101, 102⟩).2 = [] :=
  have w1 := handleCreateRelayRequest_no_direct_peer Fixture.env Fixture.relayNode 1
    ⟨.CreateRelayRequest, 77, 0, 101, 105⟩ (by decide) rfl (Or.inl rfl)
  have w2 := handleCreateRelayRequest_no_direct_peer Fixture.env Fixture.relayNodeIndirect 1
    ⟨.CreateRelayRequest, 77, 0, 101, 102⟩ (by decide) rfl (Or.inr ⟨2, rfl, rfl⟩)
  ⟨w1.1, (w1.2.2.1 rfl).1, w2.1, w2.2.2.2 ⟨2, rfl, rfl⟩⟩


/-! ## Relay manager: the forwarded request -/

theorem NebulaControl.wire_inj (a b : NebulaControl) (hw : a.wire = b.wire) : a = b := by
  cases a with
  | mk t1 i1 r1 f1 t1o =>
    cases b with
    | mk t2 i2 r2 f2 t2o =>
      simp only [NebulaControl.wire, List.cons.injEq, and_true] at hw
      obtain ⟨h1, h2, h3, h4, h5⟩ := hw
      subst h2 h3 h4 h5
      cases t1 <;> cases t2 <;> simp at h1 <;> rfl

theorem handleCreateRelayRequest.track_events (env : Env) (f : Interface) (h : HostId)
    (m : NebulaControl) (target : VpnIp) (targetRelay : Option Relay) :
    ∀ e ∈ (handleCreateRelayRequest.track env f h m target targetRelay).2,
      ∃ resp : NebulaControl, resp.Type_ = .CreateRelayResponse ∧
        e = Event.sendMessageToVpnIp .Control 0 h resp.wire := by
  unfold handleCreateRelayRequest.track
  cases (f.hosts h).relayState.QueryRelayForByIp target with
  | none =>
    simp only
    intro e he
    cases he
  | some relay =>
    simp only
    cases relay.State with
    | Requested => intro e he; cases he
    | Established =>
      simp only [NebulaControl.Marshal]
      split
      · intro e he; cases he
      · intro e he
        simp only [List.mem_singleton] at he
        exact ⟨_, rfl, he⟩

theorem AddRelay_keeps_entry (env : Env) (f : Interface) (h : HostId) (vpnIp : VpnIp)
    (remoteIdx : Option Nat) (ty : RelayType) (st : RelayStatus)
    (x : HostId) (ip : VpnIp) (r : Relay)
    (hq : (f.hosts h).relayState.QueryRelayForByIp vpnIp = none)
    (hx : (f.hosts x).relayState.QueryRelayForByIp ip = some r) :
    ((AddRelay env f h vpnIp remoteIdx ty st).1.hosts x).relayState.QueryRelayForByIp ip
      = some r := by
  rcases AddRelay_spec env f h vpnIp remoteIdx ty st with ⟨e, p, hp⟩ | ⟨idx, p, _, hp⟩
  · rw [hp]; exact hx
  · rw [hp]
    by_cases hxh : x = h
    · subst hxh
      have hne : ¬ vpnIp = ip := by
        intro e; subst e; rw [hq] at hx; cases hx
      have hx2 : (f.hosts x).relayState.relays.get ip = some r := hx
      simp [AddRelay.install, RelayState.QueryRelayForByIp, RelayState.InsertRelay,
        NatMap.get_set, hne, hx2]
    · simpa [AddRelay.install, Function.update_noteq hxh] using hx

theorem handleCreateRelayRequest.track_keeps_entry (env : Env) (f : Interface) (h : HostId)
    (m : NebulaControl) (target : VpnIp) (targetRelay : Option Relay)
    (x : HostId) (ip : VpnIp) (r : Relay)
    (hx : (f.hosts x).relayState.QueryRelayForByIp ip = some r) :
    ((handleCreateRelayRequest.track env f h m target targetRelay).1.hosts
      x).relayState.QueryRelayForByIp ip = some r := by
  unfold handleCreateRelayRequest.track
  cases hq : (f.hosts h).relayState.QueryRelayForByIp target with
  | none =>
    simp only
    exact AddRelay_keeps_entry env f h target _ _ _ x ip r hq hx
  | some relay =>
    simp only
    cases relay.State with
    | Requested => exact hx
    | Established =>
      simp only [NebulaControl.Marshal]
      split <;> exact hx

theorem handleCreateRelayRequest.forward_mem (f : Interface) (h peer : HostId) (target : VpnIp)
    (index : Nat) (b : Bool) (e : Event)
    (he : e ∈ handleCreateRelayRequest.forward f h peer target index b) :
    b = true ∧ e = Event.sendMessageToVpnIp .Control 0 peer (NebulaControl.wire
      { Type_ := .CreateRelayRequest, InitiatorRelayIndex := index, ResponderRelayIndex := 0,
        RelayFromIp := (f.hosts h).vpnIp, RelayToIp := target }) := by
  unfold handleCreateRelayRequest.forward at he
  cases b with
  | false => simp at he
  | true =>
    simp only [NebulaControl.Marshal, if_true, List.mem_singleton] at he
    exact ⟨rfl, he⟩

/-- C18: the CreateRelayRequest that a relay node forwards to the target.
Whenever handling a CreateRelayRequest `m` over hostinfo `h` with RelayToIp
other than this node's IP sends a CreateRelayRequest `req` over a hostinfo
`P`, then `P` is the main host map's hostinfo of the target, `req.RelayFromIp`
is the overlay IP of `h`, the hostinfo the request arrived over (which is
`m.RelayFromIp` when the requester named itself in `m`), `req.RelayToIp` is
`m.RelayToIp`, and `req.InitiatorRelayIndex` is the local index of the relay
that `P` holds for `m.RelayFromIp` after the call, a relay in state Requested
that either was there before or was newly allocated under an index that
`hm.Relays` did not hold. -/
theorem handleCreateRelayRequest_forwarded_request (env : Env) (f : Interface) (h : HostId)
    (m : NebulaControl) (P : HostId) (req : NebulaControl)
    (hto : m.RelayToIp ≠ f.myVpnIp)
    (hty : req.Type_ = .CreateRelayRequest)
    (hsent : Event.sendMessageToVpnIp .Control 0 P req.wire
      ∈ (handleCreateRelayRequest env f h m).2) :
    f.hostMap.QueryVpnIp m.RelayToIp = some P ∧
    req.RelayFromIp = (f.hosts h).vpnIp ∧
    (m.RelayFromIp = (f.hosts h).vpnIp → req.RelayFromIp = m.RelayFromIp) ∧
    req.RelayToIp = m.RelayToIp ∧
    ∃ relay : Relay,
      ((handleCreateRelayRequest env f h m).1.hosts P).relayState.QueryRelayForByIp m.RelayFromIp
        = some relay ∧
      req.InitiatorRelayIndex = relay.LocalIndex ∧
      relay.State = Requested ∧
      ((f.hosts P).relayState.QueryRelayForByIp m.RelayFromIp = some relay ∨
        ((f.hosts P).relayState.QueryRelayForByIp m.RelayFromIp = none ∧
          f.hostMap.Relays.get relay.LocalIndex = none)) := by
  -- a request among the events stems from the forwarding step
  have key : ∀ (g : Interface) (peer : HostId) (index : Nat) (b : Bool) (tr : Option Relay),
      Event.sendMessageToVpnIp .Control 0 P req.wire
        ∈ handleCreateRelayRequest.forward g h peer m.RelayToIp index b
            ++ (handleCreateRelayRequest.track env g h m m.RelayToIp tr).2 →
      b = true ∧ P = peer ∧ req =
        { Type_ := .CreateRelayRequest, InitiatorRelayIndex := index,
          ResponderRelayIndex := 0, RelayFromIp := (g.hosts h).vpnIp,
          RelayToIp := m.RelayToIp } := by
    intro g peer index b tr hmem
    rcases List.mem_append.mp hmem with hm1 | hm2
    · obtain ⟨hb, he⟩ := handleCreateRelayRequest.forward_mem g h peer m.RelayToIp index b _ hm1
      simp only [Event.sendMessageToVpnIp.injEq, true_and] at he
      exact ⟨hb, he.1, NebulaControl.wire_inj _ _ he.2⟩
    · obtain ⟨resp, hr, he⟩ := handleCreateRelayRequest.track_events env g h m m.RelayToIp tr _ hm2
      simp only [Event.sendMessageToVpnIp.injEq, true_and] at he
      have := NebulaControl.wire_inj _ _ he.2
      subst this
      rw [hr] at hty
      cases hty
  unfold Nebula.handleCreateRelayRequest at hsent ⊢
  dsimp only at hsent ⊢
  rw [if_neg hto] at hsent ⊢
  cases ham : f.amRelay with
  | false => simp [ham] at hsent
  | true =>
    simp only [ham, Bool.not_true, Bool.false_eq_true, if_false] at hsent ⊢
    cases hq : f.hostMap.QueryVpnIp m.RelayToIp with
    | none => simp [hq] at hsent
    | some peer =>
      simp only [hq] at hsent ⊢
      cases hr : (f.hosts peer).remote with
      | none => simp [hr] at hsent
      | some addr =>
        simp only [hr] at hsent ⊢
        cases hrel : (f.hosts peer).relayState.QueryRelayForByIp m.RelayFromIp with
        | some targetRelay =>
          simp only [hrel] at hsent ⊢
          obtain ⟨hb, hP, hreq⟩ := key _ _ _ _ _ hsent
          subst hP
          subst hreq
          refine ⟨rfl, rfl, fun e => e.symm, rfl, targetRelay, ?_, rfl, ?_, Or.inl hrel⟩
          · exact handleCreateRelayRequest.track_keeps_entry env f h m m.RelayToIp _ _ _ _ hrel
          · simpa using hb
        | none =>
          simp only [hrel] at hsent ⊢
          rcases AddRelay_spec env f peer m.RelayFromIp none ForwardingType Requested
            with ⟨e, p, hp⟩ | ⟨idx, p, hfree, hp⟩
          · rw [hp] at hsent
            simp at hsent
          · rw [hp] at hsent ⊢
            simp only at hsent ⊢
            have hvip : ((AddRelay.install { f with randPos := p } P m.RelayFromIp none
                ForwardingType Requested idx).hosts h).vpnIp = (f.hosts h).vpnIp := by
              by_cases hhP : h = P
              · subst hhP; simp [AddRelay.install]
              · simp [AddRelay.install, Function.update_noteq hhP]
            obtain ⟨_, hP, hreq⟩ := key _ _ _ _ _ hsent
            subst hP
            subst hreq
            refine ⟨rfl, ?_, ?_, rfl,
              { Type_ := ForwardingType, State := Requested, LocalIndex := idx,
                RemoteIndex := 0, PeerIp := m.RelayFromIp }, ?_, rfl, rfl, Or.inr ⟨hrel, ?_⟩⟩
            · exact hvip
            · intro e; exact hvip.trans e.symm
            · apply handleCreateRelayRequest.track_keeps_entry
              exact install_query_self _ _ _ _ _ _ _
            · simpa [NatMap.contains] using hfree

theorem handleCreateRelayRequest_forwarded_request_witness :
    Fixture.relayNode.hostMap.QueryVpnIp 100 = some 0 ∧
    (⟨.CreateRelayRequest, 500, 0, 101, 100⟩ : NebulaControl).RelayFromIp
      = (Fixture.relayNode.hosts 1).vpnIp ∧
    ((handleCreateRelayRequest Fixture.env Fixture.relayNode 1
      ⟨.CreateRelayRequest, 77, 0, 101, 100⟩).1.hosts 0).relayState.QueryRelayForByIp 101
      = some ⟨ForwardingType, Requested, 500, 0, 101⟩ :=
  have w := handleCreateRelayRequest_forwarded_request Fixture.env Fixture.relayNode 1
    ⟨.CreateRelayRequest, 77, 0, 101, 100⟩ 0 ⟨.CreateRelayRequest, 500, 0, 101, 100⟩
    (by decide) rfl (List.Mem.head _)
  ⟨w.1, w.2.1, rfl⟩

/-- C18, counterexample to the claim as worded: the relay node (overlay IP 1)
receives over the tunnel of the host 101 a CreateRelayRequest that names the
pair 105 -> 100.  The request it forwards to the target 100 names the pair
101 -> 100: its RelayFromIp is the overlay IP of the hostinfo the request
arrived over, not the RelayFromIp of the request received. -/
theorem handleCreateRelayRequest_forwards_sender_ip :
    (handleCreateRelayRequest Fixture.env Fixture.relayNode 1
      ⟨.CreateRelayRequest, 77, 0, 105, 100⟩).2
      = [Event.sendMessageToVpnIp .Control 0 0
          (NebulaControl.wire ⟨.CreateRelayRequest, 1000, 0, 101, 100⟩)] ∧
    (⟨.CreateRelayRequest, 1000, 0, 101, 100⟩ : NebulaControl).RelayFromIp
      ≠ (⟨.CreateRelayRequest, 77, 0, 105, 100⟩ : NebulaControl).RelayFromIp ∧
    ((handleCreateRelayRequest Fixture.env Fixture.relayNode 1
      ⟨.CreateRelayRequest, 77, 0, 105, 100⟩).1.hosts 0).relayState.QueryRelayForByIp 105
      = some ⟨ForwardingType, Requested, 1000, 0, 105⟩ :=
  ⟨rfl, by decide, rfl⟩


/-! ## Outbound lookup and handshake initiation -/

theorem getOrHandshake_of_route (env : Env) (f : Interface) (vpnIp0 vpnIp : VpnIp)
    (hr : getOrHandshake.route env f vpnIp0 = some vpnIp) :
    (getOrHandshake env f vpnIp0).2.1 = some (getOrHandshake.find f vpnIp).2.1 := by
  unfold getOrHandshake
  rw [hr]
  simp only
  split
  · rfl
  · split <;> rfl

theorem getOrHandshake_pending (env : Env) (f : Interface) (vpnIp0 vpnIp : VpnIp)
    (hr : getOrHandshake.route env f vpnIp0 = some vpnIp) :
    (getOrHandshake env f vpnIp0).1.pendingHostMap
      = (getOrHandshake.find f vpnIp).1.pendingHostMap ∧
    ∀ x, ((getOrHandshake env f vpnIp0).1.hosts x).vpnIp
      = ((getOrHandshake.find f vpnIp).1.hosts x).vpnIp := by
  unfold getOrHandshake
  rw [hr]
  have hset : ∀ x, (Function.update (getOrHandshake.find f vpnIp).1.hosts
      (getOrHandshake.find f vpnIp).2.1
      { (getOrHandshake.find f vpnIp).1.hosts (getOrHandshake.find f vpnIp).2.1 with
        HandshakeReady := true } x).vpnIp
        = ((getOrHandshake.find f vpnIp).1.hosts x).vpnIp := by
    intro x
    by_cases hxi : x = (getOrHandshake.find f vpnIp).2.1
    · subst hxi; simp
    · simp [Function.update_noteq hxi]
  simp only
  split
  · exact ⟨rfl, fun _ => rfl⟩
  · split
    · simp only [ixHandshakeStage0, offerTrigger, Interface.setHost]
      split
      · split <;> exact ⟨rfl, hset⟩
      · exact ⟨rfl, hset⟩
    · exact ⟨rfl, fun _ => rfl⟩

theorem PromoteBestQueryVpnIp_snd (f : Interface) (vpnIp : VpnIp) :
    (PromoteBestQueryVpnIp f vpnIp).2 = f.hostMap.Hosts.get vpnIp := by
  unfold PromoteBestQueryVpnIp
  cases f.hostMap.Hosts.get vpnIp with
  | none => rfl
  | some hi =>
    simp only
    split
    · split <;> rfl
    · rfl

theorem getOrHandshake.find_main (f : Interface) (vpnIp : VpnIp) (hi : HostId)
    (h : f.hostMap.Hosts.get vpnIp = some hi) :
    (getOrHandshake.find f vpnIp).2.1 = hi := by
  unfold getOrHandshake.find
  have hp := PromoteBestQueryVpnIp_snd f vpnIp
  rcases hr : PromoteBestQueryVpnIp f vpnIp with ⟨f1, res⟩
  rw [hr, h] at hp
  simp only at hp
  subst hp
  rfl

theorem getOrHandshake.find_pending (f : Interface) (vpnIp : VpnIp) (hi : HostId)
    (h : f.hostMap.Hosts.get vpnIp = none)
    (hp : f.pendingHostMap.Hosts.get vpnIp = some hi) :
    getOrHandshake.find f vpnIp = (f, hi, []) := by
  unfold getOrHandshake.find PromoteBestQueryVpnIp
  rw [h]
  simp only [HostMap.QueryVpnIp, hp]

theorem getOrHandshake.find_new (f : Interface) (vpnIp : VpnIp)
    (h : f.hostMap.Hosts.get vpnIp = none)
    (hp : f.pendingHostMap.Hosts.get vpnIp = none) :
    getOrHandshake.find f vpnIp
      = (initHostInfo (AddVpnIp.register f vpnIp) f.nextHostId, f.nextHostId,
          [Event.timerAdd vpnIp]) := by
  unfold getOrHandshake.find PromoteBestQueryVpnIp
  rw [h]
  simp only [HostMap.QueryVpnIp, hp, AddVpnIp]

/-- C14: `getOrHandshake` returns nil exactly when the overlay IP is not
routable.  The result is nil if and only if the IP lies outside the overlay
network and `RouteFor` gives 0 for it; in that case the whole state, with the
main and the pending host map, is as before and no event occurs, so that no
handshake is started.  When the IP lies outside the overlay network and
`RouteFor` gives a gateway `g` other than 0, the hostinfo returned is the one
for `g`: the primary of `g` in the main host map, else the hostinfo of `g` in
the pending host map, else a newly created hostinfo with overlay IP `g` that
the pending host map then holds for `g`. -/
theorem getOrHandshake_nil_iff_unroutable (env : Env) (f : Interface) (vpnIp : VpnIp) :
    ((getOrHandshake env f vpnIp).2.1 = none ↔
      (f.hostMap.vpnCIDR.Contains vpnIp = false ∧ env.RouteFor vpnIp = 0)) ∧
    ((getOrHandshake env f vpnIp).2.1 = none →
      (getOrHandshake env f vpnIp).1 = f ∧ (getOrHandshake env f vpnIp).2.2 = []) ∧
    (f.hostMap.vpnCIDR.Contains vpnIp = false → env.RouteFor vpnIp ≠ 0 →
      (∀ hi, f.hostMap.Hosts.get (env.RouteFor vpnIp) = some hi →
        (getOrHandshake env f vpnIp).2.1 = some hi) ∧
      (∀ hi, f.hostMap.Hosts.get (env.RouteFor vpnIp) = none →
        f.pendingHostMap.Hosts.get (env.RouteFor vpnIp) = some hi →
        (getOrHandshake env f vpnIp).2.1 = some hi) ∧
      (f.hostMap.Hosts.get (env.RouteFor vpnIp) = none →
        f.pendingHostMap.Hosts.get (env.RouteFor vpnIp) = none →
        (getOrHandshake env f vpnIp).2.1 = some f.nextHostId ∧
        (getOrHandshake env f vpnIp).1.pendingHostMap.Hosts.get (env.RouteFor vpnIp)
          = some f.nextHostId ∧
        ((getOrHandshake env f vpnIp).1.hosts f.nextHostId).vpnIp = env.RouteFor vpnIp)) := by
  have hnone : (getOrHandshake env f vpnIp).2.1 = none →
      getOrHandshake.route env f vpnIp = none := by
    intro h
    cases hr : getOrHandshake.route env f vpnIp with
    | none => rfl
    | some v =>
      rw [getOrHandshake_of_route env f vpnIp v hr] at h
      cases h
  have hroute : getOrHandshake.route env f vpnIp = none ↔
      (f.hostMap.vpnCIDR.Contains vpnIp = false ∧ env.RouteFor vpnIp = 0) := by
    unfold getOrHandshake.route
    by_cases hc : f.hostMap.vpnCIDR.Contains vpnIp = false
    · by_cases h0 : env.RouteFor vpnIp = 0
      · simp [hc, h0]
      · simp [hc, h0]
    · simp [hc]
  have hres : getOrHandshake.route env f vpnIp = none →
      getOrHandshake env f vpnIp = (f, none, []) := by
    intro h
    unfold getOrHandshake
    rw [h]
  refine ⟨⟨fun h => hroute.mp (hnone h), fun h => by rw [hres (hroute.mpr h)]⟩, ?_, ?_⟩
  · intro h
    rw [hres (hnone h)]
    exact ⟨rfl, rfl⟩
  · intro hc h0
    have hr : getOrHandshake.route env f vpnIp = some (env.RouteFor vpnIp) := by
      unfold getOrHandshake.route
      simp [hc, h0]
    refine ⟨?_, ?_, ?_⟩
    · intro hi hm
      rw [getOrHandshake_of_route env f vpnIp _ hr, getOrHandshake.find_main f _ hi hm]
    · intro hi hm hp
      rw [getOrHandshake_of_route env f vpnIp _ hr, getOrHandshake.find_pending f _ hi hm hp]
    · intro hm hp
      have hp2 := getOrHandshake_pending env f vpnIp _ hr
      rw [getOrHandshake_of_route env f vpnIp _ hr, hp2.1, hp2.2,
        getOrHandshake.find_new f _ hm hp]
      refine ⟨rfl, ?_, ?_⟩
      · simp [initHostInfo, AddVpnIp.register, Interface.setHost, NatMap.get_set_self]
      · simp [initHostInfo, AddVpnIp.register, Interface.setHost]

theorem getOrHandshake_nil_iff_unroutable_witness :
    (getOrHandshake Fixture.envRouted Fixture.relayNode 0x0a000007).2.1 = some 0 ∧
    (getOrHandshake Fixture.envRouted Fixture.relayNode 0x0b000007).2.1 = none :=
  ⟨((getOrHandshake_nil_iff_unroutable Fixture.envRouted Fixture.relayNode 0x0a000007).2.2
      (by decide) (by decide)).1 0 rfl,
   (getOrHandshake_nil_iff_unroutable Fixture.envRouted Fixture.relayNode 0x0b000007).1.mpr
      ⟨by decide, by decide⟩⟩

/-- C16: `HandshakeManager.AddVpnIp` is idempotent.  For an overlay IP
without a pending hostinfo, the first call creates one (its overlay IP is the
given one and the pending host map holds it for that IP) and applies the init
function once, to the state in which the hostinfo is registered; any later
call for the same IP while a hostinfo is pending for it returns that very
hostinfo and leaves the state as it is, whatever init function it is given,
so the init function is not run; when the init function leaves the host maps
alone, the main host map after the first call is the one before it. -/
theorem AddVpnIp_idempotent (f : Interface) (vpnIp : VpnIp)
    (g : Interface → HostId → Interface)
    (hnew : f.pendingHostMap.Hosts.get vpnIp = none)
    (hg : ∀ s id, (g s id).pendingHostMap = s.pendingHostMap ∧ (g s id).hostMap = s.hostMap) :
    AddVpnIp f vpnIp (some g)
      = (g (AddVpnIp.register f vpnIp) f.nextHostId, f.nextHostId, [Event.timerAdd vpnIp]) ∧
    (AddVpnIp f vpnIp (some g)).1.pendingHostMap.Hosts.get vpnIp = some f.nextHostId ∧
    ((AddVpnIp.register f vpnIp).hosts f.nextHostId).vpnIp = vpnIp ∧
    (AddVpnIp f vpnIp (some g)).1.hostMap = f.hostMap ∧
    (∀ g2, AddVpnIp (AddVpnIp f vpnIp (some g)).1 vpnIp g2
      = ((AddVpnIp f vpnIp (some g)).1, (AddVpnIp f vpnIp (some g)).2.1, [])) ∧
    (∀ (s : Interface) (hi : HostId) (g2 : Option (Interface → HostId → Interface)),
      s.pendingHostMap.Hosts.get vpnIp = some hi → AddVpnIp s vpnIp g2 = (s, hi, [])) := by
  have h1 : AddVpnIp f vpnIp (some g)
      = (g (AddVpnIp.register f vpnIp) f.nextHostId, f.nextHostId, [Event.timerAdd vpnIp]) := by
    unfold AddVpnIp
    rw [hnew]
  have hlater : ∀ (s : Interface) (hi : HostId) (g2 : Option (Interface → HostId → Interface)),
      s.pendingHostMap.Hosts.get vpnIp = some hi → AddVpnIp s vpnIp g2 = (s, hi, []) := by
    intro s hi g2 hs
    unfold AddVpnIp
    rw [hs]
  have hp : (g (AddVpnIp.register f vpnIp) f.nextHostId).pendingHostMap.Hosts.get vpnIp
      = some f.nextHostId := by
    rw [(hg _ _).1]
    simp [AddVpnIp.register, NatMap.get_set_self]
  rw [h1]
  refine ⟨rfl, hp, ?_, ?_, ?_, hlater⟩
  · simp [AddVpnIp.register]
  · simp only
    rw [(hg _ _).2]
    rfl
  · intro g2
    exact hlater _ _ g2 hp

theorem AddVpnIp_idempotent_witness :
    (AddVpnIp Fixture.handshakeNode 0xac010102 (some initHostInfo)).1.pendingHostMap.Hosts.get
      0xac010102 = some 10 ∧
    (AddVpnIp Fixture.handshakeNode 0xac010102 (some initHostInfo)).1.hostMap
      = Fixture.handshakeNode.hostMap ∧
    AddVpnIp (AddVpnIp Fixture.handshakeNode 0xac010102 (some initHostInfo)).1 0xac010102
        (some initHostInfo)
      = ((AddVpnIp Fixture.handshakeNode 0xac010102 (some initHostInfo)).1,
          (AddVpnIp Fixture.handshakeNode 0xac010102 (some initHostInfo)).2.1, []) :=
  have w := AddVpnIp_idempotent Fixture.handshakeNode 0xac010102 initHostInfo rfl
    (fun _ _ => ⟨rfl, rfl⟩)
  ⟨w.2.1, w.2.2.2.1, w.2.2.2.2.1 (some initHostInfo)⟩

/-- Replay of `Test_NewHandshakeManagerVpnIp` up to its assertions on the
host maps: the first `AddVpnIp` runs the init function (one connection state
is allocated), the second runs nothing and returns the same hostinfo, the main
host map stays without entries and the pending host map holds the IP. -/
theorem Test_NewHandshakeManagerVpnIp_replay :
    (AddVpnIp Fixture.handshakeNode 0xac010102 (some initHostInfo)).1.nextConnId
      = Fixture.handshakeNode.nextConnId + 1 ∧
    (AddVpnIp (AddVpnIp Fixture.handshakeNode 0xac010102 (some initHostInfo)).1 0xac010102
      (some initHostInfo)).1.nextConnId = Fixture.handshakeNode.nextConnId + 1 ∧
    (AddVpnIp (AddVpnIp Fixture.handshakeNode 0xac010102 (some initHostInfo)).1 0xac010102
      (some initHostInfo)).2.1
      = (AddVpnIp Fixture.handshakeNode 0xac010102 (some initHostInfo)).2.1 ∧
    (AddVpnIp (AddVpnIp Fixture.handshakeNode 0xac010102 (some initHostInfo)).1 0xac010102
      (some initHostInfo)).1.hostMap.Hosts = NatMap.empty ∧
    (AddVpnIp (AddVpnIp Fixture.handshakeNode 0xac010102 (some initHostInfo)).1 0xac010102
      (some initHostInfo)).1.pendingHostMap.Hosts.contains 0xac010102 = true :=
  ⟨rfl, rfl, rfl, rfl, rfl⟩


/-! ## Connection manager: rescue by inbound traffic -/

/-- C11 as stated fails at the certificate gate: on a node that disconnects
invalid peers, a tunnel whose peer certificate expires at time 60 becomes
pending deletion by the check at time 50; inbound traffic is then marked, yet
the check at time 61 removes the tunnel from Hosts and Indexes instead of
rescuing it. -/
theorem doTrafficCheck_expired_certificate_pending :
    ((doTrafficCheck Fixture.expiredNode 1099 50).In 1099).hostMap.Hosts.get 101 = some 1 ∧
    ((doTrafficCheck Fixture.expiredNode 1099 50).In 1099).hostMap.Indexes.get 1099 = some 1 ∧
    ((doTrafficCheck Fixture.expiredNode 1099 50).In
      1099).connectionManager.pendingDeletion.contains 1099 = true ∧
    ((doTrafficCheck Fixture.expiredNode 1099 50).In 1099).connectionManager.in_.contains 1099
      = true ∧
    (doTrafficCheck ((doTrafficCheck Fixture.expiredNode 1099 50).In 1099) 1099
      61).hostMap.Hosts.get 101 = none ∧
    (doTrafficCheck ((doTrafficCheck Fixture.expiredNode 1099 50).In 1099) 1099
      61).hostMap.Indexes.get 1099 = none := by
  decide

/-- C11, amended by the certificate gate: for every tunnel (local index `li`
registered in Indexes, pending deletion or not) whose inbound mark is set,
a check at a time at which the tunnel's certificate is not invalid removes
the index from pendingDeletion, clears the in and out marks and leaves the
host map and the hostinfos as they are, so the tunnel stays in Hosts and
Indexes. -/
theorem doTrafficCheck_inbound_rescues (f : Interface) (hi : HostId) (li now : Nat)
    (hidx : f.hostMap.Indexes.get li = some hi)
    (hin : f.connectionManager.in_.contains li = true)
    (hcert : isInvalidCertificate f now hi = false) :
    (doTrafficCheck f li now).connectionManager.pendingDeletion.contains li = false ∧
    (doTrafficCheck f li now).connectionManager.in_.contains li = false ∧
    (doTrafficCheck f li now).connectionManager.out.contains li = false ∧
    (doTrafficCheck f li now).hostMap = f.hostMap ∧
    (doTrafficCheck f li now).hosts = f.hosts ∧
    (doTrafficCheck f li now).hostMap.Indexes.get li = some hi ∧
    (∀ ip, f.hostMap.Hosts.get ip = some hi →
      (doTrafficCheck f li now).hostMap.Hosts.get ip = some hi) := by
  have hres : doTrafficCheck f li now =
      { f with connectionManager :=
        { in_ := f.connectionManager.in_.delete li
          out := f.connectionManager.out.delete li
          pendingDeletion := f.connectionManager.pendingDeletion.delete li } } := by
    unfold doTrafficCheck
    simp only [hidx, hcert, hin, Bool.false_eq_true, if_false, if_true]
  rw [hres]
  refine ⟨?_, ?_, ?_, rfl, rfl, hidx, fun ip h => h⟩ <;>
    simp [NatMap.contains_delete]

theorem doTrafficCheck_inbound_rescues_witness :
    (doTrafficCheck ((doTrafficCheck (Fixture.testNode.Out 1099) 1099 0).In 1099) 1099
      0).connectionManager.pendingDeletion.contains 1099 = false ∧
    (doTrafficCheck ((doTrafficCheck (Fixture.testNode.Out 1099) 1099 0).In 1099) 1099
      0).hostMap.Indexes.get 1099 = some 0 ∧
    (doTrafficCheck ((doTrafficCheck (Fixture.testNode.Out 1099) 1099 0).In 1099) 1099
      0).hostMap.Hosts.get 0xac010102 = some 0 ∧
    ((doTrafficCheck (Fixture.testNode.Out 1099) 1099 0).In
      1099).connectionManager.pendingDeletion.contains 1099 = true :=
  have w := doTrafficCheck_inbound_rescues
    ((doTrafficCheck (Fixture.testNode.Out 1099) 1099 0).In 1099) 0 1099 0 rfl rfl rfl
  ⟨w.1, w.2.2.2.2.2.1, w.2.2.2.2.2.2 0xac010102 rfl, rfl⟩


/-! ## Cipher selection -/

/-- C15: cipher selection in `Main`.  When `cipher` is "aes", or the key is
absent so that the default "aes" applies, the noise endianness becomes
big-endian; when it is "chachapoly" it becomes little-endian; in both cases no
error is returned.  For every other value `v`, `Main` returns at this point,
with a nil `Control` and the error "unknown cipher: " followed by `v`, and the
noise endianness is left as it was. -/
theorem Main_cipher_selection (cipher : Option String) (e0 : ByteOrder) :
    ((cipher = none ∨ cipher = some "aes") →
      Main.selectCipher cipher e0 = (ByteOrder.BigEndian, none)) ∧
    (cipher = some "chachapoly" →
      Main.selectCipher cipher e0 = (ByteOrder.LittleEndian, none)) ∧
    (∀ v : String, cipher = some v → v ≠ "aes" → v ≠ "chachapoly" →
      Main.selectCipher cipher e0 = (e0, some ("unknown cipher: " ++ v))) := by
  refine ⟨?_, ?_, ?_⟩
  · rintro (h | h) <;> subst h <;> rfl
  · intro h; subst h; rfl
  · intro v h h1 h2
    subst h
    simp [Main.selectCipher, h1, h2]

theorem Main_cipher_selection_witness :
    Main.selectCipher none ByteOrder.LittleEndian = (ByteOrder.BigEndian, none) ∧
    Main.selectCipher (some "chachapoly") ByteOrder.BigEndian
      = (ByteOrder.LittleEndian, none) ∧
    Main.selectCipher (some "AES") ByteOrder.LittleEndian
      = (ByteOrder.LittleEndian, some "unknown cipher: AES") :=
  ⟨(Main_cipher_selection none ByteOrder.LittleEndian).1 (Or.inl rfl),
   (Main_cipher_selection (some "chachapoly") ByteOrder.BigEndian).2.1 rfl,
   (Main_cipher_selection (some "AES") ByteOrder.LittleEndian).2.2 "AES" rfl
     (by decide) (by decide)⟩

/-! ## Lighthouse address memory -/

theorem HandleRequest_update (lh : LightHouse) (a : UdpAddr) (X : VpnIp) (n : NebulaMeta)
    (ham : lh.amLighthouse = true) (hty : n.Type_ = .HostUpdateNotification) :
    (HandleRequest lh a X n).1.amLighthouse = true ∧
    (HandleRequest lh a X n).1.addrMap = lh.addrMap.set X
      (((lh.addrMap.get X).getD NewRemoteList).unlockedSetV4 X X n.Details.Ip4AndPorts
        lh.unlockedShouldAddV4) := by
  unfold HandleRequest handleHostUpdateNotification
  rw [hty]
  simp [ham]

theorem newLHHostRequest_eq (lh : LightHouse) (a : UdpAddr) (me q : VpnIp)
    (ham : lh.amLighthouse = true) :
    newLHHostRequest a me q lh =
      (((lh.addrMap.get q).bind (fun v => v.cache.get q)).map
        (fun c => { Type_ := .HostQueryReply, Details := { VpnIp := q, Ip4AndPorts := c } })) := by
  unfold newLHHostRequest HandleRequest handleHostQuery
  simp only [ham, Bool.not_true, Bool.false_eq_true, if_false]
  cases lh.addrMap.get q with
  | none => rfl
  | some v =>
    simp only [Option.bind]
    cases v.cache.get q <;> rfl

/-- C17, amended by the remote allow list: after a lighthouse has handled a
HostUpdateNotification that host `X` sent about itself with the IPv4 list `L`,
its HostQueryReply for `X` lists exactly those of the first 10 entries of `L`
that the `remote_allow_list` admits for `X` and that lie outside the overlay
network, in the order of `L` and with duplicates kept.  So the reply is a
sublist of `L` of at most 10 entries, none inside the overlay network, and it
owes nothing to earlier updates of `X`; when every address of `L` lies outside
the overlay network and is admitted by the `remote_allow_list`, the reply is
exactly the first 10 entries of `L`.  The reply for any other host is the one
given before the update. -/
theorem HostUpdateNotification_memory (lh : LightHouse) (X : VpnIp) (n : NebulaMeta)
    (a b : UdpAddr) (asker : VpnIp)
    (ham : lh.amLighthouse = true)
    (hty : n.Type_ = .HostUpdateNotification)
    (_hx : n.Details.VpnIp = X) :
    newLHHostRequest b asker X (HandleRequest lh a X n).1
      = some ⟨.HostQueryReply, ⟨X, (n.Details.Ip4AndPorts.take 10).filter
          (fun x => lh.remoteAllowList X x.Ip && !lh.myVpnNet.Contains x.Ip)⟩⟩ ∧
    ((n.Details.Ip4AndPorts.take 10).filter
      (fun x => lh.remoteAllowList X x.Ip && !lh.myVpnNet.Contains x.Ip)).Sublist
        n.Details.Ip4AndPorts ∧
    ((n.Details.Ip4AndPorts.take 10).filter
      (fun x => lh.remoteAllowList X x.Ip && !lh.myVpnNet.Contains x.Ip)).length ≤ 10 ∧
    (∀ x ∈ (n.Details.Ip4AndPorts.take 10).filter
        (fun x => lh.remoteAllowList X x.Ip && !lh.myVpnNet.Contains x.Ip),
      lh.myVpnNet.Contains x.Ip = false ∧ lh.remoteAllowList X x.Ip = true) ∧
    ((∀ x ∈ n.Details.Ip4AndPorts,
        lh.myVpnNet.Contains x.Ip = false ∧ lh.remoteAllowList X x.Ip = true) →
      newLHHostRequest b asker X (HandleRequest lh a X n).1
        = some ⟨.HostQueryReply, ⟨X, n.Details.Ip4AndPorts.take 10⟩⟩) ∧
    (∀ Y, Y ≠ X →
      newLHHostRequest b asker Y (HandleRequest lh a X n).1
        = newLHHostRequest b asker Y lh) := by
  have ham2 : (HandleRequest lh a X n).1.amLighthouse = true :=
    (HandleRequest_update lh a X n ham hty).1
  have hmap := (HandleRequest_update lh a X n ham hty).2
  have hmin : ∀ l : List Ip4AndPort, l.take (min l.length 10) = l.take 10 := by
    intro l
    rcases Nat.le_total l.length 10 with h | h
    · rw [Nat.min_eq_left h, List.take_of_length_le h, List.take_of_length_le (le_refl _)]
    · rw [Nat.min_eq_right h]
  have hreply : newLHHostRequest b asker X (HandleRequest lh a X n).1
      = some ⟨.HostQueryReply, ⟨X, (n.Details.Ip4AndPorts.take 10).filter
          (fun x => lh.remoteAllowList X x.Ip && !lh.myVpnNet.Contains x.Ip)⟩⟩ := by
    rw [newLHHostRequest_eq _ b asker X ham2, hmap]
    simp only [NatMap.get_set_self, RemoteList.unlockedSetV4, MaxRemotes, hmin, Option.bind,
      Option.map]
    rfl
  refine ⟨hreply, ?_, ?_, ?_, ?_, ?_⟩
  · exact (List.filter_sublist _).trans (List.take_sublist _ _)
  · exact (List.length_filter_le _ _).trans (List.length_take_le _ _)
  · intro x hxr
    have := (List.mem_filter.mp hxr).2
    simp only [Bool.and_eq_true, Bool.not_eq_true'] at this
    exact ⟨this.2, this.1⟩
  · intro hall
    rw [hreply]
    have hf : (n.Details.Ip4AndPorts.take 10).filter
        (fun x => lh.remoteAllowList X x.Ip && !lh.myVpnNet.Contains x.Ip)
          = n.Details.Ip4AndPorts.take 10 := by
      apply List.filter_eq_self.mpr
      intro x hxr
      have := hall x (List.mem_of_mem_take hxr)
      simp [this.1, this.2]
    rw [hf]
  · intro Y hY
    rw [newLHHostRequest_eq _ b asker Y ham2, newLHHostRequest_eq _ b asker Y ham, hmap]
    have hne : ¬ X = Y := fun e => hY e.symm
    simp only [NatMap.get_set, hne, if_false]

theorem HostUpdateNotification_memory_witness :
    newLHHostRequest ⟨0x0a000002, 4242⟩ 0x0a800002 0x0a800002
        (HandleRequest Fixture.lighthouse ⟨0x0a000002, 4242⟩ 0x0a800002
          ⟨.HostUpdateNotification, ⟨0x0a800002,
            [⟨0x0a800063, 4242⟩, ⟨0x0a800064, 4242⟩, ⟨0x01800063, 4242⟩]⟩⟩).1
      = some ⟨.HostQueryReply, ⟨0x0a800002, [⟨0x01800063, 4242⟩]⟩⟩ :=
  (HostUpdateNotification_memory Fixture.lighthouse 0x0a800002
    ⟨.HostUpdateNotification, ⟨0x0a800002,
      [⟨0x0a800063, 4242⟩, ⟨0x0a800064, 4242⟩, ⟨0x01800063, 4242⟩]⟩⟩
    ⟨0x0a000002, 4242⟩ ⟨0x0a000002, 4242⟩ 0x0a800002 rfl rfl rfl).1

/-- C17, counterexample to the claim as worded: the lighthouse of the test
with a remote allow list that denies 192.168.0.0/16 handles an update of the
host 10.128.0.2 with the addresses 192.168.0.2:4242 and 24.15.0.2:4242.
Neither lies inside the overlay network 10.128.0.1/24, yet the reply for that
host is not the list sent: it holds the second address only. -/
theorem HostUpdateNotification_allow_list_gate :
    (∀ x ∈ [(⟨0xc0a80002, 4242⟩ : Ip4AndPort), ⟨0x180f0002, 4242⟩],
      Fixture.lighthouseDeny.myVpnNet.Contains x.Ip = false) ∧
    newLHHostRequest ⟨0x0a000002, 4242⟩ 0x0a800002 0x0a800002
        (HandleRequest Fixture.lighthouseDeny ⟨0x0a000002, 4242⟩ 0x0a800002
          ⟨.HostUpdateNotification, ⟨0x0a800002,
            [⟨0xc0a80002, 4242⟩, ⟨0x180f0002, 4242⟩]⟩⟩).1
      = some ⟨.HostQueryReply, ⟨0x0a800002, [⟨0x180f0002, 4242⟩]⟩⟩ ∧
    [(⟨0x180f0002, 4242⟩ : Ip4AndPort)]
      ≠ List.take 10 [(⟨0xc0a80002, 4242⟩ : Ip4AndPort), ⟨0x180f0002, 4242⟩] := by
  refine ⟨by decide, rfl, by decide⟩


/-- Replay of `TestLighthouse_Memory`: updates replace the addresses of a
host, leave those of the other host alone, are cut at 10 entries with the
duplicate kept, and do not take in addresses of the overlay network. -/
theorem TestLighthouse_Memory_replay :
    let my0 : UdpAddr := ⟨0x0a000002, 4242⟩
    let my1 : UdpAddr := ⟨0xc0a80002, 4242⟩
    let my2 : UdpAddr := ⟨0xac100002, 4242⟩
    let my3 : UdpAddr := ⟨0x64980002, 4242⟩
    let my4 : UdpAddr := ⟨0x180f0002, 4242⟩
    let myVpnIp : VpnIp := 0x0a800002
    let their0 : UdpAddr := ⟨0x0a000003, 4242⟩
    let their1 : UdpAddr := ⟨0xc0a80003, 4242⟩
    let their2 : UdpAddr := ⟨0xac100003, 4242⟩
    let their3 : UdpAddr := ⟨0x64980003, 4242⟩
    let their4 : UdpAddr := ⟨0x180f0003, 4242⟩
    let theirVpnIp : VpnIp := 0x0a800003
    let reply (ip : VpnIp) (l : List UdpAddr) : Option NebulaMeta :=
      some ⟨.HostQueryReply, ⟨ip, l.map (fun v => ⟨v.IP, v.Port⟩)⟩⟩
    let s1 := newLHHostUpdate my0 myVpnIp [my1, my2] Fixture.lighthouse
    let s2 := newLHHostUpdate my0 myVpnIp [my3] s1
    let s3 := newLHHostUpdate my0 myVpnIp [my1, my4] s2
    let s4 := newLHHostUpdate their0 theirVpnIp [their1, their2, their3, their4] s3
    let s5 := newLHHostUpdate my0 myVpnIp
      [my1, my2, my3, my4, ⟨0xc0a80002, 4243⟩, ⟨0xc0a80002, 4243⟩, ⟨0xc0a80002, 4244⟩,
       ⟨0xc0a80002, 4245⟩, ⟨0xc0a80002, 4246⟩, ⟨0xc0a80002, 4247⟩, ⟨0xc0a80002, 4248⟩,
       ⟨0xc0a80002, 4249⟩] s4
    let s6 := newLHHostUpdate my0 myVpnIp
      [⟨0x0a800063, 4242⟩, ⟨0x0a800064, 4242⟩, ⟨0x01800063, 4242⟩] s5
    newLHHostRequest my0 myVpnIp myVpnIp s1 = reply myVpnIp [my1, my2] ∧
    newLHHostRequest my0 myVpnIp myVpnIp s2 = reply myVpnIp [my3] ∧
    newLHHostRequest my0 myVpnIp myVpnIp s3 = reply myVpnIp [my1, my4] ∧
    newLHHostRequest their0 theirVpnIp theirVpnIp s4
      = reply theirVpnIp [their1, their2, their3, their4] ∧
    newLHHostRequest their0 theirVpnIp myVpnIp s4 = reply myVpnIp [my1, my4] ∧
    newLHHostRequest my0 myVpnIp theirVpnIp s4
      = reply theirVpnIp [their1, their2, their3, their4] ∧
    newLHHostRequest my0 myVpnIp myVpnIp s4 = reply myVpnIp [my1, my4] ∧
    newLHHostRequest my0 myVpnIp myVpnIp s5
      = reply myVpnIp [my1, my2, my3, my4, ⟨0xc0a80002, 4243⟩, ⟨0xc0a80002, 4243⟩,
          ⟨0xc0a80002, 4244⟩, ⟨0xc0a80002, 4245⟩, ⟨0xc0a80002, 4246⟩, ⟨0xc0a80002, 4247⟩] ∧
    newLHHostRequest my0 myVpnIp myVpnIp s6 = reply myVpnIp [⟨0x01800063, 4242⟩] := by
  decide


/-! ## Address arithmetic -/

theorem isMulticast_byte (q : Nat) (hq : q < 256) :
    (((q &&& 0xff) &&& 0xf0) == 0xe0) = (decide (224 ≤ q) && decide (q ≤ 239)) := by
  interval_cases q <;> rfl

/-- C30: `isMulticast` recognises class D.  For a 32-bit overlay address,
`isMulticast` is true if and only if the address lies between 224.0.0.0 and
239.255.255.255, that is, if and only if its four most significant bits are
1110; so it is false for every address below 224.0.0.0 and for the limited
broadcast address 255.255.255.255. -/
theorem isMulticast_iff_class_d (ip : Nat) (hip : ip < 2 ^ 32) :
    (isMulticast ip = true ↔ (0xE0000000 ≤ ip ∧ ip ≤ 0xEFFFFFFF)) ∧
    (isMulticast ip = true ↔ ip / 2 ^ 28 = 0xE) ∧
    (ip < 0xE0000000 → isMulticast ip = false) ∧
    isMulticast 0xFFFFFFFF = false := by
  have h32 : (2 : Nat) ^ 32 = 4294967296 := by norm_num
  have h28 : (2 : Nat) ^ 28 = 268435456 := by norm_num
  have h24 : (2 : Nat) ^ 24 = 16777216 := by norm_num
  rw [h32] at hip
  have hq : ip >>> 24 < 256 := by
    rw [Nat.shiftRight_eq_div_pow, h24]
    omega
  have hiff : isMulticast ip = true ↔ (0xE0000000 ≤ ip ∧ ip ≤ 0xEFFFFFFF) := by
    unfold isMulticast
    rw [isMulticast_byte _ hq, Nat.shiftRight_eq_div_pow, h24]
    simp only [Bool.and_eq_true, decide_eq_true_eq]
    omega
  refine ⟨hiff, ?_, ?_, by decide⟩
  · rw [hiff, h28]
    omega
  · intro hlt
    cases hm : isMulticast ip with
    | false => rfl
    | true =>
      have := (hiff.mp hm).1
      omega

theorem isMulticast_iff_class_d_witness :
    (isMulticast 0xE0000001 = true ↔ (0xE0000000 ≤ 0xE0000001 ∧ 0xE0000001 ≤ 0xEFFFFFFF)) ∧
    isMulticast 0xE0000001 = true ∧ isMulticast 0xF0000000 = false ∧
    isMulticast 0xDFFFFFFF = false :=
  ⟨(isMulticast_iff_class_d 0xE0000001 (by decide)).1, by decide, by decide, by decide⟩


/-! ## Worker count -/

theorem Main.routines_pos_iff (r t u : Option Int) :
    1 ≤ Main.routines r t u ↔ (r.getD 0 ≠ 0 ∨ 1 ≤ t.getD 1 ∨ 1 ≤ u.getD 1) := by
  unfold Main.routines
  simp only
  split
  · split <;> omega
  · split <;> omega

theorem Main.udpConns0_isSome_iff (n : Int) : (Main.udpConns0 n).isSome ↔ 1 ≤ n := by
  unfold Main.udpConns0
  by_cases h : n < 0
  · simp [h]; omega
  · simp only [h, if_false, List.length_replicate]
    by_cases h0 : 0 < n.toNat
    · simp [h0]; omega
    · simp [h0]; omega

/-- C26: the worker count is not clamped on the deprecated path.  With
`routines` unset and both `tun.routines` and `listen.routines` set to 0, `Main`
computes 0 workers, and the read `udpConns[0]` of the slice made with that
length is out of range; with negative values of the two deprecated keys the
count is negative and `make` fails.  On the `routines` path a value below 1 is
raised to 1. -/
theorem Main_routines_deprecated_unclamped :
    Main.routines none (some 0) (some 0) = 0 ∧
    Main.udpConns0 (Main.routines none (some 0) (some 0)) = none ∧
    Main.routines (some 0) (some (-2)) (some (-3)) = -2 ∧
    Main.udpConns0 (Main.routines (some 0) (some (-2)) (some (-3))) = none ∧
    Main.routines (some (-4)) (some 0) (some 0) = 1 := by
  decide

/-! ## Routes -/

theorem findRemovedRoutes.has_eq_any (Equal : Route → Route → Bool) (newRoutes : List Route)
    (entry : Route) :
    findRemovedRoutes.has Equal newRoutes entry = newRoutes.any (fun c => Equal c entry) := by
  induction newRoutes with
  | nil => rfl
  | cons c rest ih =>
    simp only [findRemovedRoutes.has, List.any_cons, ih]
    cases Equal c entry <;> simp

theorem findRemovedRoutes.foldl_eq (p : Route → Bool) (old acc : List Route) :
    old.foldl (fun removed oldEntry => if p oldEntry then removed ++ [oldEntry] else removed) acc
      = acc ++ old.filter p := by
  induction old generalizing acc with
  | nil => simp
  | cons o rest ih =>
    simp only [List.foldl_cons, ih, List.filter_cons]
    cases p o <;> simp

/-- C27: `findRemovedRoutes(newRoutes, oldRoutes)` returns exactly the
entries of `oldRoutes`, in their order and with their multiplicity, to which
no entry of `newRoutes` is `Equal`.  So the result is a sublist of
`oldRoutes`; it is empty when both arguments are the same list and `Equal`
holds between each entry of it and itself; and it is `oldRoutes` when
`newRoutes` is empty. -/
theorem findRemovedRoutes_spec (Equal : Route → Route → Bool)
    (newRoutes oldRoutes : List Route) :
    findRemovedRoutes Equal newRoutes oldRoutes
      = oldRoutes.filter (fun o => !newRoutes.any (fun c => Equal c o)) ∧
    (findRemovedRoutes Equal newRoutes oldRoutes).Sublist oldRoutes ∧
    ((∀ x ∈ oldRoutes, Equal x x = true) → findRemovedRoutes Equal oldRoutes oldRoutes = []) ∧
    findRemovedRoutes Equal [] oldRoutes = oldRoutes := by
  have hspec : ∀ n o : List Route, findRemovedRoutes Equal n o
      = o.filter (fun e => !n.any (fun c => Equal c e)) := by
    intro n o
    unfold findRemovedRoutes
    rw [findRemovedRoutes.foldl_eq (fun e => !findRemovedRoutes.has Equal n e) o []]
    simp only [List.nil_append, findRemovedRoutes.has_eq_any]
  refine ⟨hspec _ _, ?_, ?_, ?_⟩
  · rw [hspec]
    exact List.filter_sublist _
  · intro hrefl
    rw [hspec, List.filter_eq_nil_iff]
    intro a ha
    have : oldRoutes.any (fun c => Equal c a) = true :=
      List.any_eq_true.mpr ⟨a, ha, hrefl a ha⟩
    simp [this]
  · rw [hspec]
    simp

theorem findRemovedRoutes_spec_witness :
    findRemovedRoutes Fixture.routeEqual [Fixture.route 1400]
        [Fixture.route 1300, Fixture.route 1400, Fixture.route 1300]
      = [Fixture.route 1300, Fixture.route 1300] ∧
    findRemovedRoutes Fixture.routeEqual [Fixture.route 1300, Fixture.route 1400]
        [Fixture.route 1300, Fixture.route 1400] = [] :=
  ⟨(findRemovedRoutes_spec Fixture.routeEqual [Fixture.route 1400]
      [Fixture.route 1300, Fixture.route 1400, Fixture.route 1300]).1.trans (by decide),
   (findRemovedRoutes_spec Fixture.routeEqual [Fixture.route 1300, Fixture.route 1400]
      [Fixture.route 1300, Fixture.route 1400]).2.2.1 (by decide)⟩

/-! ## Relay manager: rejected messages -/

theorem NatMap.mem_of_lookupIn {ν : Type} (es : List (Nat × ν)) (k : Nat) (v : ν)
    (h : NatMap.lookupIn es k = some v) : (k, v) ∈ es := by
  induction es with
  | nil => cases h
  | cons e rest ih =>
    unfold NatMap.lookupIn at h
    by_cases hk : e.1 = k
    · rw [if_pos hk] at h
      cases h
      subst hk
      exact List.mem_cons_self _ _
    · rw [if_neg hk] at h
      exact List.mem_cons_of_mem _ (ih h)

theorem NatMap.lookupIn_of_mem {ν : Type} (es : List (Nat × ν)) (k : Nat) (v : ν)
    (hnd : (es.map Prod.fst).Nodup) (h : (k, v) ∈ es) : NatMap.lookupIn es k = some v := by
  induction es with
  | nil => cases h
  | cons e rest ih =>
    rw [List.map_cons, List.nodup_cons] at hnd
    unfold NatMap.lookupIn
    rcases List.mem_cons.mp h with h | h
    · subst h
      simp
    · have hne : ¬ e.1 = k := by
        intro hk
        apply hnd.1
        rw [hk]
        exact List.mem_map.mpr ⟨(k, v), h, rfl⟩
      rw [if_neg hne]
      exact ih hnd.2 h

theorem EstablishRelay_error_iff (f : Interface) (h : HostId) (m : NebulaControl) :
    ((EstablishRelay f h m).2 = .error "unknown relay" ↔
      (f.hosts h).relayState.relays.findVal
        (fun r => r.LocalIndex == m.InitiatorRelayIndex) = none) ∧
    (∀ e, (EstablishRelay f h m).2 = .error e → e = "unknown relay") := by
  cases hfind : (f.hosts h).relayState.relays.findVal
      (fun r => r.LocalIndex == m.InitiatorRelayIndex) with
  | none =>
    have hE : EstablishRelay f h m = (f, .error "unknown relay") := by
      unfold EstablishRelay RelayState.CompleteRelayByIdx
      simp only [hfind]
    rw [hE]
    exact ⟨⟨fun _ => rfl, fun _ => rfl⟩, fun e he => by cases he; rfl⟩
  | some p =>
    obtain ⟨ip, r⟩ := p
    have hE : (EstablishRelay f h m).2 = .ok (r.complete m.ResponderRelayIndex) := by
      unfold EstablishRelay RelayState.CompleteRelayByIdx
      simp only [hfind]
    rw [hE]
    constructor
    · constructor
      · intro he; cases he
      · intro he; cases he
    · intro e he; cases he

/-- C21: unknown or mismatched relay messages are rejected without effect.
(a) `EstablishRelay` fails exactly when the search of the hostinfo's relays
for the local index `m.InitiatorRelayIndex` finds none, and its only error is
"unknown relay"; then no relay that the hostinfo holds has that local index
(and conversely, in a relay map without repeated keys, when no relay held has
that local index the call fails); in that case `EstablishRelay` leaves the
state as it is and `handleCreateRelayResponse` returns the state unchanged
with no event, so nothing is sent.  (b) A CreateRelayRequest addressed to this
node, for whose requester the hostinfo holds an Established relay with a
remote index other than `m.InitiatorRelayIndex`, leaves the state unchanged
and produces no event, so no response is sent. -/
theorem relay_messages_rejected (env : Env) (f : Interface) (h : HostId) (m : NebulaControl) :
    ((EstablishRelay f h m).2 = .error "unknown relay" ↔
      (f.hosts h).relayState.relays.findVal
        (fun r => r.LocalIndex == m.InitiatorRelayIndex) = none) ∧
    (∀ e, (EstablishRelay f h m).2 = .error e → e = "unknown relay") ∧
    ((EstablishRelay f h m).2 = .error "unknown relay" →
      ∀ ip r, (f.hosts h).relayState.QueryRelayForByIp ip = some r →
        r.LocalIndex ≠ m.InitiatorRelayIndex) ∧
    (((f.hosts h).relayState.relays.entries.map Prod.fst).Nodup →
      (∀ ip r, (f.hosts h).relayState.QueryRelayForByIp ip = some r →
        r.LocalIndex ≠ m.InitiatorRelayIndex) →
      (EstablishRelay f h m).2 = .error "unknown relay") ∧
    ((EstablishRelay f h m).2 = .error "unknown relay" →
      (EstablishRelay f h m).1 = f ∧ handleCreateRelayResponse f h m = (f, [])) ∧
    (∀ r : Relay, m.RelayToIp = f.myVpnIp →
      (f.hosts h).relayState.QueryRelayForByIp m.RelayFromIp = some r →
      r.State = Established → r.RemoteIndex ≠ m.InitiatorRelayIndex →
      handleCreateRelayRequest env f h m = (f, [])) := by
  obtain ⟨hiff, hunique⟩ := EstablishRelay_error_iff f h m
  refine ⟨hiff, hunique, ?_, ?_, ?_, ?_⟩
  · intro herr ip r hq hidx
    have hnone := hiff.mp herr
    unfold NatMap.findVal at hnone
    have hall := List.find?_eq_none.mp hnone (ip, r)
      (NatMap.mem_of_lookupIn _ ip r hq)
    simp [hidx] at hall
  · intro hnd hno
    apply hiff.mpr
    unfold NatMap.findVal
    apply List.find?_eq_none.mpr
    intro e he
    have hq : (f.hosts h).relayState.QueryRelayForByIp e.1 = some e.2 :=
      NatMap.lookupIn_of_mem _ e.1 e.2 hnd he
    have := hno e.1 e.2 hq
    simpa using this
  · intro herr
    have hnone := hiff.mp herr
    constructor
    · unfold EstablishRelay RelayState.CompleteRelayByIdx
      simp only [hnone]
    · unfold handleCreateRelayResponse EstablishRelay RelayState.CompleteRelayByIdx
      simp only [hnone]
  · intro r hto hq hst hne
    unfold handleCreateRelayRequest
    dsimp only
    rw [if_pos hto]
    simp only [hq, hst]
    rw [if_pos hne]

theorem relay_messages_rejected_witness :
    handleCreateRelayResponse Fixture.initiatorNode 0 ⟨.CreateRelayResponse, 4711, 4040, 100, 105⟩
      = (Fixture.initiatorNode, []) ∧
    handleCreateRelayRequest Fixture.env Fixture.terminalNode 0
        ⟨.CreateRelayRequest, 8, 0, 105, 1⟩
      = (Fixture.terminalNode, []) :=
  have w := relay_messages_rejected Fixture.env Fixture.initiatorNode 0
    ⟨.CreateRelayResponse, 4711, 4040, 100, 105⟩
  have w2 := relay_messages_rejected Fixture.env Fixture.terminalNode 0
    ⟨.CreateRelayRequest, 8, 0, 105, 1⟩
  ⟨(w.2.2.2.2.1 rfl).2,
   w2.2.2.2.2.2 ⟨TerminalType, Established, 1000, 7, 105⟩ rfl rfl rfl (by decide)⟩


/-! ## Inside packet path: early drops -/

/-- C23: early drops on the inside path.  For a packet that parses, with
destination `d`: when `d` is the node's own overlay IP, or
`drop_local_broadcast` is set and `d` is the local broadcast address, or
`drop_multicast` is set and `isMulticast(d)`, `consumeInsidePacket` returns the
state untouched with no event: no tunnel lookup, no hostinfo created, nothing
queued or sent.  When none of the three holds the packet goes to
`getOrHandshake(d)`: without a hostinfo the call ends with the state and
events of `getOrHandshake`; with a hostinfo, the events of `getOrHandshake`
come first and the queueing or the firewall consultation follows (a hostinfo
without connection state being the nil dereference). -/
theorem consumeInsidePacket_early_drops (env : Env) (f : Interface) (packet : List Nat)
    (q : Nat) (fp : FirewallPacket)
    (hnp : env.newPacket packet = .ok fp) :
    ((fp.RemoteIP = f.myVpnIp ∨
        (f.dropLocalBroadcast = true ∧ fp.RemoteIP = f.localBroadcast) ∨
        (f.dropMulticast = true ∧ isMulticast fp.RemoteIP = true)) →
      consumeInsidePacket env f packet q = some (f, [])) ∧
    (¬ (fp.RemoteIP = f.myVpnIp ∨
        (f.dropLocalBroadcast = true ∧ fp.RemoteIP = f.localBroadcast) ∨
        (f.dropMulticast = true ∧ isMulticast fp.RemoteIP = true)) →
      ((getOrHandshake env f fp.RemoteIP).2.1 = none →
        consumeInsidePacket env f packet q
          = some ((getOrHandshake env f fp.RemoteIP).1, (getOrHandshake env f fp.RemoteIP).2.2)) ∧
      (∀ hi, (getOrHandshake env f fp.RemoteIP).2.1 = some hi →
        ((getOrHandshake env f fp.RemoteIP).1.hosts hi).ConnectionState = none →
        consumeInsidePacket env f packet q = none) ∧
      (∀ hi ci, (getOrHandshake env f fp.RemoteIP).2.1 = some hi →
        ((getOrHandshake env f fp.RemoteIP).1.hosts hi).ConnectionState = some ci →
        ∀ r, consumeInsidePacket env f packet q = some r →
          (getOrHandshake env f fp.RemoteIP).2.2 <+: r.2 ∧
          r.2 ≠ (getOrHandshake env f fp.RemoteIP).2.2)) := by
  constructor
  · intro hdrop
    unfold consumeInsidePacket
    simp only [hnp]
    rcases hdrop with hs | ⟨hb, hbe⟩ | ⟨hm, hme⟩
    · by_cases hb : (f.dropLocalBroadcast && fp.RemoteIP == f.localBroadcast) = true
      · rw [if_pos hb]
      · rw [if_neg hb, if_pos (by simpa using hs)]
    · rw [if_pos (by simp [hb, hbe])]
    · by_cases hb : (f.dropLocalBroadcast && fp.RemoteIP == f.localBroadcast) = true
      · rw [if_pos hb]
      · rw [if_neg hb]
        by_cases hs : (fp.RemoteIP == f.myVpnIp) = true
        · rw [if_pos hs]
        · rw [if_neg hs, if_pos (by simp [hm, hme])]
  · intro hkeep
    have hb : (f.dropLocalBroadcast && fp.RemoteIP == f.localBroadcast) = false := by
      cases hh : (f.dropLocalBroadcast && fp.RemoteIP == f.localBroadcast) with
      | false => rfl
      | true =>
        exfalso; apply hkeep
        simp only [Bool.and_eq_true, beq_iff_eq] at hh
        exact Or.inr (Or.inl hh)
    have hs : (fp.RemoteIP == f.myVpnIp) = false := by
      cases hh : (fp.RemoteIP == f.myVpnIp) with
      | false => rfl
      | true =>
        exfalso; apply hkeep
        exact Or.inl (by simpa using hh)
    have hm : (f.dropMulticast && isMulticast fp.RemoteIP) = false := by
      cases hh : (f.dropMulticast && isMulticast fp.RemoteIP) with
      | false => rfl
      | true =>
        exfalso; apply hkeep
        simp only [Bool.and_eq_true] at hh
        exact Or.inr (Or.inr hh)
    rcases hg : getOrHandshake env f fp.RemoteIP with ⟨f1, res, evs⟩
    refine ⟨?_, ?_, ?_⟩
    · intro hres
      simp only at hres
      subst hres
      unfold consumeInsidePacket
      simp only [hnp, hb, hs, hm, hg, Bool.false_eq_true, if_false]
    · intro hi hres hci
      simp only at hres hci
      subst hres
      unfold consumeInsidePacket
      simp only [hnp, hb, hs, hm, hg, hci, Bool.false_eq_true, if_false]
    · intro hi ci hres hci r hr
      simp only at hres hci
      subst hres
      rw [consumeInsidePacket_of_lookup env f f1 packet q fp hi evs ci hnp hb hs hm hg hci] at hr
      simp only
      split at hr
      · cases hr
        simp [cachePacket]
      · split at hr
        · cases hsend : sendNoMetrics env f1 .Message 0 (some ci) hi (f1.hosts hi).remote
            packet q with
          | none => rw [hsend] at hr; cases hr
          | some x =>
            rw [hsend] at hr
            cases hr
            simp
        · cases hr
          simp

theorem consumeInsidePacket_early_drops_witness :
    consumeInsidePacket Fixture.envMulticast Fixture.dropMulticastNode [1, 2, 3] 0
      = some (Fixture.dropMulticastNode, []) ∧
    consumeInsidePacket Fixture.envMulticast Fixture.readyNode [1, 2, 3] 0
      = some ((getOrHandshake Fixture.envMulticast Fixture.readyNode 0xE0000001).1,
          (getOrHandshake Fixture.envMulticast Fixture.readyNode 0xE0000001).2.2) :=
  ⟨(consumeInsidePacket_early_drops Fixture.envMulticast Fixture.dropMulticastNode [1, 2, 3] 0
      ⟨1, 0xE0000001, 0, 0, 17, false⟩ rfl).1 (Or.inr (Or.inr ⟨rfl, by decide⟩)),
   ((consumeInsidePacket_early_drops Fixture.envMulticast Fixture.readyNode [1, 2, 3] 0
      ⟨1, 0xE0000001, 0, 0, 17, false⟩ rfl).2 (by decide)).1 rfl⟩

/-! ## Static-host trigger -/

theorem PromoteBestQueryVpnIp_trigger (f : Interface) (vpnIp : VpnIp) :
    (PromoteBestQueryVpnIp f vpnIp).1.trigger = f.trigger ∧
    (PromoteBestQueryVpnIp f vpnIp).1.triggerBuffer = f.triggerBuffer ∧
    (PromoteBestQueryVpnIp f vpnIp).1.staticList = f.staticList := by
  unfold PromoteBestQueryVpnIp
  cases f.hostMap.Hosts.get vpnIp with
  | none => exact ⟨rfl, rfl, rfl⟩
  | some hi =>
    simp only
    split
    · split <;> exact ⟨rfl, rfl, rfl⟩
    · exact ⟨rfl, rfl, rfl⟩

theorem getOrHandshake.find_trigger (f : Interface) (vpnIp : VpnIp) :
    (getOrHandshake.find f vpnIp).1.trigger = f.trigger ∧
    (getOrHandshake.find f vpnIp).1.triggerBuffer = f.triggerBuffer ∧
    (getOrHandshake.find f vpnIp).1.staticList = f.staticList := by
  unfold getOrHandshake.find
  have hp := PromoteBestQueryVpnIp_trigger f vpnIp
  rcases hr : PromoteBestQueryVpnIp f vpnIp with ⟨f1, res⟩
  rw [hr] at hp
  simp only at hp
  cases res with
  | some hi => exact hp
  | none =>
    simp only
    cases hq : f1.pendingHostMap.QueryVpnIp vpnIp with
    | some hi => exact hp
    | none =>
      have hq2 : f1.pendingHostMap.Hosts.get vpnIp = none := hq
      simp only [AddVpnIp, AddVpnIp.register, hq2, initHostInfo, Interface.setHost]
      exact hp

theorem tunnelUsable_eq_false_iff (g : Interface) (hi : HostId) :
    tunnelUsable g hi = false ↔
      ((g.hosts hi).ConnectionState = none ∨
        ∃ ci, (g.hosts hi).ConnectionState = some ci ∧
          ((g.conns ci).eKey = none ∨ (g.conns ci).ready = false)) := by
  unfold tunnelUsable
  cases hc : (g.hosts hi).ConnectionState with
  | none => simp
  | some ci =>
    cases hk : (g.conns ci).eKey <;> cases hr : (g.conns ci).ready <;> simp [hk, hr]

/-- C22: the static-host trigger.  For an overlay IP that is routable, let
`vpnIp` be the IP under which the hostinfo is resolved (the IP itself inside
the overlay network, its gateway otherwise).  `getOrHandshake` returns the
resolved hostinfo, and the trigger channel afterwards is the channel before
with `vpnIp` appended exactly when the hostinfo resolved is not usable, its
`HandshakeReady` flag is false before stage 0, `vpnIp` is in the static host
list, and the channel has room; in every other case the channel is as
before, so an offer to a full channel is dropped.  Stage 0 is computed exactly
when the hostinfo is not usable and its `HandshakeReady` flag is false.  A
usable tunnel is returned as it was resolved: no stage 0, channel untouched.
Not usable means: no connection state, or no encrypt key, or not ready. -/
theorem getOrHandshake_static_trigger (env : Env) (f : Interface) (vpnIp0 vpnIp : VpnIp)
    (hroute : getOrHandshake.route env f vpnIp0 = some vpnIp) :
    (getOrHandshake env f vpnIp0).2.1 = some (getOrHandshake.find f vpnIp).2.1 ∧
    (getOrHandshake env f vpnIp0).1.trigger =
      (if tunnelUsable (getOrHandshake.find f vpnIp).1 (getOrHandshake.find f vpnIp).2.1 = false ∧
          ((getOrHandshake.find f vpnIp).1.hosts (getOrHandshake.find f vpnIp).2.1).HandshakeReady
            = false ∧
          f.staticList.contains vpnIp = true
        then (if f.trigger.length < f.triggerBuffer then f.trigger ++ [vpnIp] else f.trigger)
        else f.trigger) ∧
    (Event.ixHandshakeStage0 vpnIp (getOrHandshake.find f vpnIp).2.1
        ∈ (getOrHandshake env f vpnIp0).2.2 ↔
      (tunnelUsable (getOrHandshake.find f vpnIp).1 (getOrHandshake.find f vpnIp).2.1 = false ∧
        ((getOrHandshake.find f vpnIp).1.hosts (getOrHandshake.find f vpnIp).2.1).HandshakeReady
          = false)) ∧
    (tunnelUsable (getOrHandshake.find f vpnIp).1 (getOrHandshake.find f vpnIp).2.1 = true →
      getOrHandshake env f vpnIp0
        = ((getOrHandshake.find f vpnIp).1, some (getOrHandshake.find f vpnIp).2.1,
            (getOrHandshake.find f vpnIp).2.2)) ∧
    (∀ (g : Interface) (hi : HostId), tunnelUsable g hi = false ↔
      ((g.hosts hi).ConnectionState = none ∨
        ∃ ci, (g.hosts hi).ConnectionState = some ci ∧
          ((g.conns ci).eKey = none ∨ (g.conns ci).ready = false))) := by
  rw [← and_assoc, ← and_assoc, ← and_assoc]
  refine ⟨?_, tunnelUsable_eq_false_iff⟩
  rw [and_assoc, and_assoc]
  obtain ⟨ht, hb, hs⟩ := getOrHandshake.find_trigger f vpnIp
  have hev := (getOrHandshake.find_conns f vpnIp).2
  have hnot : Event.ixHandshakeStage0 vpnIp (getOrHandshake.find f vpnIp).2.1
      ∉ (getOrHandshake.find f vpnIp).2.2 := by
    rcases hev with h | h <;> rw [h] <;> simp
  unfold getOrHandshake
  rw [hroute]
  simp only
  cases hu : tunnelUsable (getOrHandshake.find f vpnIp).1 (getOrHandshake.find f vpnIp).2.1 with
  | true =>
    simp only [if_true]
    refine ⟨trivial, ?_, ?_, fun _ => trivial⟩
    · simp [ht]
    · simp [hnot]
  | false =>
    simp only [Bool.false_eq_true, if_false]
    cases hh : ((getOrHandshake.find f vpnIp).1.hosts
        (getOrHandshake.find f vpnIp).2.1).HandshakeReady with
    | true =>
      simp only [Bool.not_true, Bool.false_eq_true, if_false]
      refine ⟨trivial, ?_, ?_⟩
      · simp [ht]
      · simp [hnot]
    | false =>
      simp only [Bool.not_false, if_true]
      refine ⟨trivial, ?_, ?_⟩
      · simp only [ixHandshakeStage0, offerTrigger, Interface.setHost, hs, ht, hb, true_and]
        by_cases hst : f.staticList.contains vpnIp = true
        · simp only [hst, if_true]
          split <;> rfl
        · simp only [hst, if_false]
          rfl
      · simp [ixHandshakeStage0]

theorem getOrHandshake_static_trigger_witness :
    (getOrHandshake Fixture.env Fixture.staticNode 101).1.trigger = [101] ∧
    (getOrHandshake Fixture.env { Fixture.staticNode with trigger := [55] } 101).1.trigger
      = [55] ∧
    (getOrHandshake Fixture.env Fixture.iface 101).1.trigger = [] ∧
    (getOrHandshake Fixture.env { Fixture.readyNode with staticList := ⟨[(101, ())]⟩ }
      101).1.trigger = [] :=
  ⟨(getOrHandshake_static_trigger Fixture.env Fixture.staticNode 101 101 rfl).2.1.trans rfl,
   (getOrHandshake_static_trigger Fixture.env { Fixture.staticNode with trigger := [55] } 101 101
      rfl).2.1.trans rfl,
   (getOrHandshake_static_trigger Fixture.env Fixture.iface 101 101 rfl).2.1.trans rfl,
   (getOrHandshake_static_trigger Fixture.env
      { Fixture.readyNode with staticList := ⟨[(101, ())]⟩ } 101 101 rfl).2.1.trans rfl⟩

/-! ## Relay manager: the first request at the relay node -/

/-- C25: the first CreateRelayRequest for a pair at a relay node.  With
`am_relay` true, a target other than this node whose hostinfo `P` has a remote
address, no relay for the pair on `P` nor on the requesting hostinfo `h`,
`h` other than `P`, and both index allocations succeeding with `i1` and `i2`:
afterwards `P` holds for `m.RelayFromIp` a Forwarding relay in state Requested
with local index `i1` and remote index 0, `h` holds for `m.RelayToIp` a
Forwarding relay in state Requested with local index `i2` and remote index
`m.InitiatorRelayIndex`; `i1` and `i2` differ, neither was a key of
`hm.Relays` before, and `hm.Relays` maps them to `P` and `h`. -/
theorem handleCreateRelayRequest_first_request (env : Env) (f : Interface) (h P : HostId)
    (m : NebulaControl) (i1 i2 : Nat)
    (hto : m.RelayToIp ≠ f.myVpnIp) (ham : f.amRelay = true)
    (hP : f.hostMap.QueryVpnIp m.RelayToIp = some P)
    (hremote : (f.hosts P).remote ≠ none)
    (hnoP : (f.hosts P).relayState.QueryRelayForByIp m.RelayFromIp = none)
    (hnoh : (f.hosts h).relayState.QueryRelayForByIp m.RelayToIp = none)
    (hne : h ≠ P)
    (ha1 : (AddRelay env f P m.RelayFromIp none ForwardingType Requested).2 = .ok i1)
    (ha2 : (AddRelay env (AddRelay env f P m.RelayFromIp none ForwardingType Requested).1 h
      m.RelayToIp (some m.InitiatorRelayIndex) ForwardingType Requested).2 = .ok i2) :
    ((handleCreateRelayRequest env f h m).1.hosts P).relayState.QueryRelayForByIp m.RelayFromIp
      = some ⟨ForwardingType, Requested, i1, 0, m.RelayFromIp⟩ ∧
    ((handleCreateRelayRequest env f h m).1.hosts h).relayState.QueryRelayForByIp m.RelayToIp
      = some ⟨ForwardingType, Requested, i2, m.InitiatorRelayIndex, m.RelayToIp⟩ ∧
    i1 ≠ i2 ∧
    f.hostMap.Relays.get i1 = none ∧ f.hostMap.Relays.get i2 = none ∧
    (handleCreateRelayRequest env f h m).1.hostMap.Relays.get i1 = some P ∧
    (handleCreateRelayRequest env f h m).1.hostMap.Relays.get i2 = some h := by
  obtain ⟨addr, haddr⟩ : ∃ addr, (f.hosts P).remote = some addr := by
    cases hr : (f.hosts P).remote with
    | none => exact absurd hr hremote
    | some a => exact ⟨a, rfl⟩
  rcases AddRelay_spec env f P m.RelayFromIp none ForwardingType Requested
    with ⟨e, p, hp⟩ | ⟨j1, p1, hfree1, hp1⟩
  · rw [hp] at ha1; cases ha1
  rw [hp1] at ha1 ha2
  have hj1 : j1 = i1 := by simpa using ha1
  subst hj1
  simp only at ha2
  rcases AddRelay_spec env
      (AddRelay.install { f with randPos := p1 } P m.RelayFromIp none ForwardingType Requested j1)
      h m.RelayToIp (some m.InitiatorRelayIndex) ForwardingType Requested
    with ⟨e, p, hp⟩ | ⟨j2, p2, hfree2, hp2⟩
  · rw [hp] at ha2; cases ha2
  rw [hp2] at ha2
  have hj2 : j2 = i2 := by simpa using ha2
  subst hj2
  have hPh : ¬ P = h := fun e => hne e.symm
  have hq1 : ((AddRelay.install { f with randPos := p1 } P m.RelayFromIp none ForwardingType
      Requested j1).hosts h).relayState.QueryRelayForByIp m.RelayToIp = none := by
    simpa [AddRelay.install, Function.update_noteq hne] using hnoh
  have hres : (handleCreateRelayRequest env f h m).1 =
      AddRelay.install
        { (AddRelay.install { f with randPos := p1 } P m.RelayFromIp none ForwardingType
            Requested j1) with randPos := p2 }
        h m.RelayToIp (some m.InitiatorRelayIndex) ForwardingType Requested j2 := by
    unfold Nebula.handleCreateRelayRequest
    dsimp only
    rw [if_neg hto, if_neg (show ¬ (!f.amRelay) = true by rw [ham]; decide)]
    simp only [hP, haddr, hnoP, hp1]
    unfold handleCreateRelayRequest.track
    simp only [hq1, hp2]
  have hfree1b : f.hostMap.Relays.get j1 = none := by
    simpa [NatMap.contains] using hfree1
  have hfree2b : (f.hostMap.Relays.set j1 P).get j2 = none := by
    simpa [NatMap.contains, AddRelay.install, HostMap.unlockedMakePrimary] using hfree2
  have hne12 : ¬ j1 = j2 := by
    intro e
    rw [e, NatMap.get_set_self] at hfree2b
    cases hfree2b
  have hne21 : ¬ j2 = j1 := fun e => hne12 e.symm
  rw [hres]
  refine ⟨?_, ?_, hne12, hfree1b, ?_, ?_, ?_⟩
  · simp [AddRelay.install, Function.update_noteq hPh, RelayState.QueryRelayForByIp,
      RelayState.InsertRelay, NatMap.get_set_self]
  · rw [install_query_self]
    rfl
  · rw [NatMap.get_set, if_neg hne12] at hfree2b
    exact hfree2b
  · simp [AddRelay.install, HostMap.unlockedMakePrimary, NatMap.get_set, hne21]
  · simp [AddRelay.install, HostMap.unlockedMakePrimary, NatMap.get_set_self]

theorem handleCreateRelayRequest_first_request_witness :
    ((handleCreateRelayRequest Fixture.env Fixture.relayNodeFresh 1
        ⟨.CreateRelayRequest, 77, 0, 101, 100⟩).1.hosts 0).relayState.QueryRelayForByIp 101
      = some ⟨ForwardingType, Requested, 1000, 0, 101⟩ ∧
    ((handleCreateRelayRequest Fixture.env Fixture.relayNodeFresh 1
        ⟨.CreateRelayRequest, 77, 0, 101, 100⟩).1.hosts 1).relayState.QueryRelayForByIp 100
      = some ⟨ForwardingType, Requested, 1001, 77, 100⟩ ∧
    (handleCreateRelayRequest Fixture.env Fixture.relayNodeFresh 1
        ⟨.CreateRelayRequest, 77, 0, 101, 100⟩).1.hostMap.Relays.get 1000 = some 0 ∧
    (handleCreateRelayRequest Fixture.env Fixture.relayNodeFresh 1
        ⟨.CreateRelayRequest, 77, 0, 101, 100⟩).1.hostMap.Relays.get 1001 = some 1 :=
  have w := handleCreateRelayRequest_first_request Fixture.env Fixture.relayNodeFresh 1 0
    ⟨.CreateRelayRequest, 77, 0, 101, 100⟩ 1000 1001 (by decide) rfl rfl (by decide) rfl rfl
    (by decide) rfl rfl
  ⟨w.1, w.2.1, w.2.2.2.2.2.1, w.2.2.2.2.2.2⟩


/-! ## MTU of the Linux tun -/

theorem newTun.maxMTU_foldl (D : Int) (R : List Route) (acc : Int) :
    acc ≤ R.foldl (fun maxMTU r =>
        if r.effectiveMTU D > maxMTU then r.effectiveMTU D else maxMTU) acc ∧
    (∀ r ∈ R, r.effectiveMTU D ≤ R.foldl (fun maxMTU r =>
        if r.effectiveMTU D > maxMTU then r.effectiveMTU D else maxMTU) acc) ∧
    (R.foldl (fun maxMTU r =>
        if r.effectiveMTU D > maxMTU then r.effectiveMTU D else maxMTU) acc = acc ∨
      ∃ r ∈ R, r.effectiveMTU D = R.foldl (fun maxMTU r =>
        if r.effectiveMTU D > maxMTU then r.effectiveMTU D else maxMTU) acc) := by
  induction R generalizing acc with
  | nil => simp
  | cons r rest ih =>
    simp only [List.foldl_cons, List.mem_cons]
    by_cases hgt : r.effectiveMTU D > acc
    · rw [if_pos hgt]
      obtain ⟨h1, h2, h3⟩ := ih (r.effectiveMTU D)
      refine ⟨by omega, ?_, ?_⟩
      · intro x hx
        rcases hx with hx | hx
        · subst hx; exact h1
        · exact h2 x hx
      · rcases h3 with h3 | ⟨x, hx, hxe⟩
        · exact Or.inr ⟨r, Or.inl rfl, h3.symm⟩
        · exact Or.inr ⟨x, Or.inr hx, hxe⟩
    · rw [if_neg hgt]
      obtain ⟨h1, h2, h3⟩ := ih acc
      refine ⟨h1, ?_, ?_⟩
      · intro x hx
        rcases hx with hx | hx
        · subst hx; omega
        · exact h2 x hx
      · rcases h3 with h3 | ⟨x, hx, hxe⟩
        · exact Or.inl h3
        · exact Or.inr ⟨x, Or.inr hx, hxe⟩

theorem newTun.maxMTU_spec (D : Int) (R : List Route) :
    D ≤ newTun.maxMTU D R ∧
    (∀ r ∈ R, r.effectiveMTU D ≤ newTun.maxMTU D R) ∧
    (newTun.maxMTU D R = D ∨ ∃ r ∈ R, r.effectiveMTU D = newTun.maxMTU D R) :=
  newTun.maxMTU_foldl D R D

theorem wrap64_of_isGoInt (x : Int) (h : isGoInt x) : wrap64 x = x := by
  unfold wrap64
  obtain ⟨h1, h2⟩ := h
  omega

theorem wrap64_sub_40_eq_zero (D : Int) (hD : isGoInt D) : wrap64 (D - 40) = 0 ↔ D = 40 := by
  unfold wrap64
  obtain ⟨h1, h2⟩ := hD
  omega

/-- C28, counterexamples to the claim as worded.  With the default MTU 40 and
one route of MTU 1500, `advMSS` of the default route is 40 - 40 = 0 although a
route has an MTU above the default.  With the default MTU -1 and one route
without MTU, `MaxMTU` is -1, below the MTU 0 of that route, so it is not the
maximum of the default and the MTUs of the routes.  With the default MTU 1300
and one route whose MTU is the least 64-bit integer plus 39, the subtraction
of 40 wraps around: `advMSS` of that route is the greatest 64-bit integer,
which is neither its MTU minus 40 nor below `MaxMTU - 40`. -/
theorem advMSS_default_mtu_40 :
    (newTun 40 [⟨1500, 0, none, none, true⟩]).advMSS Route.zero = 0 ∧
    ¬ (∀ r ∈ [(⟨1500, 0, none, none, true⟩ : Route)], r.MTU ≤ 40) ∧
    (newTun (-1) [Route.zero]).MaxMTU = -1 ∧
    ¬ (∀ r ∈ [Route.zero], r.MTU ≤ (newTun (-1) [Route.zero]).MaxMTU) ∧
    (newTun 1300 [⟨-9223372036854775769, 0, none, none, true⟩]).advMSS
      ⟨-9223372036854775769, 0, none, none, true⟩ = 9223372036854775807 ∧
    ¬ ((newTun 1300 [⟨-9223372036854775769, 0, none, none, true⟩]).advMSS
        ⟨-9223372036854775769, 0, none, none, true⟩
      < (newTun 1300 [⟨-9223372036854775769, 0, none, none, true⟩]).MaxMTU - 40) := by
  decide

/-- C28, amended: for the tun that `newTun` builds from the default MTU `D`
and the routes `R`, all MTUs being 64-bit integers, `MaxMTU` is the maximum of
`D` and the effective MTUs of the routes (their own MTU, or `D` when it is 0),
which for `D >= 0` is the maximum of `D` and the MTUs of the routes.  For
every route, `advMSS` is 0 when the effective MTU equals `MaxMTU`, and
otherwise the effective MTU minus 40 in 64-bit arithmetic, which is the
effective MTU minus 40 unless the effective MTU is below the least 64-bit
integer plus 40; so for a route of `R` whose effective MTU is not below that
bound, a non-zero `advMSS` is below `MaxMTU - 40`.  The default route's
`advMSS` is 0 exactly when no route has an effective MTU above `D`, or `D` is
40. -/
theorem newTun_maxMTU_advMSS (D : Int) (R : List Route)
    (hD : isGoInt D) (hR : ∀ r ∈ R, isGoInt r.MTU) :
    (D ≤ (newTun D R).MaxMTU ∧
      (∀ r ∈ R, r.effectiveMTU D ≤ (newTun D R).MaxMTU) ∧
      ((newTun D R).MaxMTU = D ∨ ∃ r ∈ R, r.effectiveMTU D = (newTun D R).MaxMTU)) ∧
    (0 ≤ D →
      (∀ r ∈ R, r.MTU ≤ (newTun D R).MaxMTU) ∧
      ((newTun D R).MaxMTU = D ∨ ∃ r ∈ R, r.MTU = (newTun D R).MaxMTU)) ∧
    (∀ r : Route, isGoInt r.MTU →
      (r.effectiveMTU D = (newTun D R).MaxMTU → (newTun D R).advMSS r = 0) ∧
      (r.effectiveMTU D ≠ (newTun D R).MaxMTU →
        (newTun D R).advMSS r = wrap64 (r.effectiveMTU D - 40)) ∧
      (r.effectiveMTU D ≠ (newTun D R).MaxMTU →
        -9223372036854775768 ≤ r.effectiveMTU D →
        (newTun D R).advMSS r = r.effectiveMTU D - 40)) ∧
    (∀ r ∈ R, -9223372036854775768 ≤ r.effectiveMTU D →
      (newTun D R).advMSS r ≠ 0 →
      (newTun D R).advMSS r < (newTun D R).MaxMTU - 40) ∧
    ((newTun D R).advMSS Route.zero = 0 ↔
      ((∀ r ∈ R, r.effectiveMTU D ≤ D) ∨ D = 40)) := by
  obtain ⟨h1, h2, h3⟩ := newTun.maxMTU_spec D R
  have hadv : ∀ r : Route, (newTun D R).advMSS r
      = if r.effectiveMTU D ≠ newTun.maxMTU D R then wrap64 (r.effectiveMTU D - 40) else 0 := by
    intro r; rfl
  have hmax : (newTun D R).MaxMTU = newTun.maxMTU D R := rfl
  have heffInt : ∀ r : Route, isGoInt r.MTU → isGoInt (r.effectiveMTU D) := by
    intro r hr
    unfold Route.effectiveMTU
    split
    · exact hD
    · exact hr
  have hexact : ∀ r : Route, isGoInt r.MTU → -9223372036854775768 ≤ r.effectiveMTU D →
      wrap64 (r.effectiveMTU D - 40) = r.effectiveMTU D - 40 := by
    intro r hr hlow
    apply wrap64_of_isGoInt
    have := heffInt r hr
    constructor <;> omega
  rw [hmax]
  refine ⟨⟨h1, h2, h3⟩, ?_, ?_, ?_, ?_⟩
  · intro hD0
    constructor
    · intro r hr
      have := h2 r hr
      unfold Route.effectiveMTU at this
      split at this <;> omega
    · rcases h3 with h3 | ⟨r, hr, hre⟩
      · exact Or.inl h3
      · unfold Route.effectiveMTU at hre
        split at hre
        · exact Or.inl hre.symm
        · exact Or.inr ⟨r, hr, hre⟩
  · intro r hr
    rw [hadv]
    refine ⟨?_, ?_, ?_⟩
    · intro h; simp [h]
    · intro h; simp [h]
    · intro h hlow
      rw [if_pos h]
      exact hexact r hr hlow
  · intro r hr hlow hne
    rw [hadv] at hne ⊢
    have := h2 r hr
    split at hne
    · rename_i hneq
      rw [if_pos hneq, hexact r (hR r hr) hlow]
      omega
    · exact absurd rfl hne
  · rw [hadv]
    have hz : Route.zero.effectiveMTU D = D := rfl
    rw [hz]
    constructor
    · intro h0
      by_cases hDm : D = newTun.maxMTU D R
      · left
        intro r hr
        exact (h2 r hr).trans (le_of_eq hDm.symm)
      · right
        rw [if_pos hDm] at h0
        exact (wrap64_sub_40_eq_zero D hD).mp h0
    · rintro (hall | h40)
      · have hDm : D = newTun.maxMTU D R := by
          rcases h3 with h3 | ⟨r, hr, hre⟩
          · exact h3.symm
          · have := hall r hr
            omega
        simp [hDm.symm]
      · split
        · exact (wrap64_sub_40_eq_zero D hD).mpr h40
        · rfl

theorem newTun_maxMTU_advMSS_witness :
    (newTun 1300 [Fixture.route 0, Fixture.route 1500, Fixture.route 1400]).MaxMTU = 1500 ∧
    (newTun 1300 [Fixture.route 0, Fixture.route 1500, Fixture.route 1400]).advMSS
      (Fixture.route 1400) = 1360 ∧
    (newTun 1300 [Fixture.route 0, Fixture.route 1500, Fixture.route 1400]).advMSS
      (Fixture.route 1400)
      < (newTun 1300 [Fixture.route 0, Fixture.route 1500, Fixture.route 1400]).MaxMTU - 40 :=
  ⟨by decide, by decide,
   (newTun_maxMTU_advMSS 1300 [Fixture.route 0, Fixture.route 1500, Fixture.route 1400]
      (by decide) (by decide)).2.2.2.1 (Fixture.route 1400) (by decide) (by decide)
      (by decide)⟩

/-! ## The write loop of the Linux tun -/

theorem WriteReturn.n_nonneg_of_err_none (r : WriteReturn) (h : r.err = none) : 0 ≤ r.n := by
  cases r with
  | wrote n => exact Int.ofNat_nonneg n
  | failed n e => cases h

theorem tun.Write.loop_returns (write : Nat → List Nat → WriteReturn) (b : List Nat)
    (hb : (b.length : Int) ≤ 9223372036854775807)
    (hle : ∀ k p, (write k p).n ≤ p.length) :
    ∀ (fuel k : Nat), tun.Write.written write b k ≤ b.length →
      b.length - tun.Write.written write b k + 1 ≤ fuel →
      (∀ i, i < k → 0 < (write i (b.drop (tun.Write.written write b i))).n ∧
        (write i (b.drop (tun.Write.written write b i))).err = none) →
      ∃ c err,
        tun.Write.loop write b fuel k (tun.Write.written write b k)
          = some (.ret (tun.Write.written write b (c + 1)) err, c + 1) ∧
        k ≤ c ∧ c + 1 ≤ k + (b.length - tun.Write.written write b k) + 1 ∧
        tun.Write.written write b (c + 1) ≤ b.length ∧
        (∀ i, i < c → 0 < (write i (b.drop (tun.Write.written write b i))).n ∧
          (write i (b.drop (tun.Write.written write b i))).err = none) ∧
        ((tun.Write.written write b (c + 1) = b.length ∧
            err = (write c (b.drop (tun.Write.written write b c))).err) ∨
          (tun.Write.written write b (c + 1) < b.length ∧
            (write c (b.drop (tun.Write.written write b c))).err.isSome = true ∧
            err = (write c (b.drop (tun.Write.written write b c))).err) ∨
          (tun.Write.written write b (c + 1) < b.length ∧
            (write c (b.drop (tun.Write.written write b c))).err = none ∧
            (write c (b.drop (tun.Write.written write b c))).n = 0 ∧
            err = some ErrUnexpectedEOF)) := by
  intro fuel
  induction fuel with
  | zero => intro k _ hf; omega
  | succ fuel ih =>
    intro k hbound hf hprev
    have hnot : ¬ (((tun.Write.written write b k : Nat) : Int) < 0 ∨
        (b.length : Int) < ((tun.Write.written write b k : Nat) : Int)) := by omega
    have hw : tun.Write.written write b (k + 1)
        = if (write k (b.drop (tun.Write.written write b k))).n > 0
          then tun.Write.written write b k
            + (write k (b.drop (tun.Write.written write b k))).n.toNat
          else tun.Write.written write b k := rfl
    have hlen : (write k (b.drop (tun.Write.written write b k))).n
        ≤ ((b.length - tun.Write.written write b k : Nat) : Int) := by
      have := hle k (b.drop (tun.Write.written write b k))
      rwa [List.length_drop] at this
    have hw_le : tun.Write.written write b (k + 1) ≤ b.length := by
      rw [hw]
      split <;> omega
    have hnn1 : (if (write k (b.drop (tun.Write.written write b k))).n > 0
          then wrap64 (((tun.Write.written write b k : Nat) : Int)
            + (write k (b.drop (tun.Write.written write b k))).n)
          else ((tun.Write.written write b k : Nat) : Int))
        = ((tun.Write.written write b (k + 1) : Nat) : Int) := by
      rw [hw]
      by_cases hpos : (write k (b.drop (tun.Write.written write b k))).n > 0
      · rw [if_pos hpos, if_pos hpos, wrap64_of_isGoInt _ (by constructor <;> omega)]
        omega
      · rw [if_neg hpos, if_neg hpos]
    unfold tun.Write.loop
    simp only [hnot, if_false, Int.toNat_ofNat, hnn1, Nat.cast_inj]
    by_cases h1 : tun.Write.written write b (k + 1) = b.length
    · refine ⟨k, (write k (b.drop (tun.Write.written write b k))).err, ?_, le_refl _,
        by omega, hw_le, hprev, Or.inl ⟨h1, rfl⟩⟩
      rw [if_pos h1]
    · have hlt : tun.Write.written write b (k + 1) < b.length := by omega
      rw [if_neg h1]
      by_cases h2 : (write k (b.drop (tun.Write.written write b k))).err.isSome = true
      · refine ⟨k, (write k (b.drop (tun.Write.written write b k))).err, ?_, le_refl _,
          by omega, hw_le, hprev, Or.inr (Or.inl ⟨hlt, h2, rfl⟩)⟩
        rw [if_pos h2]
      · rw [if_neg h2]
        have hnone : (write k (b.drop (tun.Write.written write b k))).err = none := by
          cases h : (write k (b.drop (tun.Write.written write b k))).err with
          | none => rfl
          | some e => rw [h] at h2; simp at h2
        by_cases h3 : (write k (b.drop (tun.Write.written write b k))).n = 0
        · refine ⟨k, some ErrUnexpectedEOF, ?_, le_refl _, by omega, hw_le, hprev,
            Or.inr (Or.inr ⟨hlt, hnone, h3, rfl⟩)⟩
          rw [if_pos h3]
        · rw [if_neg h3]
          have hpos : 0 < (write k (b.drop (tun.Write.written write b k))).n := by
            have := WriteReturn.n_nonneg_of_err_none _ hnone
            omega
          have hgrow : tun.Write.written write b k < tun.Write.written write b (k + 1) := by
            rw [hw, if_pos hpos]
            omega
          have hprev2 : ∀ i, i < k + 1 →
              0 < (write i (b.drop (tun.Write.written write b i))).n ∧
              (write i (b.drop (tun.Write.written write b i))).err = none := by
            intro i hi
            rcases Nat.lt_succ_iff_lt_or_eq.mp hi with hi | hi
            · exact hprev i hi
            · subst hi
              exact ⟨hpos, hnone⟩
          obtain ⟨c, err, hres, hkc, hcb, hcl, hall, hlast⟩ :=
            ih (k + 1) hw_le (by omega) hprev2
          exact ⟨c, err, hres, by omega, by omega, hcl, hall, hlast⟩

/-- C29: the loop of `Write` terminates and accounts bytes exactly.  When
each underlying write returns a count of at most the number of bytes offered,
and of at most 0 whenever it returns an error, `Write` on a buffer of length
`L` returns with any fuel of at least `L + 1` iterations, after `c + 1`
underlying writes with `c + 1 <= L + 1`.  Each of the first `c` writes, the
iterations that did not return, wrote at least one byte and returned no
error.  The count returned is the sum of the positive counts of the writes
and is at most `L`.  Either it is `L` and the error returned is that of the
last write; or it is below `L`, the last write failed, its error is returned
and the count is that of the bytes written before it; or it is below `L`, the
last write wrote nothing without an error, and `io.ErrUnexpectedEOF` is
returned. -/
theorem tun_Write_terminates (write : Nat → List Nat → WriteReturn) (b : List Nat)
    (hb : (b.length : Int) ≤ 9223372036854775807)
    (hle : ∀ k p, (write k p).n ≤ p.length)
    (herr : ∀ k p, (write k p).err.isSome = true → (write k p).n ≤ 0) :
    ∀ fuel, b.length + 1 ≤ fuel →
      ∃ c err,
        tun.Write write b fuel
          = some (.ret (tun.Write.written write b (c + 1)) err, c + 1) ∧
        c + 1 ≤ b.length + 1 ∧
        tun.Write.written write b (c + 1) ≤ b.length ∧
        (∀ i, i < c → 0 < (write i (b.drop (tun.Write.written write b i))).n ∧
          (write i (b.drop (tun.Write.written write b i))).err = none) ∧
        ((tun.Write.written write b (c + 1) = b.length ∧
            err = (write c (b.drop (tun.Write.written write b c))).err) ∨
          (tun.Write.written write b (c + 1) < b.length ∧
            (write c (b.drop (tun.Write.written write b c))).err.isSome = true ∧
            err = (write c (b.drop (tun.Write.written write b c))).err ∧
            tun.Write.written write b (c + 1) = tun.Write.written write b c) ∨
          (tun.Write.written write b (c + 1) < b.length ∧
            (write c (b.drop (tun.Write.written write b c))).err = none ∧
            (write c (b.drop (tun.Write.written write b c))).n = 0 ∧
            err = some ErrUnexpectedEOF)) := by
  intro fuel hf
  obtain ⟨c, err, hres, _, hcb, hcl, hall, hlast⟩ :=
    tun.Write.loop_returns write b hb hle fuel 0 (Nat.zero_le _) (by
      show b.length - 0 + 1 ≤ fuel
      omega)
      (fun i hi => absurd hi (Nat.not_lt_zero i))
  have hcb2 : c + 1 ≤ b.length + 1 := by
    have : tun.Write.written write b 0 = 0 := rfl
    rw [this] at hcb
    omega
  refine ⟨c, err, hres, hcb2, hcl, hall, ?_⟩
  rcases hlast with h | ⟨h1, h2, h3⟩ | h
  · exact Or.inl h
  · refine Or.inr (Or.inl ⟨h1, h2, h3, ?_⟩)
    have hn := herr c (b.drop (tun.Write.written write b c)) h2
    show (if (write c (b.drop (tun.Write.written write b c))).n > 0
        then tun.Write.written write b c
          + (write c (b.drop (tun.Write.written write b c))).n.toNat
        else tun.Write.written write b c) = tun.Write.written write b c
    rw [if_neg (by omega)]
  · exact Or.inr (Or.inr h)

theorem tun_Write_terminates_witness :
    ∃ c err,
      tun.Write Fixture.writeTwo [1, 2, 3, 4, 5] 6
        = some (.ret (tun.Write.written Fixture.writeTwo [1, 2, 3, 4, 5] (c + 1)) err, c + 1) ∧
      c + 1 ≤ 6 ∧
      tun.Write.written Fixture.writeTwo [1, 2, 3, 4, 5] (c + 1) ≤ 5 :=
  match tun_Write_terminates Fixture.writeTwo [1, 2, 3, 4, 5] (by decide)
    (fun _ p => Int.ofNat_le.mpr (Nat.min_le_right 2 p.length))
    (fun _ _ h => absurd h (by simp [Fixture.writeTwo, WriteReturn.err])) 6 (Nat.le_refl 6) with
  | ⟨c, err, h1, h2, h3, _⟩ => ⟨c, err, h1, h2, h3⟩

/-- Runs of `Write`: five bytes with an underlying write that takes two bytes
at a time (three writes, five bytes, no error); an empty buffer; a write that
takes nothing without an error; a write that takes one byte and then fails. -/
theorem tun_Write_run :
    tun.Write Fixture.writeTwo [1, 2, 3, 4, 5] 6 = some (.ret 5 none, 3) ∧
    tun.Write Fixture.writeTwo [] 1 = some (.ret 0 none, 1) ∧
    tun.Write (fun _ _ => .wrote 0) [1, 2] 3 = some (.ret 0 (some ErrUnexpectedEOF), 1) ∧
    tun.Write Fixture.writeThenFail [1, 2] 3 = some (.ret 1 (some "EIO"), 2) := by
  decide


end Nebula
